import Mathlib

/-!
Asset packer: compositor, layer reconciler, pixel source cache, rect population, manifest
emitter and group pipeline.

A shallow embedding of `res/asset_packer/src/asset_packer.c`, and of the lookup
`building_properties_for_type` of `src/building/properties.c`.

* Pixels (`color_t`) are natural numbers; pixel buffers are lists in row-major order.
* A C pointer into a buffer is the index of the pointed element; `none` is the null pointer.
* `unsigned int` index arithmetic is reduced modulo `2 ^ 32` (`u32`).
* An access outside a buffer, or through a null pointer, has no defined result: the
  embedded function returns `none` there.
* The module-level variables `final_image_pixels`, `final_image_width` and
  `final_image_height` are fields of `State`, passed explicitly. `State` also carries two
  ghost lists recording, in order, every source index read and every atlas index written.
* The collaborators that are not among the sources (codec, packing solver, allocator, file
  system, manifest serialization library) are parameters (`Env`) or a log of the calls made
  to them (`xml_event`).
* The enumerators of `building_type` (`building/type.h`, not among the sources) are named by
  strings and valued by a parameter; a pointer into a table is the index of the element.
-/

namespace AssetPacker

/-! ## Machine arithmetic and loops -/

/-- Value of an `unsigned int` expression: reduction modulo `2 ^ 32`. -/
def u32 (n : Nat) : Nat := n % 4294967296

/-- The loop `for (i = start; i < start + count; i++) body`, threading the state through
the body; `none` as soon as one iteration has no defined result. -/
def forLoop {σ : Type} (body : Nat → σ → Option σ) : Nat → Nat → σ → Option σ
  | _, 0, s => some s
  | start, count + 1, s => (body start s).bind (forLoop body (start + 1) count)

/-! ## Data model -/

/-- The `input` member of `image_packer_rect`: the requested size. -/
structure rect_input where
  width : Nat
  height : Nat
deriving DecidableEq, Repr

/-- The `output` member of `image_packer_rect`: the assigned position and the rotated flag. -/
structure rect_output where
  x : Nat
  y : Nat
  rotated : Bool
deriving DecidableEq, Repr

/-- Packing rect of the bin-packing driver (`image_packer_rect`). -/
structure image_packer_rect where
  input : rect_input
  output : rect_output
deriving DecidableEq, Repr

/-- Module-level state of the packer: the atlas buffer and its dimensions, together with the
ghost access record (`reads`: source indices read, `writes`: atlas indices written). -/
structure State where
  final_image_pixels : List Nat
  final_image_width : Nat
  final_image_height : Nat
  reads : List Nat
  writes : List Nat
deriving DecidableEq, Repr

/-- Source Image entry of the cache (`packed_asset`). `rect` points into the rect array of
the packer (by index), `pixels` is the owned decoded buffer. -/
structure packed_asset where
  id : Int
  path : Option String
  rect : Option Nat
  pixels : Option (List Nat)
deriving DecidableEq, Repr

/-- Values of the layer rotation enumeration, in the order fixed by the `LAYER_ROTATE`
label table (`"90"` is value 1, `"180"` value 2, `"270"` value 3). -/
def ROTATE_NONE : Nat := 0
/-- Rotation by 90 degrees. -/
def ROTATE_90_DEGREES : Nat := 1
/-- Rotation by 180 degrees. -/
def ROTATE_180_DEGREES : Nat := 2
/-- Rotation by 270 degrees. -/
def ROTATE_270_DEGREES : Nat := 3

/-- Sprite layer (`layer`), with the fields the packer reads or writes. The chain link
`next` is not part of the record: a chain is a list of layers. -/
structure layer where
  asset_image_path : Option String
  calculated_image_id : Int
  src_x : Int
  src_y : Int
  x_offset : Int
  y_offset : Int
  width : Int
  height : Int
  invert : Nat
  rotate : Nat
  part : Nat
  mask : Nat
  original_image_group : Option String := none
  original_image_id : Option String := none
deriving DecidableEq, Repr

/-- Animation descriptor of a sprite (`image->img.animation`). -/
structure animation where
  num_sprites : Int
  speed_id : Int
  sprite_offset_x : Int
  sprite_offset_y : Int
  can_reverse : Int
deriving DecidableEq, Repr

/-- The `img` member of a sprite: its dimensions, the isometric flag and the animation
descriptor (`none` is the null pointer). -/
structure image where
  width : Int
  height : Int
  is_isometric : Int
  animation : Option animation
deriving DecidableEq, Repr

/-- Sprite (`asset_image`). The layer chain starts at the embedded `first_layer` and goes on
through `next_layers`; `last_layer` points at its last element. -/
structure asset_image where
  id : Option String
  has_defined_size : Bool
  has_frame_elements : Bool
  img : image
  first_layer : layer
  next_layers : List layer
deriving DecidableEq, Repr

/-- Asset group (`image_groups`): its name, its file path and the range of its sprites in the
sprite array. -/
structure image_groups where
  name : String
  path : String
  first_image_index : Nat
  last_image_index : Nat
deriving DecidableEq, Repr

/-! ## Rotation-aware compositor -/

/-- Read `pixels[i]`; records the read. Undefined for a null buffer or an index outside it. -/
def load (pixels : Option (List Nat)) (i : Nat) (s : State) : Option (Nat × State) :=
  match pixels with
  | none => none
  | some p =>
    match p[i]? with
    | none => none
    | some v => some (v, { s with reads := s.reads ++ [i] })

/-- Write `final_image_pixels[i] = v`; records the write. Undefined outside the buffer. -/
def store (i : Int) (v : Nat) (s : State) : Option State :=
  if 0 ≤ i ∧ i < s.final_image_pixels.length then
    some { s with
      final_image_pixels := s.final_image_pixels.set i.toNat v
      writes := s.writes ++ [i.toNat] }
  else none

/-- The call `memcpy(&final_image_pixels[dst], &pixels[src], n * sizeof(color_t))`, as the
element-wise copy of `n` pixels. -/
def memcpy (pixels : Option (List Nat)) (dst src n : Nat) (s : State) : Option State :=
  forLoop (fun i s => (load pixels (src + i) s).bind (fun r => store ((dst + i : Nat) : Int) r.1 r.2))
    0 n s

/-- State of the inner loop of the rotated copy: the moving pointers `src_pixel` and
`dst_pixel`, and the module state. -/
structure RotCursor where
  src_pixel : Nat
  dst_pixel : Int
  st : State

/-- Body of the inner loop of the rotated copy:
`*dst_pixel = *src_pixel++; dst_pixel -= final_image_width;`. -/
def rotated_step (pixels : Option (List Nat)) (c : RotCursor) : Option RotCursor :=
  (load pixels c.src_pixel c.st).bind (fun r =>
    (store c.dst_pixel r.1 r.2).bind (fun s2 =>
      some { src_pixel := c.src_pixel + 1
             dst_pixel := c.dst_pixel - (s2.final_image_width : Int)
             st := s2 }))

/-- Embedding of `copy_to_final_image`. -/
def copy_to_final_image (pixels : Option (List Nat)) (rect : image_packer_rect) (s : State) :
    Option State :=
  if !rect.output.rotated then
    forLoop (fun y s =>
        let src_pixel := u32 (y * rect.input.width)
        let dst_pixel := u32 ((y + rect.output.y) * s.final_image_width + rect.output.x)
        memcpy pixels dst_pixel src_pixel rect.input.width s)
      0 rect.input.height s
  else
    forLoop (fun y s =>
        let src_pixel := u32 (y * rect.input.width)
        let dst_pixel := u32 (u32 (rect.output.y + rect.input.width + 4294967295) *
          s.final_image_width + y + rect.output.x)
        (forLoop (fun _ c => rotated_step pixels c) 0 rect.input.width
          { src_pixel := src_pixel, dst_pixel := (dst_pixel : Int), st := s }).map (·.st))
      0 rect.input.height s

/-- Embedding of `create_final_image`: every cache entry, in order, is copied through its
rect pointer (`packer->rects` is the array the pointers refer to). -/
def create_final_image (rects : List image_packer_rect) :
    List packed_asset → State → Option State
  | [], s => some s
  | asset :: rest, s =>
    match asset.rect.bind (fun i => rects[i]?) with
    | none => none
    | some rect => (copy_to_final_image asset.pixels rect s).bind (create_final_image rects rest)

/-! ## Layer rotation reconciler -/

/-- The `switch (l->rotate)` of `pack_layer`: the rotation one step further in the cycle;
every value outside the enumeration takes the `default` branch. -/
def advance_rotation (rotate : Nat) : Nat :=
  if rotate = ROTATE_90_DEGREES then ROTATE_180_DEGREES
  else if rotate = ROTATE_180_DEGREES then ROTATE_270_DEGREES
  else if rotate = ROTATE_270_DEGREES then ROTATE_NONE
  else ROTATE_90_DEGREES

/-- The rect `packer->rects[l->calculated_image_id]` of a layer; `none` when the index is
outside the rect array. -/
def layer_rect (rects : List image_packer_rect) (l : layer) : Option image_packer_rect :=
  if 0 ≤ l.calculated_image_id then rects[l.calculated_image_id.toNat]? else none

/-- The value an `int` field takes when an `unsigned int` value is assigned to it: the value
itself below `2 ^ 31`, and the value minus `2 ^ 32` from `2 ^ 31` up (the conversion is
implementation-defined in C; this is the two's complement one). -/
def int_of_unsigned (n : Nat) : Int :=
  if u32 n < 2147483648 then (u32 n : Int) else (u32 n : Int) - 4294967296

/-- Embedding of `pack_layer`. An index outside the rect array has no defined result. The
fields of the rect are `unsigned int`, those of the layer are `int`. -/
def pack_layer (rects : List image_packer_rect) (l : layer) : Option layer :=
  match l.asset_image_path with
  | none => some l
  | some _ =>
    match layer_rect rects l with
    | none => none
    | some rect =>
      let l1 := { l with
        src_x := int_of_unsigned rect.output.x, src_y := int_of_unsigned rect.output.y }
      let l2 :=
        if !rect.output.rotated then
          { l1 with
            width := int_of_unsigned rect.input.width
            height := int_of_unsigned rect.input.height }
        else l1
      let l3 :=
        if rect.output.rotated then
          { l2 with
            width := int_of_unsigned rect.input.height
            height := int_of_unsigned rect.input.width
            rotate := advance_rotation l2.rotate }
        else l2
      some l3

/-! ## Pixel source cache -/

/-- The test `strcmp(a, b) == 0` on two C strings; undefined when one is the null pointer. -/
def strcmp_eq (a b : Option String) : Option Bool :=
  match a, b with
  | some x, some y => some (decide (x = y))
  | _, _ => none

/-- Embedding of `new_packed_asset`, the constructor the cache array calls on a new item. -/
def new_packed_asset (asset : packed_asset) (index : Nat) : packed_asset :=
  { asset with id := (index : Int) }

/-- Embedding of `packed_asset_active`, the in-use test of the cache array. -/
def packed_asset_active (asset : packed_asset) : Bool := asset.path.isSome

/-- The `array_foreach` search of `get_asset_image_from_list`, from position `i` on:
`some (some k)` is a pointer to entry `k`, `some none` the null pointer, `none` an undefined
comparison. -/
def find_asset (l : layer) : List packed_asset → Nat → Option (Option Nat)
  | [], _ => some none
  | asset :: rest, i =>
    match strcmp_eq l.asset_image_path asset.path with
    | none => none
    | some true => some (some i)
    | some false => find_asset l rest (i + 1)

/-- Embedding of `get_asset_image_from_list`. -/
def get_asset_image_from_list (packed_assets : List packed_asset) (l : layer) :
    Option (Option Nat) :=
  find_asset l packed_assets 0

/-- Modelled from the spec: `array_new_item` of `core/array.h`, which is not among the
sources. On a miss "a new Source Image is appended with the next sequential id"; the new
item is zero-filled and constructed by `new_packed_asset` with its index. When "allocation
of a new cache slot is exhausted" (`alloc_ok = false`) the array is unchanged and the
returned pointer is null. -/
def array_new_item (packed_assets : List packed_asset) (alloc_ok : Bool) :
    List packed_asset × Option Nat :=
  if alloc_ok then
    (packed_assets ++
      [new_packed_asset { id := 0, path := none, rect := none, pixels := none }
        packed_assets.length],
     some packed_assets.length)
  else (packed_assets, none)

/-- Embedding of `add_asset_image_to_list`; `alloc_ok` tells whether the allocation of a new
cache slot, if one is needed, succeeds. Returns the cache and the layer after the call. -/
def add_asset_image_to_list (alloc_ok : Bool) (packed_assets : List packed_asset) (l : layer) :
    Option (List packed_asset × layer) :=
  match get_asset_image_from_list packed_assets l with
  | none => none
  | some (some k) =>
    match packed_assets[k]? with
    | none => none
    | some asset => some (packed_assets, { l with calculated_image_id := asset.id })
  | some none =>
    match array_new_item packed_assets alloc_ok with
    | (arr, none) => some (arr, l)
    | (arr, some k) =>
      match arr[k]? with
      | none => none
      | some asset =>
        let asset1 := { asset with path := l.asset_image_path }
        some (arr.set k asset1, { l with calculated_image_id := asset1.id })

/-- A sequence of calls of `add_asset_image_to_list`, in order, each with its allocation
outcome; returns the final cache and the layers after their calls. -/
def add_asset_images :
    List packed_asset → List (Bool × layer) → Option (List packed_asset × List layer)
  | cache, [] => some (cache, [])
  | cache, call :: calls =>
    match add_asset_image_to_list call.1 cache call.2 with
    | none => none
    | some r =>
      match add_asset_images r.1 calls with
      | none => none
      | some q => some (q.1, r.2 :: q.2)

/-! ## Rect population -/

/-- Result of the packing solver. -/
structure pack_result where
  packed : Nat
  outputs : List rect_output
  last_image_width : Nat
  last_image_height : Nat

/-- Modelled from the spec: the collaborators of the pipeline that are not among the sources,
each by its contract. The pixel codec: `png_get_image_size` is `probe_size(path) -> (width,
height) | failure` and `png_read` is `decode(path) -> pixel_buffer | failure` (the decoded
pixel by index). The packing solver: `image_packer_pack` takes the requested sizes and
returns the number of rectangles placed, per rectangle `(x, y, rotated)`, and the atlas
dimensions. The allocator and the file system: whether the pixel buffer of a source, a new
cache slot (for layer `j` of sprite `i`), the atlas buffer are obtained and whether the
manifest file can be created. -/
structure Env where
  png_get_image_size : String → Option (Nat × Nat)
  png_read : String → Option (Nat → Nat)
  image_packer_pack : List rect_input → pack_result
  malloc_pixels : String → Bool
  array_alloc : Nat → Nat → Bool
  malloc_final_image : Bool
  fopen_xml : Bool

/-- The pointer `&packer->rects[asset->id]`, by index. -/
def rect_pointer (id : Int) : Option Nat :=
  if 0 ≤ id then some id.toNat else none

/-- Body of the loop of `populate_asset_rects` for one cache entry. Probing a null path, or
writing through a rect pointer outside the rect array, has no defined result. -/
def populate_asset (env : Env) (asset : packed_asset) (rects : List image_packer_rect) :
    Option (packed_asset × List image_packer_rect) :=
  let asset1 := { asset with rect := rect_pointer asset.id }
  match asset1.path with
  | none => none
  | some path =>
    match env.png_get_image_size path with
    | none => some (asset1, rects)
    | some (width, height) =>
      if width = 0 ∨ height = 0 then some (asset1, rects)
      else if !env.malloc_pixels path then some ({ asset1 with pixels := none }, rects)
      else
        match env.png_read path with
        | none => some ({ asset1 with pixels := none }, rects)
        | some content =>
          match asset1.rect with
          | none => none
          | some k =>
            match rects[k]? with
            | none => none
            | some rect =>
              some ({ asset1 with pixels := some ((List.range (width * height)).map content) },
                    rects.set k { rect with input := { width := width, height := height } })

/-- Embedding of `populate_asset_rects`: the entries of the cache in order; returns the cache
and the rect array of the packer after the loop. -/
def populate_asset_rects (env : Env) :
    List packed_asset → List image_packer_rect →
      Option (List packed_asset × List image_packer_rect)
  | [], rects => some ([], rects)
  | asset :: rest, rects =>
    match populate_asset env asset rects with
    | none => none
    | some r =>
      match populate_asset_rects env rest r.2 with
      | none => none
      | some q => some (r.1 :: q.1, q.2)

/-- Outcome of probing and decoding the source at a path: its width, height and pixel buffer
of `width * height` pixels, or `none` when the probe fails, an extent is zero, the buffer
cannot be allocated or the decoding fails. -/
def decoded (env : Env) (path : String) : Option (Nat × Nat × List Nat) :=
  match env.png_get_image_size path with
  | none => none
  | some (width, height) =>
    if width = 0 ∨ height = 0 then none
    else if !env.malloc_pixels path then none
    else
      match env.png_read path with
      | none => none
      | some content => some (width, height, (List.range (width * height)).map content)

/-- The rect of an entry after `populate_asset_rects`: its input size is the decoded size
when the source was decoded, and is left as it was otherwise. -/
def rect_outcome (d : Option (Nat × Nat × List Nat)) (r : image_packer_rect) :
    image_packer_rect :=
  match d with
  | none => r
  | some d => { r with input := { width := d.1, height := d.2.1 } }

/-- The cache as the dedup pass hands it over: the id of every entry is its position, every
entry has a path and none has a pixel buffer yet. -/
def FreshCache (cache : List packed_asset) : Prop :=
  cache.map (fun a => a.id) = (List.range cache.length).map (fun (k : Nat) => (k : Int)) ∧
  (∀ a ∈ cache, a.path ≠ none) ∧ (∀ a ∈ cache, a.pixels = none)

instance (cache : List packed_asset) : Decidable (FreshCache cache) := by
  unfold FreshCache; infer_instance

/-- Modelled from the spec: the rect array after `image_packer_pack` (not among the sources)
has run: the requested sizes are kept and every rect takes the placement the solver returned
for it. -/
def place_rects : List image_packer_rect → List rect_output → List image_packer_rect
  | [], _ => []
  | r :: rs, [] => r :: rs
  | r :: rs, o :: os => { r with output := o } :: place_rects rs os

/-! ## Specification vocabulary -/

/-- Width of the atlas region a rect occupies: the input height when rotated. -/
def placed_width (rect : image_packer_rect) : Nat :=
  if rect.output.rotated then rect.input.height else rect.input.width

/-- Height of the atlas region a rect occupies: the input width when rotated. -/
def placed_height (rect : image_packer_rect) : Nat :=
  if rect.output.rotated then rect.input.width else rect.input.height

/-- The placed region of the rect lies inside the atlas. -/
def Fits (rect : image_packer_rect) (s : State) : Prop :=
  rect.output.x + placed_width rect ≤ s.final_image_width ∧
  rect.output.y + placed_height rect ≤ s.final_image_height

instance (rect : image_packer_rect) (s : State) : Decidable (Fits rect s) := by
  unfold Fits; infer_instance

/-- The atlas buffer holds `final_image_width * final_image_height` pixels (as allocated by
`pack_group`), and every index into it is an `unsigned int` value. -/
def WellFormed (s : State) : Prop :=
  s.final_image_pixels.length = s.final_image_width * s.final_image_height ∧
  s.final_image_width * s.final_image_height < 4294967296

instance (s : State) : Decidable (WellFormed s) := by
  unfold WellFormed; infer_instance

/-- Linear atlas index that receives the source pixel at column `x`, row `y`, read off the
two branches of `copy_to_final_image`; `W` is the atlas width. -/
def placed_index (W : Nat) (rect : image_packer_rect) (x y : Nat) : Nat :=
  if rect.output.rotated then
    (rect.output.y + rect.input.width - 1 - x) * W + y + rect.output.x
  else
    (y + rect.output.y) * W + rect.output.x + x

/-- Atlas pixel at a linear index. -/
def pix (s : State) (j : Nat) : Option Nat := s.final_image_pixels[j]?

/-- Atlas pixel at column `col`, row `row`; `none` outside the atlas. -/
def atlas_pixel (s : State) (col row : Nat) : Option Nat :=
  if col < s.final_image_width ∧ row < s.final_image_height then
    s.final_image_pixels[row * s.final_image_width + col]?
  else none

/-- Contents of a source buffer; the null buffer has no element. -/
def buffer (pixels : Option (List Nat)) : List Nat := pixels.getD []

/-- Two states agree on the dimensions and on the length of the atlas buffer. -/
def SameShape (s s' : State) : Prop :=
  s'.final_image_width = s.final_image_width ∧
  s'.final_image_height = s.final_image_height ∧
  s'.final_image_pixels.length = s.final_image_pixels.length

/-- The rect a cache entry points to. -/
def asset_rect (rects : List image_packer_rect) (asset : packed_asset) :
    Option image_packer_rect :=
  asset.rect.bind (fun i => rects[i]?)

/-- A cache entry ready for composition: its rect pointer is valid, the placed region lies
inside the atlas, and its buffer holds `width * height` pixels (a null buffer holds none). -/
def SourceOk (rects : List image_packer_rect) (s : State) (asset : packed_asset) : Prop :=
  match asset_rect rects asset with
  | none => False
  | some rect =>
    Fits rect s ∧ (buffer asset.pixels).length = rect.input.width * rect.input.height

instance (rects : List image_packer_rect) (s : State) (asset : packed_asset) :
    Decidable (SourceOk rects s asset) := by
  unfold SourceOk; split <;> infer_instance

/-- Column `col`, row `row` belongs to the placed region of the rect. -/
def in_region (rect : image_packer_rect) (col row : Nat) : Prop :=
  rect.output.x ≤ col ∧ col < rect.output.x + placed_width rect ∧
  rect.output.y ≤ row ∧ row < rect.output.y + placed_height rect

/-- The placed regions of two rects have no position in common: one of them is empty, or
they are separated along an axis. -/
def regions_disjoint (a b : image_packer_rect) : Prop :=
  placed_width a = 0 ∨ placed_height a = 0 ∨ placed_width b = 0 ∨ placed_height b = 0 ∨
  a.output.x + placed_width a ≤ b.output.x ∨ b.output.x + placed_width b ≤ a.output.x ∨
  a.output.y + placed_height a ≤ b.output.y ∨ b.output.y + placed_height b ≤ a.output.y

instance (a b : image_packer_rect) : Decidable (regions_disjoint a b) := by
  unfold regions_disjoint; infer_instance

/-- The placed regions of two cache entries are disjoint. -/
def AssetsDisjoint (rects : List image_packer_rect) (a b : packed_asset) : Prop :=
  match asset_rect rects a, asset_rect rects b with
  | some ra, some rb => regions_disjoint ra rb
  | _, _ => True

instance (rects : List image_packer_rect) (a b : packed_asset) :
    Decidable (AssetsDisjoint rects a b) := by
  unfold AssetsDisjoint; split <;> infer_instance

/-- The inverse transpose of a rotated placement: the `width × height` buffer, in row-major
order, whose pixel at column `x`, row `y` is read back from the atlas at column
`rect.x + y`, row `rect.y + width - 1 - x`. -/
def inverse_transpose (s : State) (rect : image_packer_rect) : List (Option Nat) :=
  (List.range rect.input.height).flatMap (fun y =>
    (List.range rect.input.width).map (fun x =>
      atlas_pixel s (rect.output.x + y) (rect.output.y + rect.input.width - 1 - x)))

/-- Column and row of the atlas position that receives the source pixel at column `x`,
row `y`. -/
def cell (rect : image_packer_rect) (x y : Nat) : Nat × Nat :=
  if rect.output.rotated then
    (rect.output.x + y, rect.output.y + rect.input.width - 1 - x)
  else
    (rect.output.x + x, rect.output.y + y)

/-- An atlas of `W × H` zero pixels with an empty access record, as `pack_group` sets it up
(`malloc` followed by `memset` to 0). -/
def blank_atlas (W H : Nat) : State :=
  { final_image_pixels := List.replicate (W * H) 0
    final_image_width := W
    final_image_height := H
    reads := []
    writes := [] }

/-- Invariant of the pixel source cache: every entry has a path, its id is its position, and
no two entries hold the same path. -/
structure CacheInv (cache : List packed_asset) : Prop where
  ids : ∀ (k : Nat) (a : packed_asset), cache[k]? = some a →
    a.id = (k : Int) ∧ ∃ q, a.path = some q
  distinct : ∀ (i j : Nat) (a b : packed_asset), cache[i]? = some a → cache[j]? = some b →
    a.path = b.path → i = j


/-! ## Manifest emitter -/

/-- Modelled from the spec: the manifest serialization library (`core/xml_exporter.h`), which
is not among the sources, is represented by the calls made to it, in order: the document is
the sequence of these calls. -/
inductive xml_event where
  | new_element (name : String) (flag : Int)
  | attribute_int (name : String) (value : Int)
  | attribute_text (name : String) (value : String)
  | close_element (flag : Int)
  | add_text (value : String)
  | newline
deriving DecidableEq, Repr

/-- Label table `LAYER_PART`. -/
def LAYER_PART : List String := ["footprint", "top"]
/-- Label table `LAYER_ROTATE`. -/
def LAYER_ROTATE : List String := ["90", "180", "270"]
/-- Label table `LAYER_INVERT`. -/
def LAYER_INVERT : List String := ["horizontal", "vertical", "both"]
/-- Label table `LAYER_MASK`. -/
def LAYER_MASK : List String := ["grayscale", "alpha"]

/-- Embedding of `add_attribute_int`: the calls it makes to the exporter. -/
def add_attribute_int (name : String) (value : Int) : List xml_event :=
  if value ≠ 0 then [xml_event.attribute_int name value] else []

/-- Embedding of `add_attribute_bool`. -/
def add_attribute_bool (name : String) (value : Int) (expression_if_true : String) :
    List xml_event :=
  if value ≠ 0 then [xml_event.attribute_text name expression_if_true] else []

/-- Embedding of `add_attribute_enum`; reading `display_value[value - 1]` outside the table
has no defined result. -/
def add_attribute_enum (name : String) (value : Nat) (display_value : List String)
    (max_values : Nat) : Option (List xml_event) :=
  if 0 < value ∧ value ≤ max_values then
    match display_value[value - 1]? with
    | none => none
    | some label => some [xml_event.attribute_text name label]
  else some []

/-- Embedding of `add_attribute_string`: a null or empty string emits nothing. -/
def add_attribute_string (name : String) (value : Option String) : List xml_event :=
  match value with
  | none => []
  | some v => if v ≠ "" then [xml_event.attribute_text name v] else []

/-- Embedding of `create_image_xml_line`. -/
def create_image_xml_line (image : asset_image) : List xml_event :=
  [xml_event.new_element "image" 1] ++
  add_attribute_string "id" image.id ++
  (if image.has_defined_size then
    add_attribute_int "width" image.img.width ++ add_attribute_int "height" image.img.height
   else []) ++
  add_attribute_bool "isometric" image.img.is_isometric "true"

/-- Embedding of `create_layer_xml_line`. -/
def create_layer_xml_line (l : layer) : Option (List xml_event) :=
  (add_attribute_enum "invert" l.invert LAYER_INVERT 3).bind (fun invert =>
  (add_attribute_enum "rotate" l.rotate LAYER_ROTATE 3).bind (fun rotate =>
  (add_attribute_enum "part" l.part LAYER_PART 2).bind (fun part =>
  (add_attribute_enum "mask" l.mask LAYER_MASK 2).bind (fun mask =>
    some ([xml_event.new_element "layer" 1] ++
      add_attribute_string "group" l.original_image_group ++
      add_attribute_string "image" l.original_image_id ++
      add_attribute_int "src_x" l.src_x ++
      add_attribute_int "src_y" l.src_y ++
      add_attribute_int "x" l.x_offset ++
      add_attribute_int "y" l.y_offset ++
      add_attribute_int "width" l.width ++
      add_attribute_int "height" l.height ++
      invert ++ rotate ++ part ++ mask ++
      [xml_event.close_element 0])))))

/-- Embedding of `create_animation_xml_line`; it reads through `image->img.animation`. -/
def create_animation_xml_line (image : asset_image) : Option (List xml_event) :=
  match image.img.animation with
  | none => none
  | some anim =>
    some ([xml_event.new_element "animation" 1] ++
      (if !image.has_frame_elements then add_attribute_int "frames" anim.num_sprites else []) ++
      add_attribute_int "speed" anim.speed_id ++
      add_attribute_int "x" anim.sprite_offset_x ++
      add_attribute_int "y" anim.sprite_offset_y ++
      add_attribute_bool "reversible" anim.can_reverse "true")

/-- Embedding of `create_frame_xml_line`. -/
def create_frame_xml_line (l : layer) : Option (List xml_event) :=
  (add_attribute_enum "invert" l.invert LAYER_INVERT 3).bind (fun invert =>
  (add_attribute_enum "rotate" l.rotate LAYER_ROTATE 3).bind (fun rotate =>
    some ([xml_event.new_element "frame" 1] ++
      add_attribute_string "group" l.original_image_group ++
      add_attribute_string "image" l.original_image_id ++
      add_attribute_int "src_x" l.src_x ++
      add_attribute_int "src_y" l.src_y ++
      add_attribute_int "width" l.width ++
      add_attribute_int "height" l.height ++
      invert ++ rotate ++
      [xml_event.close_element 0])))

/-- The exporter is called to add an attribute named `name`. -/
def has_attribute (name : String) (events : List xml_event) : Prop :=
  ∃ e ∈ events, (∃ v, e = xml_event.attribute_int name v) ∨
    (∃ v, e = xml_event.attribute_text name v)

/-- The distinct paths of a sequence of paths in the order of their first occurrence,
continuing the list `seen` of paths already discovered. -/
def discovered_paths : List (Option String) → List (Option String) → List (Option String)
  | seen, [] => seen
  | seen, p :: ps =>
    if p ∈ seen then discovered_paths seen ps else discovered_paths (seen ++ [p]) ps

/-- No attribute of the event sequence carries a default value: every integer attribute is
nonzero and every text attribute is a non-empty string. -/
def sparse_values (events : List xml_event) : Prop :=
  (∀ name v, xml_event.attribute_int name v ∈ events → v ≠ 0) ∧
  (∀ name v, xml_event.attribute_text name v ∈ events → v ≠ "")

/-! ## Group pipeline -/

/-- The layer chain of a sprite, from `first_layer` on. -/
def image_layers (image : asset_image) : List layer :=
  image.first_layer :: image.next_layers

/-- The sprite with the layers of its chain replaced, in place. -/
def with_layers (image : asset_image) (layers : List layer) : asset_image :=
  match layers with
  | [] => image
  | l :: rest => { image with first_layer := l, next_layers := rest }

/-- State of `get_assets_for_group`: the sprite array, the cache and, as a ghost record, the
positions (sprite id, index in the chain) of the layers passed to `add_asset_image_to_list`,
in order. -/
structure register_state where
  images : List asset_image
  packed_assets : List packed_asset
  registered : List (Nat × Nat)
deriving DecidableEq, Repr

/-- The inner loop of `get_assets_for_group` over the chain of sprite `image_id`, from layer
`j` on: every layer with a source path is passed to `add_asset_image_to_list`. Returns the
layers after the calls, the cache and the positions passed. -/
def register_layers (env : Env) (image_id : Nat) :
    Nat → List layer → List packed_asset →
      Option (List layer × List packed_asset × List (Nat × Nat))
  | _, [], cache => some ([], cache, [])
  | j, l :: ls, cache =>
    match l.asset_image_path with
    | none =>
      match register_layers env image_id (j + 1) ls cache with
      | none => none
      | some r => some (l :: r.1, r.2.1, r.2.2)
    | some _ =>
      match add_asset_image_to_list (env.array_alloc image_id j) cache l with
      | none => none
      | some r1 =>
        match register_layers env image_id (j + 1) ls r1.1 with
        | none => none
        | some r => some (r1.2 :: r.1, r.2.1, (image_id, j) :: r.2.2)

/-- Embedding of `get_assets_for_group` on the sprite array `images` (the sprite of id `i` is
`images[i]`; a missing sprite is a null pointer) and the cache. -/
def get_assets_for_group (env : Env) (group : image_groups) (images : List asset_image)
    (packed_assets : List packed_asset) : Option register_state :=
  forLoop (fun image_id (st : register_state) =>
      match st.images[image_id]? with
      | none => none
      | some image =>
        match register_layers env image_id 0 (image_layers image) st.packed_assets with
        | none => none
        | some r =>
          some { images := st.images.set image_id (with_layers image r.1)
                 packed_assets := r.2.1
                 registered := st.registered ++ r.2.2 })
    group.first_image_index (group.last_image_index + 1 - group.first_image_index)
    { images := images, packed_assets := packed_assets, registered := [] }

/-- Modelled from the spec: `image_packer_init` of `core/image_packer.c`, which is not among
the sources. The driver is configured with a count of rectangles; each rect carries its
requested size and its placement, and none has been requested or placed yet. -/
def image_packer_init (num_rectangles : Nat) : List image_packer_rect :=
  List.replicate num_rectangles ⟨⟨0, 0⟩, ⟨0, 0, false⟩⟩

/-- State of the manifest loop of `pack_group`: the sprite array, the calls made to the
exporter so far and, as a ghost record, the positions (sprite id, index in the chain) of the
layers `pack_layer` was called on, in order. -/
structure manifest_state where
  images : List asset_image
  xml : List xml_event
  packed_layers : List (Nat × Nat)
deriving DecidableEq, Repr

/-- The loop `for (layer *l = &image->first_layer; l; l = l->next)` of the manifest loop,
from layer `j` on: `pack_layer` then `create_layer_xml_line` on every layer. Returns the
layers after the calls, the exporter calls and the positions visited. -/
def pack_layers (rects : List image_packer_rect) (image_id : Nat) :
    Nat → List layer → Option (List layer × List xml_event × List (Nat × Nat))
  | _, [] => some ([], [], [])
  | j, l :: ls =>
    match pack_layer rects l with
    | none => none
    | some l1 =>
      match create_layer_xml_line l1 with
      | none => none
      | some ev =>
        match pack_layers rects image_id (j + 1) ls with
        | none => none
        | some r => some (l1 :: r.1, ev ++ r.2.1, (image_id, j) :: r.2.2)

/-- State of the frame loop: the running `image_id` and the state of the manifest loop. -/
structure frame_cursor where
  image_id : Nat
  st : manifest_state
deriving DecidableEq, Repr

/-- Body of the frame loop: `image_id++`, then `pack_layer` and `create_frame_xml_line` on
the `last_layer` of the frame sprite. -/
def pack_frame (rects : List image_packer_rect) (c : frame_cursor) : Option frame_cursor :=
  let image_id := c.image_id + 1
  match c.st.images[image_id]? with
  | none => none
  | some frame =>
    match (image_layers frame).getLast? with
    | none => none
    | some l =>
      match pack_layer rects l with
      | none => none
      | some l1 =>
        match create_frame_xml_line l1 with
        | none => none
        | some ev =>
          some { image_id := image_id
                 st := { images := c.st.images.set image_id
                           (with_layers frame ((image_layers frame).dropLast ++ [l1]))
                         xml := c.st.xml ++ ev
                         packed_layers := c.st.packed_layers ++
                           [(image_id, (image_layers frame).length - 1)] } }

/-- Body of the manifest loop of `pack_group` for the sprite `image_id`; returns the running
`image_id` (advanced past the frames consumed) and the state. -/
def manifest_image (rects : List image_packer_rect) (image_id : Nat) (st : manifest_state) :
    Option frame_cursor :=
  match st.images[image_id]? with
  | none => none
  | some image =>
    match pack_layers rects image_id 0 (image_layers image) with
    | none => none
    | some r =>
      let image1 := with_layers image r.1
      let st1 : manifest_state :=
        { images := st.images.set image_id image1
          xml := st.xml ++ create_image_xml_line image ++ r.2.1
          packed_layers := st.packed_layers ++ r.2.2 }
      match image1.img.animation with
      | none =>
        some { image_id := image_id
               st := { st1 with xml := st1.xml ++ [xml_event.close_element 0] } }
      | some anim =>
        match create_animation_xml_line image1 with
        | none => none
        | some ev =>
          let st2 : manifest_state := { st1 with xml := st1.xml ++ ev }
          let frames :=
            if image1.has_frame_elements then
              forLoop (fun _ c => pack_frame rects c) 0 anim.num_sprites.toNat
                { image_id := image_id, st := st2 }
            else some { image_id := image_id, st := st2 }
          match frames with
          | none => none
          | some c =>
            some { image_id := c.image_id
                   st := { c.st with
                     xml := c.st.xml ++ [xml_event.close_element 0, xml_event.close_element 0] } }

/-- The manifest loop `for (image_id = first; image_id <= last; image_id++)` of `pack_group`.
The body may advance `image_id`; every iteration advances it by one at least, so `fuel`
iterations are all the loop can make when `fuel` is `last + 1 - image_id` or more. -/
def manifest_loop (rects : List image_packer_rect) (last : Nat) :
    Nat → Nat → manifest_state → Option manifest_state
  | 0, _, st => some st
  | fuel + 1, image_id, st =>
    if image_id ≤ last then
      match manifest_image rects image_id st with
      | none => none
      | some c => manifest_loop rects last fuel (c.image_id + 1) c.st
    else some st

/-- What a call of `pack_group` leaves behind: the sprite array, the cache, the sizes
requested from the solver (if it was called), the manifest document written (if any), the
atlas handed to `save_final_image` (if any), and the ghost record of the manifest loop. -/
structure group_output where
  images : List asset_image
  packed_assets : List packed_asset
  requested : Option (List rect_input)
  manifest : Option (List xml_event)
  atlas : Option State
  packed_layers : List (Nat × Nat)
deriving DecidableEq, Repr

/-- Embedding of `pack_group`; `group` is the result of `group_get_from_id` (`none` is the
null pointer). -/
def pack_group (env : Env) (group : Option image_groups) (images : List asset_image) :
    Option group_output :=
  match group with
  | none =>
    some { images := images, packed_assets := [], requested := none, manifest := none,
           atlas := none, packed_layers := [] }
  | some group =>
    if group.name = "" then
      some { images := images, packed_assets := [], requested := none, manifest := none,
             atlas := none, packed_layers := [] }
    else
      match get_assets_for_group env group images [] with
      | none => none
      | some registration =>
        let images1 := registration.images
        let cache := registration.packed_assets
        match populate_asset_rects env cache (image_packer_init cache.length) with
        | none => none
        | some (cache1, rects1) =>
          let requested := rects1.map (fun r => r.input)
          let result := env.image_packer_pack requested
          let rects2 := place_rects rects1 result.outputs
          if result.packed ≠ cache1.length then
            some { images := images1, packed_assets := cache1, requested := some requested,
                   manifest := none, atlas := none, packed_layers := [] }
          else if !env.malloc_final_image then
            some { images := images1, packed_assets := cache1, requested := some requested,
                   manifest := none, atlas := none, packed_layers := [] }
          else
            match create_final_image rects2 cache1
                (blank_atlas result.last_image_width result.last_image_height) with
            | none => none
            | some s1 =>
              let header : List xml_event :=
                [xml_event.add_text
                   "<!-- XML auto packed by asset_packer. DO NOT use as a reference.",
                 xml_event.newline,
                 xml_event.add_text
                   "     Use the assets directory from the source code instead. -->",
                 xml_event.newline, xml_event.newline,
                 xml_event.new_element "assetlist" 0,
                 xml_event.attribute_text "name" group.name]
              match manifest_loop rects2 group.last_image_index
                  (group.last_image_index + 1 - group.first_image_index)
                  group.first_image_index
                  { images := images1, xml := header, packed_layers := [] } with
              | none => none
              | some st =>
                let document := st.xml ++ [xml_event.close_element 0]
                if !env.fopen_xml then
                  some { images := st.images, packed_assets := cache1,
                         requested := some requested, manifest := none, atlas := none,
                         packed_layers := st.packed_layers }
                else
                  some { images := st.images, packed_assets := cache1,
                         requested := some requested, manifest := some document,
                         atlas := some s1, packed_layers := st.packed_layers }

/-! ## Specification vocabulary of the group pipeline -/

/-- The layer with its `calculated_image_id` forgotten. -/
def forget_id (l : layer) : layer := { l with calculated_image_id := 0 }

/-- The sprite with the `calculated_image_id` of all its layers forgotten: two sprites with
the same image under `forget_ids` differ in the `calculated_image_id` of layers only. -/
def forget_ids (image : asset_image) : asset_image :=
  { image with
    first_layer := forget_id image.first_layer
    next_layers := image.next_layers.map forget_id }

/-- The geometry of a layer: its `src_x`, `src_y`, `width`, `height` and `rotate`. -/
def layer_geometry (l : layer) : Int × Int × Int × Int × Nat :=
  (l.src_x, l.src_y, l.width, l.height, l.rotate)

/-- The calls of `add_asset_image_to_list` the chain of sprite `image_id` gives rise to, from
layer `j` on: one for every layer with a source path, with the outcome of its allocation. -/
def layer_calls (env : Env) (image_id : Nat) : Nat → List layer → List (Bool × layer)
  | _, [] => []
  | j, l :: ls =>
    match l.asset_image_path with
    | none => layer_calls env image_id (j + 1) ls
    | some _ => (env.array_alloc image_id j, l) :: layer_calls env image_id (j + 1) ls

/-- The calls of `add_asset_image_to_list` for the sprites `first, ..., first + count - 1`. -/
def group_calls (env : Env) (images : List asset_image) (first count : Nat) :
    List (Bool × layer) :=
  (List.range count).flatMap (fun d =>
    match images[first + d]? with
    | none => []
    | some image => layer_calls env (first + d) 0 (image_layers image))

/-- The source paths of all layers of all sprites of the group that have a source path. -/
def group_paths (group : image_groups) (images : List asset_image) : List (Option String) :=
  (List.range (group.last_image_index + 1 - group.first_image_index)).flatMap (fun d =>
    match images[group.first_image_index + d]? with
    | none => []
    | some image =>
      ((image_layers image).map (fun l => l.asset_image_path)).filter (fun p => p.isSome))

/-- The positions (sprite id, index in the chain) of all layers of the sprites
`first, ..., first + count - 1`, in order. -/
def group_positions (images : List asset_image) (first count : Nat) : List (Nat × Nat) :=
  (List.range count).flatMap (fun d =>
    match images[first + d]? with
    | none => []
    | some image => (List.range (image_layers image).length).map (fun j => (first + d, j)))

/-- The positions of the layers with a source path in the chain of sprite `image_id`, from
layer `j` on. -/
def path_positions (image_id : Nat) : Nat → List layer → List (Nat × Nat)
  | _, [] => []
  | j, l :: ls =>
    if l.asset_image_path.isSome then (image_id, j) :: path_positions image_id (j + 1) ls
    else path_positions image_id (j + 1) ls

/-- The layer at a position of the sprite array. -/
def layer_at (images : List asset_image) (pos : Nat × Nat) : Option layer :=
  match images[pos.1]? with
  | none => none
  | some image => (image_layers image)[pos.2]?

/-- The layer at the position has a source path. -/
def has_path (images : List asset_image) (pos : Nat × Nat) : Bool :=
  match layer_at images pos with
  | none => false
  | some l => l.asset_image_path.isSome

/-- Every layer with a source path of every sprite of the group has a rect: its
`calculated_image_id` is an index of the rect array. -/
def layers_have_rects (rects : List image_packer_rect) (group : image_groups)
    (images : List asset_image) : Bool :=
  (List.range (group.last_image_index + 1 - group.first_image_index)).all (fun d =>
    match images[group.first_image_index + d]? with
    | none => false
    | some image =>
      (image_layers image).all (fun l =>
        l.asset_image_path.isNone || (layer_rect rects l).isSome))

/-- The run of `pack_group` reaches the solver, and the solver returns a count different from
the number of Source Image entries. -/
def solver_fails (env : Env) (group : image_groups) (images : List asset_image) : Bool :=
  match get_assets_for_group env group images [] with
  | none => false
  | some registration =>
    match populate_asset_rects env registration.packed_assets
        (image_packer_init registration.packed_assets.length) with
    | none => false
    | some (cache1, rects1) =>
      decide ((env.image_packer_pack (rects1.map (fun r => r.input))).packed ≠ cache1.length)

/-- The values of the enumerators of `building_type`, by name. The enumeration is declared in
`building/type.h`, which is not among the sources: the values are a parameter of the
embedding. A building type value is a natural number (no enumerator is negative). -/
def building_type_values : Type := String → Nat

/-- The record `building_properties`: the five columns of the tables of `properties.c`
(`SZ FIRE GRP OFF` and the rotation offset). -/
structure building_properties where
  size : Int
  fire_proof : Int
  image_group : Int
  image_offset : Int
  rotation_offset : Int
deriving DecidableEq, Repr

/-- An entry of the table `augustus_building_properties`; `type` is the enumerator the entry
names. -/
structure augustus_building_properties_mapping where
  type : String
  properties : building_properties
  asset_name : Option String
  asset_image_id : Option String
deriving DecidableEq, Repr

/-- One initializer `{type, {size, fire_proof, image_group, image_offset, rotation_offset},
asset_name, asset_image_id}` of the table `augustus_building_properties`; a null string is
`none`. -/
def row (type : String) (size fire_proof image_group image_offset rotation_offset : Int)
    (asset_name asset_image_id : Option String) : augustus_building_properties_mapping :=
  { type := type
    properties :=
      { size := size, fire_proof := fire_proof, image_group := image_group,
        image_offset := image_offset, rotation_offset := rotation_offset }
    asset_name := asset_name
    asset_image_id := asset_image_id }

/-- The table `augustus_building_properties`, entry for entry. -/
def augustus_building_properties : List augustus_building_properties_mapping :=
  [
   row "BUILDING_ROADBLOCK" 1 1 0 0 0 (some "Admin_Logistics") none,
   row "BUILDING_WORKCAMP" 3 0 0 0 0 (some "Admin_Logistics") (some "Workcamp Central"),
   row "BUILDING_GRAND_TEMPLE_CERES" 7 1 0 0 0 (some "Monuments") (some "Ceres Complex Off"),
   row "BUILDING_GRAND_TEMPLE_NEPTUNE" 7 1 0 0 0 (some "Monuments") (some "Neptune Complex Off"),
   row "BUILDING_GRAND_TEMPLE_MERCURY" 7 1 0 0 0 (some "Monuments") (some "Mercury Complex Off"),
   row "BUILDING_GRAND_TEMPLE_MARS" 7 1 0 0 0 (some "Monuments") (some "Mars Complex Off"),
   row "BUILDING_GRAND_TEMPLE_VENUS" 7 1 0 0 0 (some "Monuments") (some "Venus Complex Off"),
   row "BUILDING_SMALL_POND" 2 1 0 0 0 (some "Aesthetics") (some "s pond south off"),
   row "BUILDING_LARGE_POND" 3 1 0 0 0 (some "Aesthetics") (some "l pond south off"),
   row "BUILDING_PINE_TREE" 1 1 0 0 0 (some "Aesthetics") (some "ornamental pine"),
   row "BUILDING_FIR_TREE" 1 1 0 0 0 (some "Aesthetics") (some "ornamental fir"),
   row "BUILDING_OAK_TREE" 1 1 0 0 0 (some "Aesthetics") (some "ornamental oak"),
   row "BUILDING_ELM_TREE" 1 1 0 0 0 (some "Aesthetics") (some "ornamental elm"),
   row "BUILDING_FIG_TREE" 1 1 0 0 0 (some "Aesthetics") (some "ornamental fig"),
   row "BUILDING_PLUM_TREE" 1 1 0 0 0 (some "Aesthetics") (some "ornamental plum"),
   row "BUILDING_PALM_TREE" 1 1 0 0 0 (some "Aesthetics") (some "ornamental palm"),
   row "BUILDING_DATE_TREE" 1 1 0 0 0 (some "Aesthetics") (some "ornamental date"),
   row "BUILDING_PINE_PATH" 1 1 0 0 0 (some "Aesthetics") (some "path orn pine"),
   row "BUILDING_FIR_PATH" 1 1 0 0 0 (some "Aesthetics") (some "path orn fir"),
   row "BUILDING_OAK_PATH" 1 1 0 0 0 (some "Aesthetics") (some "path orn oak"),
   row "BUILDING_ELM_PATH" 1 1 0 0 0 (some "Aesthetics") (some "path orn elm"),
   row "BUILDING_FIG_PATH" 1 1 0 0 0 (some "Aesthetics") (some "path orn fig"),
   row "BUILDING_PLUM_PATH" 1 1 0 0 0 (some "Aesthetics") (some "path orn plum"),
   row "BUILDING_PALM_PATH" 1 1 0 0 0 (some "Aesthetics") (some "path orn palm"),
   row "BUILDING_DATE_PATH" 1 1 0 0 0 (some "Aesthetics") (some "path orn date"),
   row "BUILDING_PAVILION_BLUE" 1 1 0 0 0 (some "Aesthetics") (some "pavilion blue"),
   row "BUILDING_PAVILION_RED" 1 1 0 0 0 (some "Aesthetics") (some "pavilion red"),
   row "BUILDING_PAVILION_ORANGE" 1 1 0 0 0 (some "Aesthetics") (some "pavilion orange"),
   row "BUILDING_PAVILION_YELLOW" 1 1 0 0 0 (some "Aesthetics") (some "pavilion yellow"),
   row "BUILDING_PAVILION_GREEN" 1 1 0 0 0 (some "Aesthetics") (some "pavilion green"),
   row "BUILDING_SMALL_STATUE_ALT" 1 1 0 0 13 (some "Aesthetics") (some "sml statue 2"),
   row "BUILDING_SMALL_STATUE_ALT_B" 1 1 0 0 13 (some "Aesthetics") (some "sml statue 3"),
   row "BUILDING_OBELISK" 2 1 0 0 0 (some "Aesthetics") (some "obelisk"),
   row "BUILDING_PANTHEON" 7 1 0 0 0 (some "Monuments") (some "Pantheon Off"),
   row "BUILDING_ARCHITECT_GUILD" 2 1 0 0 0 (some "Admin_Logistics") (some "Arch Guild OFF"),
   row "BUILDING_MESS_HALL" 3 0 0 0 0 (some "Military") (some "Mess OFF Central"),
   row "BUILDING_LIGHTHOUSE" 3 1 0 0 0 (some "Monuments") (some "Lighthouse OFF"),
   row "BUILDING_TAVERN" 2 0 0 0 0 (some "Health_Culture") (some "Tavern OFF"),
   row "BUILDING_GRAND_GARDEN" 2 1 0 0 0 (some "") (some ""),
   row "BUILDING_ARENA" 3 0 0 0 0 (some "Health_Culture") (some "Arena OFF"),
   row "BUILDING_HORSE_STATUE" 3 1 0 0 1 (some "Aesthetics") (some "Eque Statue"),
   row "BUILDING_DOLPHIN_FOUNTAIN" 2 1 0 0 0 (some "") (some ""),
   row "BUILDING_HEDGE_DARK" 1 1 0 0 0 (some "Aesthetics") (some "D Hedge 01"),
   row "BUILDING_HEDGE_LIGHT" 1 1 0 0 0 (some "Aesthetics") (some "L Hedge 01"),
   row "BUILDING_LOOPED_GARDEN_WALL" 1 1 0 0 0 (some "Aesthetics") (some "C Garden Wall 01"),
   row "BUILDING_LEGION_STATUE" 2 1 0 0 1 (some "Aesthetics") (some "legio statue"),
   row "BUILDING_DECORATIVE_COLUMN" 1 1 0 0 0 (some "Aesthetics") (some "sml col B"),
   row "BUILDING_COLONNADE" 1 1 0 0 0 (some "Aesthetics") (some "G Colonnade 01"),
   row "BUILDING_GARDEN_PATH" 1 1 0 0 0 (some "Aesthetics") (some "Garden Path 01"),
   row "BUILDING_LARARIUM" 1 0 0 0 0 (some "Health_Culture") (some "Lararium 01"),
   row "BUILDING_NYMPHAEUM" 3 1 0 0 0 (some "Monuments") (some "Nymphaeum OFF"),
   row "BUILDING_SMALL_MAUSOLEUM" 2 1 0 0 1 (some "Monuments") (some "Mausoleum S"),
   row "BUILDING_LARGE_MAUSOLEUM" 3 1 0 0 0 (some "Monuments") (some "Mausoleum L"),
   row "BUILDING_WATCHTOWER" 2 1 0 0 0 (some "Military") (some "Watchtower C OFF"),
   row "BUILDING_LIBRARY" 2 0 0 0 0 (some "Health_Culture") (some "Downgraded_Library"),
   row "BUILDING_CARAVANSERAI" 4 1 0 0 0 (some "Monuments") (some "Caravanserai_C_OFF"),
   row "BUILDING_SMALL_STATUE" 1 1 0 0 (-12) (some "Aesthetics") (some "V Small Statue"),
   row "BUILDING_ROOFED_GARDEN_WALL" 1 1 0 0 0 (some "Aesthetics") (some "R Garden Wall 01"),
   row "BUILDING_ROOFED_GARDEN_WALL_GATE" 1 1 0 0 0 (some "Aesthetics") (some "Garden_Gate_B"),
   row "BUILDING_PALISADE" 1 1 0 0 0 (some "Military") (some "Pal Wall C 01"),
   row "BUILDING_HEDGE_GATE_DARK" 1 1 0 0 0 (some "Aesthetics") (some "D Hedge Gate"),
   row "BUILDING_HEDGE_GATE_LIGHT" 1 1 0 0 0 (some "Aesthetics") (some "L Hedge Gate"),
   row "BUILDING_PALISADE_GATE" 1 1 0 0 0 (some "Military") (some "Palisade_Gate"),
   row "BUILDING_MEDIUM_STATUE" 2 1 0 0 1 (some "Aesthetics") (some "Med_Statue_R"),
   row "BUILDING_GLADIATOR_STATUE" 1 1 0 0 1 (some "Aesthetics") (some ""),
   row "BUILDING_HIGHWAY" 2 1 0 0 0 (some "Admin_Logistics") (some "Highway_Placement"),
   row "BUILDING_GOLD_MINE" 2 0 0 0 0 (some "Industry") (some "Gold_Mine_C_OFF"),
   row "BUILDING_STONE_QUARRY" 2 0 0 0 0 (some "Industry") (some "Stone_Quarry_C_OFF"),
   row "BUILDING_SAND_PIT" 2 0 0 0 0 (some "Industry") (some "Sand_Pit_C_OFF"),
   row "BUILDING_BRICKWORKS" 2 0 0 0 0 (some "Industry") (some "Brickworks_C_OFF"),
   row "BUILDING_CONCRETE_MAKER" 2 0 0 0 0 (some "Industry") (some "Concrete_Maker_C_OFF"),
   row "BUILDING_CITY_MINT" 3 1 0 0 0 (some "Monuments") (some "City_Mint_ON"),
   row "BUILDING_DEPOT" 2 0 0 0 0 (some "Admin_Logistics") (some "Cart Depot N OFF"),
   row "BUILDING_LOOPED_GARDEN_GATE" 1 1 0 0 0 (some "Aesthetics") (some "Garden_Gate"),
   row "BUILDING_PANELLED_GARDEN_GATE" 1 1 0 0 0 (some "Aesthetics") (some "Garden_Gate_C"),
   row "BUILDING_PANELLED_GARDEN_WALL" 1 1 0 0 0 (some "Aesthetics") (some "Garden_Wall_C"),
   row "BUILDING_SHRINE_CERES" 1 0 0 0 1 (some "Health_Culture") (some "Altar_Ceres"),
   row "BUILDING_SHRINE_MARS" 1 0 0 0 1 (some "Health_Culture") (some "Altar_Mars"),
   row "BUILDING_SHRINE_MERCURY" 1 0 0 0 1 (some "Health_Culture") (some "Altar_Mercury"),
   row "BUILDING_SHRINE_NEPTUNE" 1 0 0 0 1 (some "Health_Culture") (some "Altar_Neptune"),
   row "BUILDING_SHRINE_VENUS" 1 0 0 0 1 (some "Health_Culture") (some "Altar_Venus"),
   row "BUILDING_OVERGROWN_GARDENS" 1 1 0 0 0 (some "Aesthetics") (some "Overgrown_Garden_01"),
   row "BUILDING_FORT_AUXILIA_INFANTRY" 3 1 0 0 0 (some "Military") none,
   row "BUILDING_FORT_ARCHERS" 3 1 0 0 0 (some "Military") none,
   row "BUILDING_ARMOURY" 2 0 0 0 0 (some "Military") (some "Armoury_OFF_C")]

/-- A pointer returned by `building_properties_for_type`:
`&augustus_building_properties[i].properties` or `&properties[i]`. -/
inductive properties_pointer where
  | augustus (i : Nat)
  | vanilla (i : Nat)
deriving DecidableEq, Repr

/-- Embedding of `is_vanilla_building_with_changed_properties`. -/
def is_vanilla_building_with_changed_properties (val : building_type_values) (type : Nat) :
    Bool :=
  decide (type = val "BUILDING_LIBRARY") || decide (type = val "BUILDING_SMALL_STATUE") ||
    decide (type = val "BUILDING_MEDIUM_STATUE")

/-- The loop `for (size_t i = 0; i < AUGUSTUS_BUILDINGS; ++i)` of
`building_properties_for_type` from entry `i` on: the index of the first entry whose type is
`type`, if there is one. -/
def find_mapping (val : building_type_values) (type : Nat) :
    List augustus_building_properties_mapping → Nat → Option Nat
  | [], _ => none
  | entry :: rest, i =>
    if val entry.type = type then some i else find_mapping val type rest (i + 1)

/-- Embedding of `building_properties_for_type`. -/
def building_properties_for_type (val : building_type_values) (type : Nat) :
    properties_pointer :=
  if type > val "BUILDING_TYPE_MAX" then properties_pointer.vanilla 0
  else
    let found :=
      if decide (type ≥ val "BUILDING_ROADBLOCK") ||
          is_vanilla_building_with_changed_properties val type then
        find_mapping val type augustus_building_properties 0
      else none
    match found with
    | some i => properties_pointer.augustus i
    | none => properties_pointer.vanilla type

/-- The pointer refers to an element of its table: an index below the number of entries of
`augustus_building_properties`, or below `BUILDING_TYPE_MAX`, the number of elements of the
table `properties`. -/
def points_to_element (val : building_type_values) : properties_pointer → Prop
  | properties_pointer.augustus i => i < augustus_building_properties.length
  | properties_pointer.vanilla i => i < val "BUILDING_TYPE_MAX"

instance (val : building_type_values) (p : properties_pointer) :
    Decidable (points_to_element val p) := by
  cases p <;> unfold points_to_element <;> infer_instance

/-- What the lookup is to return for the type `t`: an entry of `augustus_building_properties`
whose type is `t`, or the element `properties[t]` with `t < BUILDING_TYPE_MAX`, or the
element `properties[0]` for a `t` out of range. -/
def proper_lookup (val : building_type_values) (t : Nat) (p : properties_pointer) : Prop :=
  (∃ i entry, p = properties_pointer.augustus i ∧
    augustus_building_properties[i]? = some entry ∧ val entry.type = t) ∨
  (p = properties_pointer.vanilla t ∧ t < val "BUILDING_TYPE_MAX") ∨
  (p = properties_pointer.vanilla 0 ∧ val "BUILDING_TYPE_MAX" ≤ t ∧
    0 < val "BUILDING_TYPE_MAX")

/-! ## Example inputs -/

/-- Example rect array: a 2 × 2 source placed unrotated at (0, 0) and a 2 × 1 source placed
rotated at (2, 0). -/
def example_rects : List image_packer_rect :=
  [⟨⟨2, 2⟩, ⟨0, 0, false⟩⟩, ⟨⟨2, 1⟩, ⟨2, 0, true⟩⟩]

/-- Example cache of two decoded sources, pointing at `example_rects`. -/
def example_assets : List packed_asset :=
  [{ id := 0, path := some "a.png", rect := some 0, pixels := some [1, 2, 3, 4] },
   { id := 1, path := some "b.png", rect := some 1, pixels := some [5, 6] }]

/-- Example layer: authored with rotation 90 degrees, referring to source 1 of
`example_rects`. -/
def example_layer : layer :=
  { asset_image_path := some "b.png", calculated_image_id := 1, src_x := 0, src_y := 0,
    x_offset := 3, y_offset := -2, width := 0, height := 0,
    invert := 1, rotate := ROTATE_90_DEGREES, part := 2, mask := 1 }

/-- Example layer referring to the source path `name`, not yet registered with the cache. -/
def example_call (name : String) : Bool × layer :=
  (true, { example_layer with asset_image_path := some name, calculated_image_id := 0 })

/-- Example animation descriptor: two frames given as sibling sprites. -/
def example_animation : animation :=
  { num_sprites := 2, speed_id := 1, sprite_offset_x := 0, sprite_offset_y := 4,
    can_reverse := 1 }

/-- Example animated sprite with one layer. -/
def example_image : asset_image :=
  { id := some "tower", has_defined_size := true, has_frame_elements := true,
    img := { width := 58, height := 0, is_isometric := 1, animation := some example_animation },
    first_layer := example_layer, next_layers := [] }

/-- Example environment: `a.png` is a 2 × 1 source that decodes, `b.png` cannot be probed,
`c.png` is a 1 × 1 source that decodes; the solver places the decoded sources side by side in
a 3 × 1 atlas; every allocation succeeds and the manifest file can be created. -/
def example_env : Env :=
  { png_get_image_size := fun path =>
      if path = "a.png" then some (2, 1) else if path = "c.png" then some (1, 1) else none
    png_read := fun path =>
      if path = "a.png" then some (fun i => 10 + i)
      else if path = "c.png" then some (fun _ => 7) else none
    image_packer_pack := fun sizes =>
      { packed := sizes.length
        outputs := [⟨0, 0, false⟩, ⟨0, 0, false⟩, ⟨2, 0, false⟩]
        last_image_width := 3
        last_image_height := 1 }
    malloc_pixels := fun _ => true
    array_alloc := fun _ _ => true
    malloc_final_image := true
    fopen_xml := true }

/-- Example cache as the dedup pass leaves it, for the sources `a.png`, `b.png`, `c.png`. -/
def example_cache : List packed_asset :=
  [{ id := 0, path := some "a.png", rect := none, pixels := none },
   { id := 1, path := some "b.png", rect := none, pixels := none },
   { id := 2, path := some "c.png", rect := none, pixels := none }]

/-- The rect array before any size is requested: every field is zero. -/
def blank_rects (n : Nat) : List image_packer_rect :=
  List.replicate n ⟨⟨0, 0⟩, ⟨0, 0, false⟩⟩

/-- Example layer on the source `b.png` (entry 1 of `example_cache`), authored 10 wide and
20 high. -/
def example_stale_layer : layer :=
  { example_layer with
    asset_image_path := some "b.png", calculated_image_id := 1, width := 10, height := 20 }

/-- Example layer that refers to an original image instead of a source file. -/
def example_plain_layer : layer :=
  { asset_image_path := none, calculated_image_id := 0, src_x := 0, src_y := 0,
    x_offset := 1, y_offset := 0, width := 4, height := 5,
    invert := 0, rotate := ROTATE_NONE, part := 0, mask := 0,
    original_image_group := some "terrain", original_image_id := some "grass" }

/-- Example sprite array of one group: an animated sprite with two layers (one on `a.png`,
one without a source path) and two frame sprites after it (on `b.png` and `a.png`), then a
plain sprite on `c.png`. -/
def example_images : List asset_image :=
  [{ example_image with
       first_layer := (example_call "a.png").2, next_layers := [example_plain_layer] },
   { id := none, has_defined_size := false, has_frame_elements := false,
     img := { width := 0, height := 0, is_isometric := 0, animation := none },
     first_layer := example_stale_layer, next_layers := [] },
   { id := none, has_defined_size := false, has_frame_elements := false,
     img := { width := 0, height := 0, is_isometric := 0, animation := none },
     first_layer := (example_call "a.png").2, next_layers := [] },
   { id := some "wall", has_defined_size := false, has_frame_elements := false,
     img := { width := 0, height := 0, is_isometric := 0, animation := none },
     first_layer := (example_call "c.png").2, next_layers := [] }]

/-- Example group over the four sprites of `example_images`. -/
def example_group : image_groups :=
  { name := "walls", path := "walls.xml", first_image_index := 0, last_image_index := 3 }

/-- Example environment in which the cache slot for the layer of sprite 3 cannot be
allocated; everything else is as in `example_env`. -/
def example_exhausted_env : Env :=
  { example_env with array_alloc := fun i _ => decide (i ≠ 3) }

/-- Example environment in which the solver places no rectangle; everything else is as in
`example_env`. -/
def example_unpacked_env : Env :=
  { example_env with
    image_packer_pack := fun _ =>
      { packed := 0, outputs := [], last_image_width := 0, last_image_height := 0 } }

/-- The example group after the dedup pass in `example_env`: the layer on `c.png` of sprite 3
got the id 2, every other layer kept the id it had; the cache is `example_cache`. -/
def example_registration : register_state :=
  { images := example_images.set 3
      { id := some "wall", has_defined_size := false, has_frame_elements := false,
        img := { width := 0, height := 0, is_isometric := 0, animation := none },
        first_layer := { (example_call "c.png").2 with calculated_image_id := 2 },
        next_layers := [] }
    packed_assets := example_cache
    registered := [(0, 0), (1, 0), (2, 0), (3, 0)] }

/-- Example values of the enumerators: `BUILDING_TYPE_MAX` is 300, the three vanilla
buildings with changed properties are 41, 42 and 61, and every other enumerator named in
`augustus_building_properties` is 115 plus the position of its entry. -/
def example_enumerators : building_type_values := fun name =>
  if name = "BUILDING_TYPE_MAX" then 300
  else if name = "BUILDING_SMALL_STATUE" then 41
  else if name = "BUILDING_MEDIUM_STATUE" then 42
  else if name = "BUILDING_LIBRARY" then 61
  else 115 + (augustus_building_properties.map (fun entry => entry.type)).indexOf name

/-- Example environment in which the cache slot for the layer of sprite 1 cannot be
allocated while every later allocation succeeds; the solver places two sources side by side
in a 3 × 1 atlas; everything else is as in `example_env`. -/
def example_retry_env : Env :=
  { example_env with
    array_alloc := fun i _ => decide (i ≠ 1)
    image_packer_pack := fun sizes =>
      { packed := sizes.length
        outputs := [⟨0, 0, false⟩, ⟨2, 0, false⟩]
        last_image_width := 3
        last_image_height := 1 } }

/-- Example sprite array: three plain sprites with one layer each, on `a.png`, `c.png` and
`c.png`; every layer starts with the `calculated_image_id` 0. -/
def example_retry_images : List asset_image :=
  [{ id := some "first", has_defined_size := false, has_frame_elements := false,
     img := { width := 0, height := 0, is_isometric := 0, animation := none },
     first_layer := (example_call "a.png").2, next_layers := [] },
   { id := some "second", has_defined_size := false, has_frame_elements := false,
     img := { width := 0, height := 0, is_isometric := 0, animation := none },
     first_layer := (example_call "c.png").2, next_layers := [] },
   { id := some "third", has_defined_size := false, has_frame_elements := false,
     img := { width := 0, height := 0, is_isometric := 0, animation := none },
     first_layer := (example_call "c.png").2, next_layers := [] }]

/-- Example group over the three sprites of `example_retry_images`. -/
def example_retry_group : image_groups :=
  { name := "retry", path := "retry.xml", first_image_index := 0, last_image_index := 2 }

/-! ## Loop rule and memory lemmas -/

theorem u32_of_lt {n : Nat} (h : n < 4294967296) : u32 n = n := Nat.mod_eq_of_lt h

/-- Loop rule: an invariant established at the start and carried by every iteration holds
at the end, and the loop has a defined result. -/
theorem forLoop_inv_from {σ : Type} (Inv : Nat → σ → Prop) (body : Nat → σ → Option σ) :
    ∀ (count start : Nat) (s : σ), Inv start s →
      (∀ i t, start ≤ i → i < start + count → Inv i t → ∃ t', body i t = some t' ∧ Inv (i + 1) t') →
      ∃ s', forLoop body start count s = some s' ∧ Inv (start + count) s' := by
  intro count
  induction count with
  | zero => intro start s h0 _; exact ⟨s, rfl, by simpa using h0⟩
  | succ k ih =>
    intro start s h0 hstep
    obtain ⟨t, ht, hinv⟩ := hstep start s (Nat.le_refl _) (by omega) h0
    obtain ⟨s', hs', hfin⟩ := ih (start + 1) t hinv
      (fun i u hi hlt hu => hstep i u (by omega) (by omega) hu)
    refine ⟨s', ?_, ?_⟩
    · simp [forLoop, ht, hs']
    · have : start + (k + 1) = start + 1 + k := by omega
      rw [this]; exact hfin

theorem forLoop_inv {σ : Type} (Inv : Nat → σ → Prop) (body : Nat → σ → Option σ)
    (n : Nat) (s : σ) (h0 : Inv 0 s)
    (hstep : ∀ i t, i < n → Inv i t → ∃ t', body i t = some t' ∧ Inv (i + 1) t') :
    ∃ s', forLoop body 0 n s = some s' ∧ Inv n s' := by
  have := forLoop_inv_from Inv body n 0 s h0
    (fun i t _ hlt hi => hstep i t (by omega) hi)
  simpa using this

theorem sameShape_refl (s : State) : SameShape s s := ⟨rfl, rfl, rfl⟩

theorem sameShape_trans {a b c : State} (h1 : SameShape a b) (h2 : SameShape b c) :
    SameShape a c :=
  ⟨h2.1.trans h1.1, h2.2.1.trans h1.2.1, h2.2.2.trans h1.2.2⟩

theorem load_some {p : List Nat} {i : Nat} (h : i < p.length) (s : State) :
    load (some p) i s = some (p[i], { s with reads := s.reads ++ [i] }) := by
  simp [load, List.getElem?_eq_getElem h]

theorem store_some {i : Nat} {s : State} (v : Nat) (h : i < s.final_image_pixels.length) :
    store (i : Int) v s = some { s with
      final_image_pixels := s.final_image_pixels.set i v
      writes := s.writes ++ [i] } := by
  simp [store, h]

theorem load_buffer {pixels : Option (List Nat)} {i : Nat} (h : i < (buffer pixels).length)
    (s : State) :
    load pixels i s = some ((buffer pixels)[i], { s with reads := s.reads ++ [i] }) := by
  cases pixels with
  | none => simp [buffer] at h
  | some p => exact load_some h s

theorem memcpy_spec (pixels : Option (List Nat)) (dst src n : Nat) (s : State)
    (hdst : dst + n ≤ s.final_image_pixels.length) (hsrc : src + n ≤ (buffer pixels).length) :
    ∃ s', memcpy pixels dst src n s = some s' ∧ SameShape s s' ∧
      (∀ i, i < n → pix s' (dst + i) = (buffer pixels)[src + i]?) ∧
      (∀ j, (j < dst ∨ dst + n ≤ j) → pix s' j = pix s j) ∧
      s'.writes = s.writes ++ (List.range n).map (fun i => dst + i) ∧
      s'.reads = s.reads ++ (List.range n).map (fun i => src + i) := by
  unfold memcpy
  obtain ⟨s', hs', hsh, hA, hB, hW, hR⟩ := forLoop_inv
    (fun i t => SameShape s t ∧
      (∀ k, k < i → pix t (dst + k) = (buffer pixels)[src + k]?) ∧
      (∀ j, (j < dst ∨ dst + i ≤ j) → pix t j = pix s j) ∧
      t.writes = s.writes ++ (List.range i).map (fun k => dst + k) ∧
      t.reads = s.reads ++ (List.range i).map (fun k => src + k))
    (fun i s => (load pixels (src + i) s).bind (fun r => store ((dst + i : Nat) : Int) r.1 r.2))
    n s ⟨sameShape_refl s, by intro k hk; omega, by intro j _; rfl, by simp, by simp⟩
    (by
      intro i t hi ⟨hsh, hA, hB, hW, hR⟩
      have hlen : dst + i < t.final_image_pixels.length := by rw [hsh.2.2]; omega
      have hsi : src + i < (buffer pixels).length := by omega
      dsimp only
      rw [load_buffer hsi]
      simp only [Option.some_bind]
      have hst := store_some (s := { t with reads := t.reads ++ [src + i] })
        ((buffer pixels)[src + i]) (i := dst + i) hlen
      rw [hst]
      refine ⟨_, rfl, ?_, ?_, ?_, ?_, ?_⟩
      · exact ⟨hsh.1, hsh.2.1, by simp [hsh.2.2]⟩
      · intro k hk
        by_cases hki : k = i
        · subst hki
          simp [pix, List.getElem?_set_self hlen, List.getElem?_eq_getElem hsi]
        · have hne : dst + i ≠ dst + k := by omega
          have := hA k (by omega)
          simpa [pix, List.getElem?_set_ne hne] using this
      · intro j hj
        have hne : dst + i ≠ j := by omega
        have := hB j (by omega)
        simpa [pix, List.getElem?_set_ne hne] using this
      · simp [hW, List.range_succ]
      · simp [hR, List.range_succ])
  exact ⟨s', hs', hsh, hA, hB, hW, hR⟩

theorem index_inj {W a b c d : Nat} (hc : c < W) (hd : d < W) (h : a * W + c = b * W + d) :
    a = b ∧ c = d := by
  have hW : 0 < W := by omega
  have h1 : (a * W + c) / W = a := by
    rw [Nat.add_comm, Nat.add_mul_div_right _ _ hW, Nat.div_eq_of_lt hc]; simp
  have h2 : (b * W + d) / W = b := by
    rw [Nat.add_comm, Nat.add_mul_div_right _ _ hW, Nat.div_eq_of_lt hd]; simp
  have hab : a = b := by rw [← h1, ← h2, h]
  subst hab
  exact ⟨rfl, by omega⟩

/-- Specification of a row loop: when every iteration `y` copies the `w` source pixels
`g x y` to the atlas indices `f x y` and touches nothing else, the loop over `h` rows copies
the whole `w × h` block and touches nothing else. -/
theorem rows_spec (pixels : Option (List Nat)) (inner : Nat → State → Option State)
    (f g : Nat → Nat → Nat) (w h : Nat) (s : State)
    (hinner : ∀ y t, y < h → SameShape s t →
      ∃ t', inner y t = some t' ∧ SameShape t t' ∧
        (∀ x, x < w → pix t' (f x y) = (buffer pixels)[g x y]?) ∧
        (∀ j, (∀ x, x < w → j ≠ f x y) → pix t' j = pix t j) ∧
        t'.writes = t.writes ++ (List.range w).map (fun x => f x y) ∧
        t'.reads = t.reads ++ (List.range w).map (fun x => g x y))
    (hinj : ∀ x y x' y', x < w → y < h → x' < w → y' < h → f x y = f x' y' → x = x' ∧ y = y') :
    ∃ s', forLoop inner 0 h s = some s' ∧ SameShape s s' ∧
      (∀ y x, y < h → x < w → pix s' (f x y) = (buffer pixels)[g x y]?) ∧
      (∀ j, (∀ y x, y < h → x < w → j ≠ f x y) → pix s' j = pix s j) ∧
      s'.writes = s.writes ++ (List.range h).flatMap (fun y => (List.range w).map (fun x => f x y)) ∧
      s'.reads = s.reads ++ (List.range h).flatMap (fun y => (List.range w).map (fun x => g x y)) := by
  apply forLoop_inv
    (fun n t => SameShape s t ∧
      (∀ y x, y < n → x < w → pix t (f x y) = (buffer pixels)[g x y]?) ∧
      (∀ j, (∀ y x, y < n → x < w → j ≠ f x y) → pix t j = pix s j) ∧
      t.writes = s.writes ++ (List.range n).flatMap (fun y => (List.range w).map (fun x => f x y)) ∧
      t.reads = s.reads ++ (List.range n).flatMap (fun y => (List.range w).map (fun x => g x y)))
  · exact ⟨sameShape_refl s, by intro y x hy; omega, by intro j _; rfl, by simp, by simp⟩
  · intro y t hy ⟨hsh, hA, hB, hW, hR⟩
    obtain ⟨t', ht', hsh', hA', hB', hW', hR'⟩ := hinner y t hy hsh
    refine ⟨t', ht', sameShape_trans hsh hsh', ?_, ?_, ?_, ?_⟩
    · intro y' x hy' hx
      by_cases hyy : y' = y
      · subst hyy; exact hA' x hx
      · rw [hB' (f x y')]
        · exact hA y' x (by omega) hx
        · intro x' hx' heq
          have := hinj x y' x' y hx (by omega) hx' hy heq
          exact hyy this.2
    · intro j hj
      rw [hB' j (fun x hx => hj y x (by omega) hx)]
      exact hB j (fun y' x hy' hx => hj y' x (by omega) hx)
    · simp [hW', hW, List.range_succ]
    · simp [hR', hR, List.range_succ]

/-- Specification of the inner loop of the rotated copy: starting at `dst_pixel = d0` and
stepping back one atlas row per pixel, it copies `n` consecutive source pixels to the
indices `f 0, f 1, ...` and touches nothing else. -/
theorem rotated_row_spec (pixels : Option (List Nat)) (src0 : Nat) (d0 : Int) (n : Nat)
    (f : Nat → Nat) (s : State)
    (hf : ∀ x, x < n → (f x : Int) = d0 - (x : Int) * (s.final_image_width : Int))
    (hlen : ∀ x, x < n → f x < s.final_image_pixels.length)
    (hinj : ∀ x x', x < n → x' < n → f x = f x' → x = x')
    (hsrc : src0 + n ≤ (buffer pixels).length) :
    ∃ c, forLoop (fun _ c => rotated_step pixels c) 0 n
          { src_pixel := src0, dst_pixel := d0, st := s } = some c ∧
      SameShape s c.st ∧
      (∀ x, x < n → pix c.st (f x) = (buffer pixels)[src0 + x]?) ∧
      (∀ j, (∀ x, x < n → j ≠ f x) → pix c.st j = pix s j) ∧
      c.st.writes = s.writes ++ (List.range n).map f ∧
      c.st.reads = s.reads ++ (List.range n).map (fun x => src0 + x) := by
  obtain ⟨c, hc, -, -, hsh, hA, hB, hW, hR⟩ := forLoop_inv
    (fun i (c : RotCursor) => c.src_pixel = src0 + i ∧
      c.dst_pixel = d0 - (i : Int) * (s.final_image_width : Int) ∧
      SameShape s c.st ∧
      (∀ x, x < i → pix c.st (f x) = (buffer pixels)[src0 + x]?) ∧
      (∀ j, (∀ x, x < i → j ≠ f x) → pix c.st j = pix s j) ∧
      c.st.writes = s.writes ++ (List.range i).map f ∧
      c.st.reads = s.reads ++ (List.range i).map (fun x => src0 + x))
    (fun _ c => rotated_step pixels c) n
    { src_pixel := src0, dst_pixel := d0, st := s }
    ⟨rfl, by simp, sameShape_refl s, by intro x hx; omega, by intro j _; rfl, by simp, by simp⟩
    (by
      intro i c hi ⟨hsrcp, hdstp, hsh, hA, hB, hW, hR⟩
      have hl : f i < c.st.final_image_pixels.length := by rw [hsh.2.2]; exact hlen i hi
      have hsi : src0 + i < (buffer pixels).length := by omega
      have hd : c.dst_pixel = ((f i : Nat) : Int) := by rw [hdstp, hf i hi]
      dsimp only
      unfold rotated_step
      rw [hsrcp, load_buffer hsi]
      simp only [Option.some_bind]
      rw [hd, store_some (s := { c.st with reads := c.st.reads ++ [src0 + i] })
        ((buffer pixels)[src0 + i]) (i := f i) hl]
      simp only [Option.some_bind]
      refine ⟨_, rfl, rfl, ?_, ?_, ?_, ?_, ?_, ?_⟩
      · simp only [hsh.1]
        rw [hf i hi]; push_cast; ring
      · exact ⟨hsh.1, hsh.2.1, by simp [hsh.2.2]⟩
      · intro x hx
        by_cases hxi : x = i
        · subst hxi
          simp [pix, List.getElem?_set_self hl, List.getElem?_eq_getElem hsi]
        · have hne : f i ≠ f x := fun h => hxi (hinj i x hi (by omega) h).symm
          have := hA x (by omega)
          simpa [pix, List.getElem?_set_ne hne] using this
      · intro j hj
        have hne : f i ≠ j := fun h => hj i (by omega) h.symm
        have := hB j (fun x hx => hj x (by omega))
        simpa [pix, List.getElem?_set_ne hne] using this
      · simp [hW, List.range_succ]
      · simp [hR, List.range_succ])
  exact ⟨c, hc, hsh, hA, hB, hW, hR⟩

theorem copy_to_final_image_spec (pixels : Option (List Nat)) (rect : image_packer_rect)
    (s : State) (hwf : WellFormed s) (hfit : Fits rect s)
    (hbuf : (buffer pixels).length = rect.input.width * rect.input.height) :
    ∃ s', copy_to_final_image pixels rect s = some s' ∧ SameShape s s' ∧
      (∀ y x, y < rect.input.height → x < rect.input.width →
        pix s' (placed_index s.final_image_width rect x y)
          = (buffer pixels)[y * rect.input.width + x]?) ∧
      (∀ j, (∀ y x, y < rect.input.height → x < rect.input.width →
          j ≠ placed_index s.final_image_width rect x y) → pix s' j = pix s j) ∧
      s'.writes = s.writes ++ (List.range rect.input.height).flatMap (fun y =>
        (List.range rect.input.width).map (fun x => placed_index s.final_image_width rect x y)) ∧
      s'.reads = s.reads ++ (List.range rect.input.height).flatMap (fun y =>
        (List.range rect.input.width).map (fun x => y * rect.input.width + x)) := by
  obtain ⟨⟨w, h⟩, ⟨rx, ry, rot⟩⟩ := rect
  obtain ⟨pxs, W, H, rds, wrs⟩ := s
  obtain ⟨hlen, hsz⟩ := hwf
  simp only [WellFormed, Fits, placed_width, placed_height] at hlen hsz hfit hbuf ⊢
  cases rot with
  | false =>
    simp only [Bool.false_eq_true, if_false] at hfit
    obtain ⟨hfx, hfy⟩ := hfit
    simp only [copy_to_final_image, placed_index, Bool.not_false, if_true, Bool.false_eq_true,
      if_false]
    apply rows_spec pixels _ (fun x y => (y + ry) * W + rx + x) (fun x y => y * w + x)
    · intro y t hy hsh
      have hrow : (y + 1) * w ≤ h * w := Nat.mul_le_mul_right _ (by omega)
      have hrow2 : (y + ry + 1) * W ≤ H * W := Nat.mul_le_mul_right _ (by omega)
      have hwh : h * w ≤ H * w := Nat.mul_le_mul_right _ (by omega)
      have hwh2 : H * w ≤ H * W := Nat.mul_le_mul_left _ (by omega)
      have e1 : (y + 1) * w = y * w + w := by ring
      have e2 : (y + ry + 1) * W = (y + ry) * W + W := by ring
      have e3 : W * H = H * W := Nat.mul_comm _ _
      have e4 : w * h = h * w := Nat.mul_comm _ _
      have hs1 : u32 (y * w) = y * w := u32_of_lt (by omega)
      have hs2 : u32 ((y + ry) * t.final_image_width + rx) = (y + ry) * W + rx := by
        rw [hsh.1]; exact u32_of_lt (by simp only; omega)
      rw [hs1, hs2]
      obtain ⟨t', ht', hsh', hA, hB, hW, hR⟩ := memcpy_spec pixels ((y + ry) * W + rx) (y * w) w t
        (by rw [hsh.2.2]; simp only; omega) (by omega)
      refine ⟨t', ht', hsh', hA, ?_, hW, hR⟩
      intro j hj
      apply hB
      by_contra hcon
      exact hj (j - ((y + ry) * W + rx)) (by omega) (by omega)
    · intro x y x' y' hx hy hx' hy' heq
      have := index_inj (W := W) (a := y + ry) (b := y' + ry) (c := rx + x) (d := rx + x')
        (by omega) (by omega) (by omega)
      omega
  | true =>
    simp only [if_true] at hfit
    obtain ⟨hfx, hfy⟩ := hfit
    simp only [copy_to_final_image, placed_index, Bool.not_true, Bool.false_eq_true, if_false,
      if_true]
    apply rows_spec pixels _ (fun x y => (ry + w - 1 - x) * W + y + rx) (fun x y => y * w + x)
    · intro y t hy hsh
      dsimp only
      rcases Nat.eq_zero_or_pos w with hw0 | hwpos
      · subst hw0
        refine ⟨t, by simp [forLoop], sameShape_refl t, by intro x hx; omega, by intro j _; rfl,
          by simp, by simp⟩
      · have hrow : (y + 1) * w ≤ h * w := Nat.mul_le_mul_right _ (by omega)
        have e1 : (y + 1) * w = y * w + w := by ring
        have e4 : w * h = h * w := Nat.mul_comm _ _
        have hHW : H ≤ W * H := Nat.le_mul_of_pos_left _ (by omega)
        have hrow2 : (ry + w - 1 + 1) * W ≤ H * W := Nat.mul_le_mul_right _ (by omega)
        have e2 : (ry + w - 1 + 1) * W = (ry + w - 1) * W + W := by ring
        have e3 : W * H = H * W := Nat.mul_comm _ _
        have hs1 : u32 (y * w) = y * w := by
          have h1 : h * w ≤ W * w := Nat.mul_le_mul_right _ (by omega)
          have h2 : W * w ≤ W * H := Nat.mul_le_mul_left _ (by omega)
          exact u32_of_lt (by omega)
        have hs0 : u32 (ry + w + 4294967295) = ry + w - 1 := by
          unfold u32; omega
        have hs2 : u32 (u32 (ry + w + 4294967295) * t.final_image_width + y + rx)
            = (ry + w - 1) * W + y + rx := by
          rw [hs0, hsh.1]; exact u32_of_lt (by simp only; omega)
        rw [hs1, hs2]
        obtain ⟨c, hc, hsh', hA, hB, hW, hR⟩ := rotated_row_spec pixels (y * w)
          (((ry + w - 1) * W + y + rx : Nat) : Int) w (fun x => (ry + w - 1 - x) * W + y + rx) t
          (by
            intro x hx
            obtain ⟨k, rfl⟩ : ∃ k, w = x + 1 + k := ⟨w - x - 1, by omega⟩
            have a1 : ry + (x + 1 + k) - 1 - x = ry + k := by omega
            have a2 : ry + (x + 1 + k) - 1 = ry + x + k := by omega
            rw [hsh.1]
            dsimp only
            rw [a1, a2]
            push_cast; ring)
          (by
            intro x hx
            rw [hsh.2.2]
            have : (ry + w - 1 - x + 1) * W ≤ H * W := Nat.mul_le_mul_right _ (by omega)
            have e5 : (ry + w - 1 - x + 1) * W = (ry + w - 1 - x) * W + W := by ring
            simp only; omega)
          (by
            intro x x' hx hx' heq
            have := index_inj (W := W) (a := ry + w - 1 - x) (b := ry + w - 1 - x')
              (c := y + rx) (d := y + rx) (by omega) (by omega) (by dsimp only at heq; omega)
            omega)
          (by omega)
        exact ⟨c.st, by rw [hc]; rfl, hsh', hA, hB, hW, hR⟩
    · intro x y x' y' hx hy hx' hy' heq
      have := index_inj (W := W) (a := ry + w - 1 - x) (b := ry + w - 1 - x')
        (c := y + rx) (d := y' + rx) (by omega) (by omega) (by omega)
      omega

/-! ## Geometry of placed regions -/

theorem placed_index_eq_cell (W : Nat) (rect : image_packer_rect) (x y : Nat) :
    placed_index W rect x y = (cell rect x y).2 * W + (cell rect x y).1 := by
  unfold placed_index cell
  split <;> simp <;> ring

theorem cell_in_region (rect : image_packer_rect) {x y : Nat}
    (hx : x < rect.input.width) (hy : y < rect.input.height) :
    in_region rect (cell rect x y).1 (cell rect x y).2 := by
  unfold in_region cell placed_width placed_height
  split <;> simp <;> omega

theorem in_region_cell (rect : image_packer_rect) {col row : Nat}
    (h : in_region rect col row) :
    ∃ x y, x < rect.input.width ∧ y < rect.input.height ∧ cell rect x y = (col, row) := by
  unfold in_region placed_width placed_height at h
  unfold cell
  cases hr : rect.output.rotated with
  | true =>
    simp only [hr, if_true] at h ⊢
    refine ⟨rect.output.y + rect.input.width - 1 - row, col - rect.output.x, by omega, by omega, ?_⟩
    ext <;> simp <;> omega
  | false =>
    simp only [hr, Bool.false_eq_true, if_false] at h ⊢
    refine ⟨col - rect.output.x, row - rect.output.y, by omega, by omega, ?_⟩
    ext <;> simp <;> omega

theorem regions_disjoint_iff (a b : image_packer_rect) :
    regions_disjoint a b ↔ ∀ col row, ¬ (in_region a col row ∧ in_region b col row) := by
  unfold regions_disjoint in_region
  constructor
  · intro h col row
    omega
  · intro h
    by_contra hcon
    apply h (max a.output.x b.output.x) (max a.output.y b.output.y)
    omega

theorem in_region_lt {rect : image_packer_rect} {s : State} (hfit : Fits rect s) {col row : Nat}
    (h : in_region rect col row) : col < s.final_image_width ∧ row < s.final_image_height := by
  unfold in_region at h
  unfold Fits at hfit
  omega

theorem placed_index_ne_of_disjoint {ra rb : image_packer_rect} {s : State}
    (hd : regions_disjoint ra rb) (ha : Fits ra s) (hb : Fits rb s) {x y x' y' : Nat}
    (hx : x < ra.input.width) (hy : y < ra.input.height)
    (hx' : x' < rb.input.width) (hy' : y' < rb.input.height) :
    placed_index s.final_image_width ra x y ≠ placed_index s.final_image_width rb x' y' := by
  intro heq
  rw [placed_index_eq_cell, placed_index_eq_cell] at heq
  have h1 := cell_in_region ra hx hy
  have h2 := cell_in_region rb hx' hy'
  have b1 := in_region_lt ha h1
  have b2 := in_region_lt hb h2
  have := index_inj b1.1 b2.1 heq
  rw [this.1, this.2] at h1
  exact (regions_disjoint_iff ra rb).1 hd _ _ ⟨h1, h2⟩

theorem wellFormed_of_sameShape {s s' : State} (h : WellFormed s) (hs : SameShape s s') :
    WellFormed s' := by
  unfold WellFormed at *
  rw [hs.1, hs.2.1, hs.2.2]; exact h

theorem fits_of_sameShape {rect : image_packer_rect} {s s' : State} (h : Fits rect s)
    (hs : SameShape s s') : Fits rect s' := by
  unfold Fits at *
  rw [hs.1, hs.2.1]; exact h

theorem sourceOk_of_sameShape {rects : List image_packer_rect} {s s' : State}
    {a : packed_asset} (h : SourceOk rects s a) (hs : SameShape s s') : SourceOk rects s' a := by
  unfold SourceOk at *
  split at h
  · exact h
  · exact ⟨fits_of_sameShape h.1 hs, h.2⟩

theorem sourceOk_rect {rects : List image_packer_rect} {s : State} {a : packed_asset}
    (h : SourceOk rects s a) :
    ∃ rect, asset_rect rects a = some rect ∧ Fits rect s ∧
      (buffer a.pixels).length = rect.input.width * rect.input.height := by
  unfold SourceOk at h
  split at h
  · exact h.elim
  · next rect hr => exact ⟨rect, hr, h⟩

/-! ## Composition of all sources -/

theorem create_final_image_cons (rects : List image_packer_rect) (a : packed_asset)
    (rest : List packed_asset) (s : State) (rect : image_packer_rect)
    (hr : asset_rect rects a = some rect) :
    create_final_image rects (a :: rest) s
      = (copy_to_final_image a.pixels rect s).bind (create_final_image rects rest) := by
  unfold asset_rect at hr
  simp [create_final_image, hr]

/-- Running `create_final_image` over well-placed sources is defined, keeps the shape of the
atlas, and leaves every index that is no placed index of any source unchanged. -/
theorem create_final_image_frame (rects : List image_packer_rect) :
    ∀ (assets : List packed_asset) (s : State), WellFormed s →
      (∀ a ∈ assets, SourceOk rects s a) →
      ∃ s', create_final_image rects assets s = some s' ∧ SameShape s s' ∧
        ∀ j, (∀ a ∈ assets, ∀ rect, asset_rect rects a = some rect →
            ∀ y x, y < rect.input.height → x < rect.input.width →
              j ≠ placed_index s.final_image_width rect x y) → pix s' j = pix s j := by
  intro assets
  induction assets with
  | nil => intro s _ _; exact ⟨s, rfl, sameShape_refl s, fun _ _ => rfl⟩
  | cons a rest ih =>
    intro s hwf hok
    obtain ⟨rect, hr, hfit, hbuf⟩ := sourceOk_rect (hok a (List.mem_cons_self _ _))
    obtain ⟨s1, hs1, hsh1, -, hB1, -, -⟩ := copy_to_final_image_spec a.pixels rect s hwf hfit hbuf
    obtain ⟨s2, hs2, hsh2, hB2⟩ := ih s1 (wellFormed_of_sameShape hwf hsh1)
      (fun b hb => sourceOk_of_sameShape (hok b (List.mem_cons_of_mem _ hb)) hsh1)
    refine ⟨s2, ?_, sameShape_trans hsh1 hsh2, ?_⟩
    · rw [create_final_image_cons rects a rest s rect hr, hs1]; exact hs2
    · intro j hj
      rw [hB2 j (fun b hb rb hrb y x hy hx => by
        rw [hsh1.1]; exact hj b (List.mem_cons_of_mem _ hb) rb hrb y x hy hx)]
      exact hB1 j (fun y x hy hx => hj a (List.mem_cons_self _ _) rect hr y x hy hx)

theorem create_final_image_append (rects : List image_packer_rect) :
    ∀ (pre post : List packed_asset) (s : State),
      create_final_image rects (pre ++ post) s
        = (create_final_image rects pre s).bind (create_final_image rects post) := by
  intro pre
  induction pre with
  | nil => intro post s; rfl
  | cons a rest ih =>
    intro post s
    simp only [List.cons_append, create_final_image]
    split
    · rfl
    · next rect hr =>
      cases hc : copy_to_final_image a.pixels rect s with
      | none => rfl
      | some s1 => simp [ih]

/-- A source whose placed region is disjoint from the regions of all sources copied after it
is found in the final atlas, pixel for pixel. -/
theorem create_final_image_keeps (rects : List image_packer_rect)
    (pre post : List packed_asset) (a : packed_asset) (s : State) (hwf : WellFormed s)
    (hok : ∀ b ∈ pre ++ a :: post, SourceOk rects s b)
    (hdis : ∀ b ∈ post, AssetsDisjoint rects a b)
    (rect : image_packer_rect) (hr : asset_rect rects a = some rect) :
    ∃ s', create_final_image rects (pre ++ a :: post) s = some s' ∧ SameShape s s' ∧
      ∀ y x, y < rect.input.height → x < rect.input.width →
        pix s' (placed_index s.final_image_width rect x y)
          = (buffer a.pixels)[y * rect.input.width + x]? := by
  obtain ⟨s1, hs1, hsh1, -⟩ := create_final_image_frame rects pre s hwf
    (fun b hb => hok b (List.mem_append_left _ hb))
  obtain ⟨rect', hr', hfit, hbuf⟩ := sourceOk_rect (hok a (by simp))
  rw [hr] at hr'
  cases hr'
  obtain ⟨s2, hs2, hsh2, hA2, -, -, -⟩ :=
    copy_to_final_image_spec a.pixels rect s1 (wellFormed_of_sameShape hwf hsh1)
      (fits_of_sameShape hfit hsh1) hbuf
  have hsh12 := sameShape_trans hsh1 hsh2
  obtain ⟨s3, hs3, hsh3, hB3⟩ := create_final_image_frame rects post s2
    (wellFormed_of_sameShape hwf hsh12)
    (fun b hb => sourceOk_of_sameShape (hok b (by simp [hb])) hsh12)
  have e1 : s1.final_image_width = s.final_image_width := hsh1.1
  have e2 : s2.final_image_width = s.final_image_width := hsh12.1
  rw [e1] at hA2
  rw [e2] at hB3
  refine ⟨s3, ?_, sameShape_trans hsh12 hsh3, ?_⟩
  · rw [create_final_image_append, hs1]
    simp only [Option.some_bind]
    rw [create_final_image_cons rects a post s1 rect hr, hs2]
    exact hs3
  · intro y x hy hx
    rw [hB3]
    · exact hA2 y x hy hx
    · intro b hb rb hrb y' x' hy' hx'
      have hd := hdis b hb
      unfold AssetsDisjoint at hd
      rw [hr, hrb] at hd
      obtain ⟨rb', hrb', hfitb, -⟩ := sourceOk_rect (hok b (by simp [hb]))
      rw [hrb] at hrb'
      cases hrb'
      exact placed_index_ne_of_disjoint hd hfit hfitb hx hy hx' hy'

theorem atlas_pixel_cell {s s' : State} {rect : image_packer_rect} (hfit : Fits rect s)
    (hsh : SameShape s s') {x y : Nat} (hx : x < rect.input.width) (hy : y < rect.input.height) :
    atlas_pixel s' (cell rect x y).1 (cell rect x y).2
      = pix s' (placed_index s.final_image_width rect x y) := by
  have hb := in_region_lt hfit (cell_in_region rect hx hy)
  unfold atlas_pixel pix
  rw [hsh.1, hsh.2.1, if_pos hb, placed_index_eq_cell]

theorem buffer_get {p : List Nat} {w h x y : Nat} (hlen : p.length = w * h)
    (hx : x < w) (hy : y < h) : ∃ v, p[y * w + x]? = some v := by
  have h1 : (y + 1) * w ≤ h * w := Nat.mul_le_mul_right _ (by omega)
  have e1 : (y + 1) * w = y * w + w := by ring
  have e2 : w * h = h * w := Nat.mul_comm _ _
  have : y * w + x < p.length := by omega
  exact ⟨p[y * w + x], List.getElem?_eq_getElem this⟩

/-- A list of `w * h` elements is the row-by-row enumeration of its own grid. -/
theorem grid_flatMap_eq {α : Type} (w : Nat) :
    ∀ (h : Nat) (F : Nat → Nat → α),
      ((List.range h).flatMap (fun y => (List.range w).map (fun x => F y x))).length = h * w ∧
      ∀ y x, y < h → x < w →
        ((List.range h).flatMap (fun y => (List.range w).map (fun x => F y x)))[y * w + x]?
          = some (F y x) := by
  intro h F
  induction h with
  | zero => exact ⟨by simp, by intro y x hy; omega⟩
  | succ n ih =>
    obtain ⟨hl, hg⟩ := ih
    rw [List.range_succ, List.flatMap_append]
    refine ⟨by simp [hl]; ring, ?_⟩
    intro y x hy hx
    by_cases hyn : y < n
    · have h1 : (y + 1) * w ≤ n * w := Nat.mul_le_mul_right _ (by omega)
      have e1 : (y + 1) * w = y * w + w := by ring
      rw [List.getElem?_append_left (by rw [hl]; omega)]
      exact hg y x hyn hx
    · have hyeq : y = n := by omega
      subst hyeq
      rw [List.getElem?_append_right (by rw [hl]; omega), hl]
      simp [hx]

theorem grid_eq_map_some (p : List Nat) (w h : Nat) (hlen : p.length = w * h) :
    (List.range h).flatMap (fun y => (List.range w).map (fun x => p[y * w + x]?))
      = p.map some := by
  obtain ⟨hl, hg⟩ := grid_flatMap_eq w h (fun y x => p[y * w + x]?)
  apply List.ext_getElem?
  intro i
  by_cases hi : i < w * h
  · have hw : 0 < w := by
      rcases Nat.eq_zero_or_pos w with h0 | h0
      · subst h0; simp at hi
      · exact h0
    have hdm : i / w * w + i % w = i := by
      rw [Nat.mul_comm]; exact Nat.div_add_mod i w
    have hy : i / w < h := by
      rw [Nat.div_lt_iff_lt_mul hw, Nat.mul_comm]; exact hi
    have := hg (i / w) (i % w) hy (Nat.mod_lt _ hw)
    rw [hdm] at this
    rw [this, List.getElem?_map, List.getElem?_eq_getElem (by omega)]
    simp
  · rw [List.getElem?_eq_none (by rw [hl, Nat.mul_comm]; omega),
      List.getElem?_eq_none (by simp; omega)]

/-! ## Properties of the compositor -/

/-- C1: for an atlas of `W × H` pixels (`W * H` below `2 ^ 32`, the range of the `unsigned
int` indices) and sources whose placed regions lie inside the atlas and are pairwise
disjoint, `create_final_image` is defined and, for every source with a pixel buffer placed
non-rotated, the atlas pixel at row `rect.y + y`, column `rect.x + x` is the source pixel at
row `y`, column `x`, for all `x < width`, `y < height`. -/
theorem create_final_image_unrotated_region (rects : List image_packer_rect)
    (assets : List packed_asset) (s : State) (hwf : WellFormed s)
    (hok : ∀ a ∈ assets, SourceOk rects s a)
    (hdis : assets.Pairwise (AssetsDisjoint rects)) :
    ∃ s', create_final_image rects assets s = some s' ∧
      ∀ a ∈ assets, ∀ rect p, asset_rect rects a = some rect → a.pixels = some p →
        rect.output.rotated = false →
        ∀ x y, x < rect.input.width → y < rect.input.height →
          ∃ v, p[y * rect.input.width + x]? = some v ∧
            atlas_pixel s' (rect.output.x + x) (rect.output.y + y) = some v := by
  obtain ⟨s', hs', hsh, -⟩ := create_final_image_frame rects assets s hwf hok
  refine ⟨s', hs', ?_⟩
  intro a ha rect p hr hp hrot x y hx hy
  obtain ⟨pre, post, rfl⟩ := List.append_of_mem ha
  have hpost : ∀ b ∈ post, AssetsDisjoint rects a b := by
    have h1 := (List.pairwise_append.1 hdis).2.1
    exact (List.pairwise_cons.1 h1).1
  obtain ⟨s'', hs'', -, hA⟩ := create_final_image_keeps rects pre post a s hwf hok hpost rect hr
  rw [hs'] at hs''
  cases hs''
  obtain ⟨rect', hr', hfit, hbuf⟩ := sourceOk_rect (hok a ha)
  rw [hr] at hr'
  cases hr'
  rw [hp] at hbuf hA
  obtain ⟨v, hv⟩ := buffer_get (p := p) hbuf hx hy
  refine ⟨v, hv, ?_⟩
  have hc := atlas_pixel_cell hfit hsh hx hy
  rw [hA y x hy hx] at hc
  have hcell : cell rect x y = (rect.output.x + x, rect.output.y + y) := by
    simp [cell, hrot]
  rw [hcell] at hc
  rw [hc]
  exact hv

theorem create_final_image_unrotated_region_witness :
    ∃ s', create_final_image example_rects example_assets (blank_atlas 4 3) = some s' ∧
      ∀ a ∈ example_assets, ∀ rect p, asset_rect example_rects a = some rect →
        a.pixels = some p → rect.output.rotated = false →
        ∀ x y, x < rect.input.width → y < rect.input.height →
          ∃ v, p[y * rect.input.width + x]? = some v ∧
            atlas_pixel s' (rect.output.x + x) (rect.output.y + y) = some v :=
  create_final_image_unrotated_region example_rects example_assets (blank_atlas 4 3)
    (by decide) (by decide) (by decide)

/-- C2: for a source placed rotated whose placed region lies inside the atlas and is
disjoint from every other placed region (all sources being placed inside the atlas),
`create_final_image` is defined and the inverse transpose of the atlas region is the source
pixel buffer, pixel for pixel. -/
theorem create_final_image_rotated_roundtrip (rects : List image_packer_rect)
    (pre post : List packed_asset) (a : packed_asset) (s : State) (hwf : WellFormed s)
    (hok : ∀ b ∈ pre ++ a :: post, SourceOk rects s b)
    (hdis : ∀ b ∈ pre ++ post, AssetsDisjoint rects a b)
    (rect : image_packer_rect) (p : List Nat) (hr : asset_rect rects a = some rect)
    (hp : a.pixels = some p) (hrot : rect.output.rotated = true) :
    ∃ s', create_final_image rects (pre ++ a :: post) s = some s' ∧
      inverse_transpose s' rect = p.map some := by
  obtain ⟨s', hs', hsh, hA⟩ := create_final_image_keeps rects pre post a s hwf hok
    (fun b hb => hdis b (List.mem_append_right _ hb)) rect hr
  refine ⟨s', hs', ?_⟩
  obtain ⟨rect', hr', hfit, hbuf⟩ := sourceOk_rect (hok a (by simp))
  rw [hr] at hr'
  cases hr'
  rw [hp] at hbuf hA
  have hbuf' : p.length = rect.input.width * rect.input.height := hbuf
  rw [← grid_eq_map_some p rect.input.width rect.input.height hbuf']
  unfold inverse_transpose
  apply List.flatMap_congr
  intro y hy
  apply List.map_congr_left
  intro x hx
  rw [List.mem_range] at hy hx
  have hc := atlas_pixel_cell hfit hsh hx hy
  have hcell : cell rect x y
      = (rect.output.x + y, rect.output.y + rect.input.width - 1 - x) := by
    simp [cell, hrot]
  rw [hcell, hA y x hy hx] at hc
  exact hc

theorem create_final_image_rotated_roundtrip_witness :
    ∃ s', create_final_image example_rects
        ([{ id := 0, path := some "a.png", rect := some 0, pixels := some [1, 2, 3, 4] }] ++
          { id := 1, path := some "b.png", rect := some 1, pixels := some [5, 6] } :: [])
        (blank_atlas 4 3) = some s' ∧
      inverse_transpose s' ⟨⟨2, 1⟩, ⟨2, 0, true⟩⟩ = [5, 6].map some :=
  create_final_image_rotated_roundtrip example_rects
    [{ id := 0, path := some "a.png", rect := some 0, pixels := some [1, 2, 3, 4] }] []
    { id := 1, path := some "b.png", rect := some 1, pixels := some [5, 6] }
    (blank_atlas 4 3) (by decide) (by decide) (by decide) ⟨⟨2, 1⟩, ⟨2, 0, true⟩⟩ [5, 6]
    (by decide) rfl rfl

/-- C3 as stated fails: a 2 × 1 source `[1, 2]` placed rotated at (0, 0) has its pixel at
column 0, row 0 (value 1) not at region column `h - 1 - y = 0`, row `x = 0`, which holds 2. -/
theorem copy_to_final_image_rotated_not_clockwise :
    ∃ s', copy_to_final_image (some [1, 2]) ⟨⟨2, 1⟩, ⟨0, 0, true⟩⟩ (blank_atlas 1 2) = some s' ∧
      ([1, 2] : List Nat)[0 * 2 + 0]? = some 1 ∧
      atlas_pixel s' (0 + (1 - 1 - 0)) (0 + 0) = some 2 ∧
      atlas_pixel s' (0 + (1 - 1 - 0)) (0 + 0) ≠ ([1, 2] : List Nat)[0 * 2 + 0]? := by
  refine ⟨_, rfl, by decide, by decide, by decide⟩

/-- C3, amended: for a source of size `w × h` placed rotated, its region inside the atlas,
the `h`-wide, `w`-high atlas region at `(rect.x, rect.y)` is the source image rotated 90
degrees counter-clockwise: the source pixel at column `x`, row `y` appears in the region at
column `y`, row `w - 1 - x`. -/
theorem copy_to_final_image_rotated_region (p : List Nat) (rect : image_packer_rect)
    (s : State) (hwf : WellFormed s) (hfit : Fits rect s)
    (hbuf : p.length = rect.input.width * rect.input.height)
    (hrot : rect.output.rotated = true) :
    ∃ s', copy_to_final_image (some p) rect s = some s' ∧
      ∀ x y, x < rect.input.width → y < rect.input.height →
        ∃ v, p[y * rect.input.width + x]? = some v ∧
          atlas_pixel s' (rect.output.x + y) (rect.output.y + (rect.input.width - 1 - x))
            = some v := by
  obtain ⟨s', hs', hsh, hA, -, -, -⟩ := copy_to_final_image_spec (some p) rect s hwf hfit hbuf
  refine ⟨s', hs', ?_⟩
  intro x y hx hy
  obtain ⟨v, hv⟩ := buffer_get (p := p) hbuf hx hy
  refine ⟨v, hv, ?_⟩
  have hc := atlas_pixel_cell hfit hsh hx hy
  have hcell : cell rect x y
      = (rect.output.x + y, rect.output.y + (rect.input.width - 1 - x)) := by
    simp [cell, hrot]; omega
  rw [hcell, hA y x hy hx] at hc
  rw [hc]
  exact hv

theorem copy_to_final_image_rotated_region_witness :
    ∃ s', copy_to_final_image (some [1, 2, 3, 4, 5, 6]) ⟨⟨3, 2⟩, ⟨1, 1, true⟩⟩
        (blank_atlas 5 4) = some s' ∧
      ∀ x y, x < 3 → y < 2 →
        ∃ v, ([1, 2, 3, 4, 5, 6] : List Nat)[y * 3 + x]? = some v ∧
          atlas_pixel s' (1 + y) (1 + (3 - 1 - x)) = some v :=
  copy_to_final_image_rotated_region [1, 2, 3, 4, 5, 6] ⟨⟨3, 2⟩, ⟨1, 1, true⟩⟩
    (blank_atlas 5 4) (by decide) (by decide) (by decide) rfl

/-! ## Properties of the layer rotation reconciler -/

/-- Below `2 ^ 31` the conversion of an `unsigned int` value to `int` keeps the value. -/
theorem int_of_unsigned_of_lt {n : Nat} (h : n < 2147483648) : int_of_unsigned n = (n : Int) := by
  unfold int_of_unsigned u32
  rw [Nat.mod_eq_of_lt (by omega), if_pos h]

/-- Result of `pack_layer` on a layer with a source path whose rect exists. -/
theorem pack_layer_some (rects : List image_packer_rect) (l : layer) (path : String)
    (rect : image_packer_rect) (hpath : l.asset_image_path = some path)
    (hrect : layer_rect rects l = some rect) :
    pack_layer rects l = some { l with
      src_x := int_of_unsigned rect.output.x
      src_y := int_of_unsigned rect.output.y
      width := int_of_unsigned (placed_width rect)
      height := int_of_unsigned (placed_height rect)
      rotate := if rect.output.rotated then advance_rotation l.rotate else l.rotate } := by
  unfold pack_layer placed_width placed_height
  rw [hpath]
  simp only [hrect]
  cases rect.output.rotated <;> simp

/-- C4: for a layer with a source path whose rect is reported rotated, `pack_layer` maps the
rotation by the table none -> 90, 90 -> 180, 180 -> 270, 270 -> none: the authored rotation
advanced by one step in the 4-element cycle. -/
theorem pack_layer_rotation_table (rects : List image_packer_rect) (l : layer) (path : String)
    (rect : image_packer_rect) (hpath : l.asset_image_path = some path)
    (hrect : layer_rect rects l = some rect) (hrot : rect.output.rotated = true) :
    ∃ l', pack_layer rects l = some l' ∧
      (l.rotate = ROTATE_NONE → l'.rotate = ROTATE_90_DEGREES) ∧
      (l.rotate = ROTATE_90_DEGREES → l'.rotate = ROTATE_180_DEGREES) ∧
      (l.rotate = ROTATE_180_DEGREES → l'.rotate = ROTATE_270_DEGREES) ∧
      (l.rotate = ROTATE_270_DEGREES → l'.rotate = ROTATE_NONE) ∧
      (l.rotate < 4 → l'.rotate = (l.rotate + 1) % 4) := by
  refine ⟨_, pack_layer_some rects l path rect hpath hrect, ?_⟩
  simp only [hrot, if_true]
  unfold advance_rotation ROTATE_NONE ROTATE_90_DEGREES ROTATE_180_DEGREES ROTATE_270_DEGREES
  refine ⟨?_, ?_, ?_, ?_, ?_⟩
  · intro h; simp [h]
  · intro h; simp [h]
  · intro h; simp [h]
  · intro h; simp [h]
  · intro h
    have : l.rotate = 0 ∨ l.rotate = 1 ∨ l.rotate = 2 ∨ l.rotate = 3 := by omega
    rcases this with h | h | h | h <;> simp [h]

theorem pack_layer_rotation_table_witness :
    ∃ l', pack_layer example_rects example_layer = some l' ∧
      (example_layer.rotate = ROTATE_NONE → l'.rotate = ROTATE_90_DEGREES) ∧
      (example_layer.rotate = ROTATE_90_DEGREES → l'.rotate = ROTATE_180_DEGREES) ∧
      (example_layer.rotate = ROTATE_180_DEGREES → l'.rotate = ROTATE_270_DEGREES) ∧
      (example_layer.rotate = ROTATE_270_DEGREES → l'.rotate = ROTATE_NONE) ∧
      (example_layer.rotate < 4 → l'.rotate = (example_layer.rotate + 1) % 4) :=
  pack_layer_rotation_table example_rects example_layer "b.png" ⟨⟨2, 1⟩, ⟨2, 0, true⟩⟩
    rfl rfl rfl

/-- C5: for a layer with a source path whose rect is reported rotated, with the input size
of the rect in the range of `int` (it is written from the `int` size the codec reports),
after `pack_layer` the width of the layer is the input height of the rect and its height the
input width. -/
theorem pack_layer_rotated_swaps_size (rects : List image_packer_rect) (l : layer)
    (path : String) (rect : image_packer_rect) (hpath : l.asset_image_path = some path)
    (hrect : layer_rect rects l = some rect) (hrot : rect.output.rotated = true)
    (hw : rect.input.width < 2147483648) (hh : rect.input.height < 2147483648) :
    ∃ l', pack_layer rects l = some l' ∧
      l'.width = (rect.input.height : Int) ∧ l'.height = (rect.input.width : Int) := by
  refine ⟨_, pack_layer_some rects l path rect hpath hrect, ?_, ?_⟩
  · simp only [placed_width, hrot, if_true]
    exact int_of_unsigned_of_lt hh
  · simp only [placed_height, hrot, if_true]
    exact int_of_unsigned_of_lt hw

theorem pack_layer_rotated_swaps_size_witness :
    (⟨⟨2, 1⟩, ⟨2, 0, true⟩⟩ : image_packer_rect).input.width < 2147483648 ∧
    (⟨⟨2, 1⟩, ⟨2, 0, true⟩⟩ : image_packer_rect).input.height < 2147483648 ∧
    ∃ l', pack_layer example_rects example_layer = some l' ∧
      l'.width = ((1 : Nat) : Int) ∧ l'.height = ((2 : Nat) : Int) :=
  ⟨by decide, by decide,
    pack_layer_rotated_swaps_size example_rects example_layer "b.png"
      ⟨⟨2, 1⟩, ⟨2, 0, true⟩⟩ rfl rfl rfl (by decide) (by decide)⟩

/-- C6: for a layer with a source path whose rect is reported not rotated, with the input
size of the rect in the range of `int`, after `pack_layer` the width and height of the layer
are the input width and height of the rect, and its rotation, invert, mask and part fields
are unchanged. -/
theorem pack_layer_unrotated_keeps (rects : List image_packer_rect) (l : layer)
    (path : String) (rect : image_packer_rect) (hpath : l.asset_image_path = some path)
    (hrect : layer_rect rects l = some rect) (hrot : rect.output.rotated = false)
    (hw : rect.input.width < 2147483648) (hh : rect.input.height < 2147483648) :
    ∃ l', pack_layer rects l = some l' ∧
      l'.width = (rect.input.width : Int) ∧ l'.height = (rect.input.height : Int) ∧
      l'.rotate = l.rotate ∧ l'.invert = l.invert ∧ l'.mask = l.mask ∧ l'.part = l.part := by
  refine ⟨_, pack_layer_some rects l path rect hpath hrect, ?_, ?_, ?_, rfl, rfl, rfl⟩
  · simp only [placed_width, hrot, Bool.false_eq_true, if_false]
    exact int_of_unsigned_of_lt hw
  · simp only [placed_height, hrot, Bool.false_eq_true, if_false]
    exact int_of_unsigned_of_lt hh
  · simp [hrot]

theorem pack_layer_unrotated_keeps_witness :
    (⟨⟨2, 2⟩, ⟨0, 0, false⟩⟩ : image_packer_rect).input.width < 2147483648 ∧
    (⟨⟨2, 2⟩, ⟨0, 0, false⟩⟩ : image_packer_rect).input.height < 2147483648 ∧
    ∃ l', pack_layer example_rects { example_layer with calculated_image_id := 0 } = some l' ∧
      l'.width = ((2 : Nat) : Int) ∧ l'.height = ((2 : Nat) : Int) ∧
      l'.rotate = ROTATE_90_DEGREES ∧ l'.invert = 1 ∧ l'.mask = 1 ∧ l'.part = 2 :=
  ⟨by decide, by decide,
    pack_layer_unrotated_keeps example_rects { example_layer with calculated_image_id := 0 }
      "b.png" ⟨⟨2, 2⟩, ⟨0, 0, false⟩⟩ rfl rfl rfl (by decide) (by decide)⟩

/-- C7: for a layer with a source path, rotated or not, with the output position of the rect
in the range of `int`, after `pack_layer` the source-region coordinates `(src_x, src_y)` of
the layer are the output `(x, y)` of the rect indexed by its `calculated_image_id`. -/
theorem pack_layer_sets_position (rects : List image_packer_rect) (l : layer)
    (path : String) (rect : image_packer_rect) (hpath : l.asset_image_path = some path)
    (hrect : layer_rect rects l = some rect)
    (hx : rect.output.x < 2147483648) (hy : rect.output.y < 2147483648) :
    ∃ l', pack_layer rects l = some l' ∧
      l'.src_x = (rect.output.x : Int) ∧ l'.src_y = (rect.output.y : Int) := by
  exact ⟨_, pack_layer_some rects l path rect hpath hrect, int_of_unsigned_of_lt hx,
    int_of_unsigned_of_lt hy⟩

theorem pack_layer_sets_position_witness :
    (⟨⟨2, 1⟩, ⟨2, 0, true⟩⟩ : image_packer_rect).output.x < 2147483648 ∧
    (⟨⟨2, 1⟩, ⟨2, 0, true⟩⟩ : image_packer_rect).output.y < 2147483648 ∧
    ∃ l', pack_layer example_rects example_layer = some l' ∧
      l'.src_x = ((2 : Nat) : Int) ∧ l'.src_y = ((0 : Nat) : Int) :=
  ⟨by decide, by decide,
    pack_layer_sets_position example_rects example_layer "b.png" ⟨⟨2, 1⟩, ⟨2, 0, true⟩⟩
      rfl rfl (by decide) (by decide)⟩

theorem mem_placed_indices (W : Nat) (rect : image_packer_rect) (j : Nat) :
    j ∈ (List.range rect.input.height).flatMap (fun y =>
        (List.range rect.input.width).map (fun x => placed_index W rect x y)) ↔
      ∃ y x, y < rect.input.height ∧ x < rect.input.width ∧ j = placed_index W rect x y := by
  simp only [List.mem_flatMap, List.mem_map, List.mem_range]
  constructor
  · rintro ⟨y, hy, x, hx, rfl⟩; exact ⟨y, x, hy, hx, rfl⟩
  · rintro ⟨y, x, hy, hx, rfl⟩; exact ⟨y, hy, x, hx, rfl⟩

/-- The atlas positions written for a rect are exactly the positions of its placed region. -/
theorem placed_index_iff_in_region {rect : image_packer_rect} {s : State} (hfit : Fits rect s)
    {col row : Nat} (hcol : col < s.final_image_width) :
    (∃ y x, y < rect.input.height ∧ x < rect.input.width ∧
        row * s.final_image_width + col = placed_index s.final_image_width rect x y) ↔
      in_region rect col row := by
  constructor
  · rintro ⟨y, x, hy, hx, heq⟩
    rw [placed_index_eq_cell] at heq
    have hin := cell_in_region rect hx hy
    have hb := in_region_lt hfit hin
    have := index_inj hcol hb.1 heq
    rw [this.1, this.2]
    exact hin
  · intro hin
    obtain ⟨x, y, hx, hy, hc⟩ := in_region_cell rect hin
    refine ⟨y, x, hy, hx, ?_⟩
    rw [placed_index_eq_cell, hc]

/-! ## Properties of the pixel source cache -/

theorem cacheInv_nil : CacheInv [] := by
  constructor
  · intro k a h; simp at h
  · intro i j a b h; simp at h

theorem find_asset_spec (l : layer) (p : String) (hp : l.asset_image_path = some p) :
    ∀ (cache : List packed_asset) (i : Nat), (∀ a ∈ cache, ∃ q, a.path = some q) →
      (∃ k a, find_asset l cache i = some (some k) ∧ i ≤ k ∧ cache[k - i]? = some a ∧
          a.path = some p) ∨
      (find_asset l cache i = some none ∧ ∀ a ∈ cache, a.path ≠ some p) := by
  intro cache
  induction cache with
  | nil => intro i _; right; exact ⟨rfl, by simp⟩
  | cons c rest ih =>
    intro i hall
    obtain ⟨q, hq⟩ := hall c (List.mem_cons_self _ _)
    by_cases hpq : p = q
    · left
      refine ⟨i, c, ?_, Nat.le_refl _, by simp, by rw [hq, hpq]⟩
      simp [find_asset, hp, hq, strcmp_eq, hpq]
    · have hstep : find_asset l (c :: rest) i = find_asset l rest (i + 1) := by
        simp [find_asset, hp, hq, strcmp_eq, hpq]
      rcases ih (i + 1) (fun a ha => hall a (List.mem_cons_of_mem _ ha)) with
        ⟨k, a, hk, hle, hget, hpath⟩ | ⟨hnone, hno⟩
      · left
        refine ⟨k, a, by rw [hstep, hk], by omega, ?_, hpath⟩
        have : k - i = (k - (i + 1)) + 1 := by omega
        rw [this, List.getElem?_cons_succ]
        exact hget
      · right
        refine ⟨by rw [hstep, hnone], ?_⟩
        intro a ha
        rcases List.mem_cons.1 ha with rfl | hin
        · rw [hq]; intro h; exact hpq (Option.some.inj h).symm
        · exact hno a hin

theorem cacheInv_all_paths {cache : List packed_asset} (h : CacheInv cache) :
    ∀ a ∈ cache, ∃ q, a.path = some q := by
  intro a ha
  obtain ⟨k, hk⟩ := List.getElem?_of_mem ha
  exact (h.ids k a hk).2

theorem getElem?_concat_cases {α : Type} (l : List α) (x c : α) (n : Nat)
    (h : (l ++ [x])[n]? = some c) :
    (n < l.length ∧ l[n]? = some c) ∨ (n = l.length ∧ c = x) := by
  by_cases hlt : n < l.length
  · rw [List.getElem?_append_left hlt] at h
    exact Or.inl ⟨hlt, h⟩
  · rw [List.getElem?_append_right (by omega)] at h
    have hn0 : n - l.length = 0 := by
      by_contra hne
      obtain ⟨m, hm⟩ : ∃ m, n - l.length = m + 1 := ⟨n - l.length - 1, by omega⟩
      rw [hm] at h
      simp at h
    rw [hn0] at h
    simp at h
    exact Or.inr ⟨by omega, h.symm⟩

/-- A miss with a successful allocation appends one entry: its id is the previous number of
entries and its path the path of the layer. -/
theorem add_asset_image_to_list_miss (cache : List packed_asset) (l : layer)
    (hnone : find_asset l cache 0 = some none) :
    add_asset_image_to_list true cache l
      = some (cache ++ [{ id := (cache.length : Int), path := l.asset_image_path,
                          rect := none, pixels := none }],
              { l with calculated_image_id := (cache.length : Int) }) := by
  simp [add_asset_image_to_list, get_asset_image_from_list, hnone, array_new_item,
    new_packed_asset]

/-- One call of `add_asset_image_to_list` on a layer with a path: it is defined, keeps the
cache invariant, only extends the cache, changes nothing of the layer but its id, and with a
successful allocation the id is the position of the entry holding the path of the layer. -/
theorem add_asset_image_to_list_spec (alloc_ok : Bool) (cache : List packed_asset) (l : layer)
    (p : String) (hinv : CacheInv cache) (hp : l.asset_image_path = some p) :
    ∃ cache' l', add_asset_image_to_list alloc_ok cache l = some (cache', l') ∧
      CacheInv cache' ∧ (∃ ext, cache' = cache ++ ext) ∧
      l'.asset_image_path = l.asset_image_path ∧
      (alloc_ok = true → ∃ (k : Nat) (a : packed_asset),
        l'.calculated_image_id = (k : Int) ∧ cache'[k]? = some a ∧ a.path = some p) := by
  rcases find_asset_spec l p hp cache 0 (cacheInv_all_paths hinv) with
    ⟨k, a, hk, -, hget, hpath⟩ | ⟨hnone, hno⟩
  · simp only [Nat.sub_zero] at hget
    refine ⟨cache, { l with calculated_image_id := a.id }, ?_, hinv, ⟨[], by simp⟩, rfl, ?_⟩
    · simp [add_asset_image_to_list, get_asset_image_from_list, hk, hget]
    · intro _
      exact ⟨k, a, (hinv.ids k a hget).1, hget, hpath⟩
  · cases alloc_ok with
    | false =>
      refine ⟨cache, l, ?_, hinv, ⟨[], by simp⟩, rfl, by intro h; cases h⟩
      simp [add_asset_image_to_list, get_asset_image_from_list, hnone, array_new_item]
    | true =>
      refine ⟨_, _, add_asset_image_to_list_miss cache l hnone, ?_, ⟨_, rfl⟩, rfl, ?_⟩
      · constructor
        · intro k a hka
          rcases getElem?_concat_cases _ _ _ _ hka with ⟨-, hk⟩ | ⟨hk, ha⟩
          · exact hinv.ids k a hk
          · subst ha
            exact ⟨by simp [hk], p, hp⟩
        · intro i j a b hia hjb hab
          rcases getElem?_concat_cases _ _ _ _ hia with ⟨-, hi⟩ | ⟨hi, ha⟩ <;>
            rcases getElem?_concat_cases _ _ _ _ hjb with ⟨-, hj⟩ | ⟨hj, hb⟩
          · exact hinv.distinct i j a b hi hj hab
          · subst hb
            exact absurd (hab.trans hp) (hno a (List.getElem?_mem hi))
          · subst ha
            exact absurd (hab.symm.trans hp) (hno b (List.getElem?_mem hj))
          · omega
      · intro _
        exact ⟨cache.length, _, rfl, List.getElem?_concat_length _ _, hp⟩

/-- A sequence of calls on layers with a path: it is defined, keeps the cache invariant,
only extends the cache, returns one layer per call with its path unchanged, and every call
whose allocation succeeds leaves in its layer the position of the entry holding its path. -/
theorem add_asset_images_spec :
    ∀ (calls : List (Bool × layer)) (cache : List packed_asset), CacheInv cache →
      (∀ c ∈ calls, c.2.asset_image_path ≠ none) →
      ∃ cache' out, add_asset_images cache calls = some (cache', out) ∧
        CacheInv cache' ∧ (∃ ext, cache' = cache ++ ext) ∧ out.length = calls.length ∧
        ∀ (i : Nat) (c : Bool × layer) (o : layer), calls[i]? = some c → out[i]? = some o →
          o.asset_image_path = c.2.asset_image_path ∧
          (c.1 = true → ∃ (k : Nat) (a : packed_asset),
            o.calculated_image_id = (k : Int) ∧ cache'[k]? = some a ∧
            a.path = c.2.asset_image_path) := by
  intro calls
  induction calls with
  | nil =>
    intro cache hinv _
    exact ⟨cache, [], rfl, hinv, ⟨[], by simp⟩, rfl, by intro i c o h; simp at h⟩
  | cons call rest ih =>
    intro cache hinv hall
    obtain ⟨p, hp⟩ : ∃ p, call.2.asset_image_path = some p :=
      Option.ne_none_iff_exists'.1 (hall call (List.mem_cons_self _ _))
    obtain ⟨cache1, l1, hstep, hinv1, ⟨ext1, hext1⟩, hpath1, hid1⟩ :=
      add_asset_image_to_list_spec call.1 cache call.2 p hinv hp
    obtain ⟨cache2, out, hrun, hinv2, ⟨ext2, hext2⟩, hlen, hout⟩ :=
      ih cache1 hinv1 (fun c hc => hall c (List.mem_cons_of_mem _ hc))
    refine ⟨cache2, l1 :: out, ?_, hinv2, ⟨ext1 ++ ext2, by rw [hext2, hext1]; simp⟩,
      by simp [hlen], ?_⟩
    · simp [add_asset_images, hstep, hrun]
    · intro i c o hc ho
      cases i with
      | zero =>
        simp at hc ho
        subst hc ho
        refine ⟨hpath1, ?_⟩
        intro htrue
        obtain ⟨k, a, hk, hka, hpa⟩ := hid1 htrue
        refine ⟨k, a, hk, ?_, by rw [hpa, hp]⟩
        have hlt : k < cache1.length := by
          by_contra hge
          rw [List.getElem?_eq_none (by omega)] at hka
          cases hka
        rw [hext2, List.getElem?_append_left hlt]
        exact hka
      | succ n =>
        simp at hc ho
        exact hout n c o hc ho

/-- C9: for every sequence of layers with a path passed to `add_asset_image_to_list`
starting from the empty cache with no allocation failure, every call is defined, and two
layers end with the same `calculated_image_id` exactly when their path strings are equal. -/
theorem add_asset_images_dedup (calls : List (Bool × layer))
    (hok : ∀ c ∈ calls, c.1 = true ∧ c.2.asset_image_path ≠ none) :
    ∃ cache out, add_asset_images [] calls = some (cache, out) ∧
      out.length = calls.length ∧
      ∀ (i j : Nat) (ci cj : Bool × layer) (oi oj : layer),
        calls[i]? = some ci → calls[j]? = some cj → out[i]? = some oi → out[j]? = some oj →
        (ci.2.asset_image_path = cj.2.asset_image_path ↔
          oi.calculated_image_id = oj.calculated_image_id) := by
  obtain ⟨cache, out, hrun, hinv, -, hlen, hout⟩ :=
    add_asset_images_spec calls [] cacheInv_nil (fun c hc => (hok c hc).2)
  refine ⟨cache, out, hrun, hlen, ?_⟩
  intro i j ci cj oi oj hci hcj hoi hoj
  obtain ⟨-, hi⟩ := hout i ci oi hci hoi
  obtain ⟨-, hj⟩ := hout j cj oj hcj hoj
  obtain ⟨ki, ai, hki, hai, hpi⟩ := hi (hok ci (List.getElem?_mem hci)).1
  obtain ⟨kj, aj, hkj, haj, hpj⟩ := hj (hok cj (List.getElem?_mem hcj)).1
  constructor
  · intro heq
    have : ki = kj := hinv.distinct ki kj ai aj hai haj (by rw [hpi, hpj, heq])
    rw [hki, hkj, this]
  · intro heq
    have hk : ki = kj := by
      rw [hki, hkj] at heq
      exact_mod_cast heq
    subst hk
    rw [hai] at haj
    cases haj
    rw [← hpi, ← hpj]

theorem add_asset_images_dedup_witness :
    ∃ cache out, add_asset_images []
        [example_call "a.png", example_call "b.png", example_call "a.png"]
        = some (cache, out) ∧
      out.length = [example_call "a.png", example_call "b.png", example_call "a.png"].length ∧
      ∀ (i j : Nat) (ci cj : Bool × layer) (oi oj : layer),
        [example_call "a.png", example_call "b.png", example_call "a.png"][i]? = some ci →
        [example_call "a.png", example_call "b.png", example_call "a.png"][j]? = some cj →
        out[i]? = some oi → out[j]? = some oj →
        (ci.2.asset_image_path = cj.2.asset_image_path ↔
          oi.calculated_image_id = oj.calculated_image_id) :=
  add_asset_images_dedup [example_call "a.png", example_call "b.png", example_call "a.png"]
    (by decide)

/-- C10: starting from the empty cache, after any sequence of `add_asset_image_to_list`
calls on layers with a path, whatever the outcome of the allocations, no two entries of
`packed_assets` hold equal path strings. -/
theorem add_asset_images_distinct_paths (calls : List (Bool × layer))
    (hok : ∀ c ∈ calls, c.2.asset_image_path ≠ none) :
    ∃ cache out, add_asset_images [] calls = some (cache, out) ∧
      ∀ (i j : Nat) (a b : packed_asset), cache[i]? = some a → cache[j]? = some b →
        i ≠ j → a.path ≠ b.path := by
  obtain ⟨cache, out, hrun, hinv, -, -, -⟩ :=
    add_asset_images_spec calls [] cacheInv_nil hok
  refine ⟨cache, out, hrun, ?_⟩
  intro i j a b ha hb hne heq
  exact hne (hinv.distinct i j a b ha hb heq)

theorem add_asset_images_distinct_paths_witness :
    ∃ cache out, add_asset_images []
        [example_call "a.png", (false, (example_call "c.png").2), example_call "a.png",
          example_call "b.png"] = some (cache, out) ∧
      ∀ (i j : Nat) (a b : packed_asset), cache[i]? = some a → cache[j]? = some b →
        i ≠ j → a.path ≠ b.path :=
  add_asset_images_distinct_paths
    [example_call "a.png", (false, (example_call "c.png").2), example_call "a.png",
      example_call "b.png"] (by decide)

/-- A call with a successful allocation on a layer with a path extends the list of cached
paths by the path of the layer exactly when it is not cached yet. -/
theorem add_asset_image_to_list_paths (cache : List packed_asset) (l : layer) (p : String)
    (hinv : CacheInv cache) (hp : l.asset_image_path = some p) :
    ∃ cache' l', add_asset_image_to_list true cache l = some (cache', l') ∧
      cache'.map (fun a => a.path)
        = if some p ∈ cache.map (fun a => a.path) then cache.map (fun a => a.path)
          else cache.map (fun a => a.path) ++ [some p] := by
  rcases find_asset_spec l p hp cache 0 (cacheInv_all_paths hinv) with
    ⟨k, a, hk, -, hget, hpath⟩ | ⟨hnone, hno⟩
  · simp only [Nat.sub_zero] at hget
    refine ⟨cache, { l with calculated_image_id := a.id }, ?_, ?_⟩
    · simp [add_asset_image_to_list, get_asset_image_from_list, hk, hget]
    · have hmem : some p ∈ cache.map (fun a => a.path) :=
        List.mem_map.2 ⟨a, List.getElem?_mem hget, hpath⟩
      rw [if_pos hmem]
  · refine ⟨_, _, add_asset_image_to_list_miss cache l hnone, ?_⟩
    have hnot : some p ∉ cache.map (fun a => a.path) := by
      intro hmem
      obtain ⟨a, ha, hpa⟩ := List.mem_map.1 hmem
      exact hno a ha hpa
    rw [if_neg hnot]
    simp [hp]

/-- With every allocation succeeding, the cached paths after a sequence of calls are the
distinct paths of the layers in the order of their first occurrence. -/
theorem add_asset_images_paths :
    ∀ (calls : List (Bool × layer)) (cache : List packed_asset), CacheInv cache →
      (∀ c ∈ calls, c.1 = true ∧ c.2.asset_image_path ≠ none) →
      ∀ cache' out, add_asset_images cache calls = some (cache', out) →
        cache'.map (fun a => a.path)
          = discovered_paths (cache.map (fun a => a.path))
              (calls.map (fun c => c.2.asset_image_path)) := by
  intro calls
  induction calls with
  | nil =>
    intro cache _ _ cache' out h
    simp [add_asset_images] at h
    simp [discovered_paths, h.1]
  | cons call rest ih =>
    intro cache hinv hall cache' out h
    obtain ⟨htrue, hne⟩ := hall call (List.mem_cons_self _ _)
    obtain ⟨p, hp⟩ : ∃ p, call.2.asset_image_path = some p := Option.ne_none_iff_exists'.1 hne
    obtain ⟨cache1, l1, hstep, hinv1, -, -, -⟩ :=
      add_asset_image_to_list_spec call.1 cache call.2 p hinv hp
    obtain ⟨cache1', l1', hstep', hpaths⟩ := add_asset_image_to_list_paths cache call.2 p hinv hp
    rw [htrue] at hstep
    rw [hstep] at hstep'
    cases hstep'
    simp only [add_asset_images, htrue, hstep] at h
    cases hrun : add_asset_images cache1 rest with
    | none => simp [hrun] at h
    | some q =>
      simp [hrun] at h
      have := ih cache1 hinv1 (fun c hc => hall c (List.mem_cons_of_mem _ hc)) q.1 q.2 (by simp [hrun])
      rw [← h.1, this, hpaths]
      simp only [List.map_cons, discovered_paths, hp]
      split <;> rfl

/-! ## Properties of the discovery order of the cache -/

/-- C11 as stated fails when the allocation of the new slot fails: the call on an empty cache
is a miss, and no entry is appended. -/
theorem add_asset_image_to_list_miss_without_slot :
    get_asset_image_from_list [] (example_call "a.png").2 = some none ∧
    add_asset_image_to_list false [] (example_call "a.png").2
      = some ([], (example_call "a.png").2) := by
  decide

/-- C11, amended: on a cache miss on which the allocation of the new slot succeeds,
`add_asset_image_to_list` appends exactly one entry, whose id is the previous number of
entries and whose path is the path of the layer, and the entries already in the cache keep
their id and path; consequently, in a run from the empty cache in which no allocation fails,
the cached paths are the distinct paths in the order of their discovery, the entry at
position `k` has id `k`, and every layer receives the position of its path in that order. -/
theorem add_asset_image_to_list_appends (cache : List packed_asset) (l : layer)
    (calls : List (Bool × layer))
    (hmiss : get_asset_image_from_list cache l = some none)
    (hok : ∀ c ∈ calls, c.1 = true ∧ c.2.asset_image_path ≠ none) :
    add_asset_image_to_list true cache l
      = some (cache ++ [{ id := (cache.length : Int), path := l.asset_image_path,
                          rect := none, pixels := none }],
              { l with calculated_image_id := (cache.length : Int) }) ∧
    ∃ cache' out, add_asset_images [] calls = some (cache', out) ∧
      cache'.map (fun a => a.path)
        = discovered_paths [] (calls.map (fun c => c.2.asset_image_path)) ∧
      (∀ (k : Nat) (a : packed_asset), cache'[k]? = some a → a.id = (k : Int)) ∧
      ∀ (i : Nat) (c : Bool × layer) (o : layer), calls[i]? = some c → out[i]? = some o →
        ∃ k : Nat, o.calculated_image_id = (k : Int) ∧
          (discovered_paths [] (calls.map (fun c => c.2.asset_image_path)))[k]?
            = some c.2.asset_image_path := by
  refine ⟨add_asset_image_to_list_miss cache l hmiss, ?_⟩
  obtain ⟨cache', out, hrun, hinv, -, -, hout⟩ :=
    add_asset_images_spec calls [] cacheInv_nil (fun c hc => (hok c hc).2)
  have hpaths := add_asset_images_paths calls [] cacheInv_nil hok cache' out hrun
  simp only [List.map_nil] at hpaths
  refine ⟨cache', out, hrun, hpaths, fun k a hka => (hinv.ids k a hka).1, ?_⟩
  intro i c o hc ho
  obtain ⟨-, hid⟩ := hout i c o hc ho
  obtain ⟨k, a, hk, hka, hpa⟩ := hid (hok c (List.getElem?_mem hc)).1
  refine ⟨k, hk, ?_⟩
  rw [← hpaths, List.getElem?_map, hka]
  simp [hpa]

theorem add_asset_image_to_list_appends_witness :
    add_asset_image_to_list true
        [{ id := 0, path := some "a.png", rect := none, pixels := none }]
        (example_call "b.png").2
      = some ([{ id := 0, path := some "a.png", rect := none, pixels := none }] ++
                [{ id := (([{ id := 0, path := some "a.png", rect := none, pixels := none }] :
                      List packed_asset).length : Int),
                   path := (example_call "b.png").2.asset_image_path,
                   rect := none, pixels := none }],
              { (example_call "b.png").2 with
                calculated_image_id :=
                  (([{ id := 0, path := some "a.png", rect := none, pixels := none }] :
                      List packed_asset).length : Int) }) ∧
    ∃ cache' out, add_asset_images []
        [example_call "a.png", example_call "b.png", example_call "a.png"]
        = some (cache', out) ∧
      cache'.map (fun a => a.path)
        = discovered_paths []
            ([example_call "a.png", example_call "b.png", example_call "a.png"].map
              (fun c => c.2.asset_image_path)) ∧
      (∀ (k : Nat) (a : packed_asset), cache'[k]? = some a → a.id = (k : Int)) ∧
      ∀ (i : Nat) (c : Bool × layer) (o : layer),
        [example_call "a.png", example_call "b.png", example_call "a.png"][i]? = some c →
        out[i]? = some o →
        ∃ k : Nat, o.calculated_image_id = (k : Int) ∧
          (discovered_paths []
            ([example_call "a.png", example_call "b.png", example_call "a.png"].map
              (fun c => c.2.asset_image_path)))[k]? = some c.2.asset_image_path :=
  add_asset_image_to_list_appends
    [{ id := 0, path := some "a.png", rect := none, pixels := none }]
    (example_call "b.png").2
    [example_call "a.png", example_call "b.png", example_call "a.png"]
    (by decide) (by decide)

theorem mem_add_attribute_int (e : xml_event) (name : String) (value : Int) :
    e ∈ add_attribute_int name value ↔ e = xml_event.attribute_int name value ∧ value ≠ 0 := by
  unfold add_attribute_int
  split <;> simp_all

theorem mem_add_attribute_bool (e : xml_event) (name : String) (value : Int) (t : String) :
    e ∈ add_attribute_bool name value t ↔ e = xml_event.attribute_text name t ∧ value ≠ 0 := by
  unfold add_attribute_bool
  split <;> simp_all

theorem mem_add_attribute_string (e : xml_event) (name : String) (value : Option String) :
    e ∈ add_attribute_string name value ↔
      ∃ v, value = some v ∧ v ≠ "" ∧ e = xml_event.attribute_text name v := by
  unfold add_attribute_string
  cases value with
  | none => simp
  | some v =>
    by_cases hv : v = ""
    · simp [hv]
    · simp [hv]

/-- Within a label table as long as `max_values`, `add_attribute_enum` is defined: it emits
the label of a value between 1 and `max_values` and nothing for any other value. -/
theorem add_attribute_enum_some (name : String) (value : Nat) (table : List String)
    (max_values : Nat) (hmax : max_values ≤ table.length) :
    ∃ ev, add_attribute_enum name value table max_values = some ev ∧
      ∀ e, e ∈ ev ↔ 0 < value ∧ value ≤ max_values ∧
        ∃ label, table[value - 1]? = some label ∧ e = xml_event.attribute_text name label := by
  unfold add_attribute_enum
  by_cases h : 0 < value ∧ value ≤ max_values
  · have hlt : value - 1 < table.length := by omega
    rw [if_pos h, List.getElem?_eq_getElem hlt]
    refine ⟨_, rfl, ?_⟩
    intro e
    simp [h.1, h.2]
  · rw [if_neg h]
    refine ⟨[], rfl, ?_⟩
    intro e
    simp
    intro h1 h2
    exact absurd ⟨h1, h2⟩ h


/-- The calls `create_layer_xml_line` makes: it is defined for every layer, and an event is
emitted exactly when it is the opening or closing of the element or the attribute of a field
holding a non-default value. -/
theorem create_layer_xml_line_mem (l : layer) :
    ∃ ev, create_layer_xml_line l = some ev ∧ ∀ e, e ∈ ev ↔
      (e = xml_event.new_element "layer" 1 ∨
       (∃ v, l.original_image_group = some v ∧ v ≠ "" ∧ e = xml_event.attribute_text "group" v) ∨
       (∃ v, l.original_image_id = some v ∧ v ≠ "" ∧ e = xml_event.attribute_text "image" v) ∨
       (e = xml_event.attribute_int "src_x" l.src_x ∧ l.src_x ≠ 0) ∨
       (e = xml_event.attribute_int "src_y" l.src_y ∧ l.src_y ≠ 0) ∨
       (e = xml_event.attribute_int "x" l.x_offset ∧ l.x_offset ≠ 0) ∨
       (e = xml_event.attribute_int "y" l.y_offset ∧ l.y_offset ≠ 0) ∨
       (e = xml_event.attribute_int "width" l.width ∧ l.width ≠ 0) ∨
       (e = xml_event.attribute_int "height" l.height ∧ l.height ≠ 0) ∨
       (0 < l.invert ∧ l.invert ≤ 3 ∧ ∃ label, LAYER_INVERT[l.invert - 1]? = some label ∧
          e = xml_event.attribute_text "invert" label) ∨
       (0 < l.rotate ∧ l.rotate ≤ 3 ∧ ∃ label, LAYER_ROTATE[l.rotate - 1]? = some label ∧
          e = xml_event.attribute_text "rotate" label) ∨
       (0 < l.part ∧ l.part ≤ 2 ∧ ∃ label, LAYER_PART[l.part - 1]? = some label ∧
          e = xml_event.attribute_text "part" label) ∨
       (0 < l.mask ∧ l.mask ≤ 2 ∧ ∃ label, LAYER_MASK[l.mask - 1]? = some label ∧
          e = xml_event.attribute_text "mask" label) ∨
       e = xml_event.close_element 0) := by
  obtain ⟨ei, hei, hmi⟩ := add_attribute_enum_some "invert" l.invert LAYER_INVERT 3 (by decide)
  obtain ⟨er, her, hmr⟩ := add_attribute_enum_some "rotate" l.rotate LAYER_ROTATE 3 (by decide)
  obtain ⟨ep, hep, hmp⟩ := add_attribute_enum_some "part" l.part LAYER_PART 2 (by decide)
  obtain ⟨em, hem, hmm⟩ := add_attribute_enum_some "mask" l.mask LAYER_MASK 2 (by decide)
  refine ⟨_, by simp only [create_layer_xml_line, hei, her, hep, hem, Option.some_bind]; rfl, ?_⟩
  intro e
  simp only [List.mem_append, List.mem_singleton, mem_add_attribute_int,
    mem_add_attribute_string, hmi, hmr, hmp, hmm, or_assoc]

/-- The calls `create_frame_xml_line` makes. -/
theorem create_frame_xml_line_mem (l : layer) :
    ∃ ev, create_frame_xml_line l = some ev ∧ ∀ e, e ∈ ev ↔
      (e = xml_event.new_element "frame" 1 ∨
       (∃ v, l.original_image_group = some v ∧ v ≠ "" ∧ e = xml_event.attribute_text "group" v) ∨
       (∃ v, l.original_image_id = some v ∧ v ≠ "" ∧ e = xml_event.attribute_text "image" v) ∨
       (e = xml_event.attribute_int "src_x" l.src_x ∧ l.src_x ≠ 0) ∨
       (e = xml_event.attribute_int "src_y" l.src_y ∧ l.src_y ≠ 0) ∨
       (e = xml_event.attribute_int "width" l.width ∧ l.width ≠ 0) ∨
       (e = xml_event.attribute_int "height" l.height ∧ l.height ≠ 0) ∨
       (0 < l.invert ∧ l.invert ≤ 3 ∧ ∃ label, LAYER_INVERT[l.invert - 1]? = some label ∧
          e = xml_event.attribute_text "invert" label) ∨
       (0 < l.rotate ∧ l.rotate ≤ 3 ∧ ∃ label, LAYER_ROTATE[l.rotate - 1]? = some label ∧
          e = xml_event.attribute_text "rotate" label) ∨
       e = xml_event.close_element 0) := by
  obtain ⟨ei, hei, hmi⟩ := add_attribute_enum_some "invert" l.invert LAYER_INVERT 3 (by decide)
  obtain ⟨er, her, hmr⟩ := add_attribute_enum_some "rotate" l.rotate LAYER_ROTATE 3 (by decide)
  refine ⟨_, by simp only [create_frame_xml_line, hei, her, Option.some_bind]; rfl, ?_⟩
  intro e
  simp only [List.mem_append, List.mem_singleton, mem_add_attribute_int,
    mem_add_attribute_string, hmi, hmr, or_assoc]

/-- The calls `create_image_xml_line` makes. -/
theorem create_image_xml_line_mem (image : asset_image) (e : xml_event) :
    e ∈ create_image_xml_line image ↔
      (e = xml_event.new_element "image" 1 ∨
       (∃ v, image.id = some v ∧ v ≠ "" ∧ e = xml_event.attribute_text "id" v) ∨
       (image.has_defined_size = true ∧ e = xml_event.attribute_int "width" image.img.width ∧
          image.img.width ≠ 0) ∨
       (image.has_defined_size = true ∧ e = xml_event.attribute_int "height" image.img.height ∧
          image.img.height ≠ 0) ∨
       (e = xml_event.attribute_text "isometric" "true" ∧ image.img.is_isometric ≠ 0)) := by
  unfold create_image_xml_line
  cases image.has_defined_size <;>
    simp only [List.mem_append, List.mem_singleton, mem_add_attribute_int,
      mem_add_attribute_string, mem_add_attribute_bool, if_true, Bool.false_eq_true, if_false,
      List.not_mem_nil, or_assoc, false_and, true_and, or_false, false_or]

/-- The calls `create_animation_xml_line` makes for an animated sprite. -/
theorem create_animation_xml_line_mem (image : asset_image) (anim : animation)
    (hanim : image.img.animation = some anim) :
    ∃ ev, create_animation_xml_line image = some ev ∧ ∀ e, e ∈ ev ↔
      (e = xml_event.new_element "animation" 1 ∨
       (image.has_frame_elements = false ∧
          e = xml_event.attribute_int "frames" anim.num_sprites ∧ anim.num_sprites ≠ 0) ∨
       (e = xml_event.attribute_int "speed" anim.speed_id ∧ anim.speed_id ≠ 0) ∨
       (e = xml_event.attribute_int "x" anim.sprite_offset_x ∧ anim.sprite_offset_x ≠ 0) ∨
       (e = xml_event.attribute_int "y" anim.sprite_offset_y ∧ anim.sprite_offset_y ≠ 0) ∨
       (e = xml_event.attribute_text "reversible" "true" ∧ anim.can_reverse ≠ 0)) := by
  refine ⟨_, by simp only [create_animation_xml_line, hanim]; rfl, ?_⟩
  intro e
  cases image.has_frame_elements <;>
    simp only [List.mem_append, List.mem_singleton, mem_add_attribute_int,
      mem_add_attribute_bool, Bool.not_true, Bool.not_false, if_true, Bool.false_eq_true,
      if_false, List.not_mem_nil, or_assoc, false_and, true_and, or_false, false_or,
      Bool.true_eq_false]

theorem label_ne_empty (table : List String) (h : ∀ t ∈ table, t ≠ "") {i : Nat} {label : String}
    (hl : table[i]? = some label) : label ≠ "" :=
  h label (List.getElem?_mem hl)


theorem has_attribute_iff (name : String) (ev : List xml_event) :
    has_attribute name ev ↔
      (∃ v, xml_event.attribute_int name v ∈ ev) ∨ (∃ v, xml_event.attribute_text name v ∈ ev) := by
  unfold has_attribute
  constructor
  · rintro ⟨e, he, ⟨v, rfl⟩ | ⟨v, rfl⟩⟩
    · exact Or.inl ⟨v, he⟩
    · exact Or.inr ⟨v, he⟩
  · rintro (⟨v, hv⟩ | ⟨v, hv⟩)
    · exact ⟨_, hv, Or.inl ⟨v, rfl⟩⟩
    · exact ⟨_, hv, Or.inr ⟨v, rfl⟩⟩


theorem layer_label_ne_empty {i : Nat} {label : String}
    (h : LAYER_INVERT[i]? = some label ∨ LAYER_ROTATE[i]? = some label ∨
      LAYER_PART[i]? = some label ∨ LAYER_MASK[i]? = some label) : label ≠ "" := by
  rcases h with h | h | h | h
  · exact label_ne_empty LAYER_INVERT (by decide) h
  · exact label_ne_empty LAYER_ROTATE (by decide) h
  · exact label_ne_empty LAYER_PART (by decide) h
  · exact label_ne_empty LAYER_MASK (by decide) h

theorem create_layer_xml_line_sparse (l : layer) :
    ∃ ev, create_layer_xml_line l = some ev ∧ sparse_values ev ∧
      (has_attribute "group" ev → ∃ v, l.original_image_group = some v ∧ v ≠ "") ∧
      (has_attribute "image" ev → ∃ v, l.original_image_id = some v ∧ v ≠ "") ∧
      (has_attribute "src_x" ev → l.src_x ≠ 0) ∧
      (has_attribute "src_y" ev → l.src_y ≠ 0) ∧
      (has_attribute "x" ev → l.x_offset ≠ 0) ∧
      (has_attribute "y" ev → l.y_offset ≠ 0) ∧
      (has_attribute "width" ev → l.width ≠ 0) ∧
      (has_attribute "height" ev → l.height ≠ 0) ∧
      (has_attribute "invert" ev → l.invert ≠ 0) ∧
      (has_attribute "rotate" ev → l.rotate ≠ ROTATE_NONE) ∧
      (has_attribute "part" ev → l.part ≠ 0) ∧
      (has_attribute "mask" ev → l.mask ≠ 0) := by
  obtain ⟨ev, hev, hmem⟩ := create_layer_xml_line_mem l
  refine ⟨ev, hev, ⟨?_, ?_⟩, ?_, ?_, ?_, ?_, ?_, ?_, ?_, ?_, ?_, ?_, ?_, ?_⟩
  · intro n v hv
    have := (hmem _).1 hv
    simp at this
    rcases this with h | h | h | h | h | h <;> omega
  · intro n v hv
    have := (hmem _).1 hv
    simp at this
    rcases this with ⟨w, -, hne, -, rfl⟩ | ⟨w, -, hne, -, rfl⟩ | h | h | h | h
    · exact hne
    · exact hne
    · exact layer_label_ne_empty (Or.inl h.2.2.1)
    · exact layer_label_ne_empty (Or.inr (Or.inl h.2.2.1))
    · exact layer_label_ne_empty (Or.inr (Or.inr (Or.inl h.2.2.1)))
    · exact layer_label_ne_empty (Or.inr (Or.inr (Or.inr h.2.2.1)))
  · intro h
    rcases (has_attribute_iff _ _).1 h with ⟨v, hv⟩ | ⟨v, hv⟩ <;>
      · have := (hmem _).1 hv
        simp at this
        try (exact ⟨_, this.1, this.2⟩)
  · intro h
    rcases (has_attribute_iff _ _).1 h with ⟨v, hv⟩ | ⟨v, hv⟩ <;>
      · have := (hmem _).1 hv
        simp at this
        try (exact ⟨_, this.1, this.2⟩)
  · intro h
    rcases (has_attribute_iff _ _).1 h with ⟨v, hv⟩ | ⟨v, hv⟩ <;>
      · have := (hmem _).1 hv
        simp at this
        try (omega)
  · intro h
    rcases (has_attribute_iff _ _).1 h with ⟨v, hv⟩ | ⟨v, hv⟩ <;>
      · have := (hmem _).1 hv
        simp at this
        try (omega)
  · intro h
    rcases (has_attribute_iff _ _).1 h with ⟨v, hv⟩ | ⟨v, hv⟩ <;>
      · have := (hmem _).1 hv
        simp at this
        try (omega)
  · intro h
    rcases (has_attribute_iff _ _).1 h with ⟨v, hv⟩ | ⟨v, hv⟩ <;>
      · have := (hmem _).1 hv
        simp at this
        try (omega)
  · intro h
    rcases (has_attribute_iff _ _).1 h with ⟨v, hv⟩ | ⟨v, hv⟩ <;>
      · have := (hmem _).1 hv
        simp at this
        try (omega)
  · intro h
    rcases (has_attribute_iff _ _).1 h with ⟨v, hv⟩ | ⟨v, hv⟩ <;>
      · have := (hmem _).1 hv
        simp at this
        try (omega)
  · intro h
    rcases (has_attribute_iff _ _).1 h with ⟨v, hv⟩ | ⟨v, hv⟩ <;>
      · have := (hmem _).1 hv
        simp at this
        try (omega)
  · intro h
    rcases (has_attribute_iff _ _).1 h with ⟨v, hv⟩ | ⟨v, hv⟩ <;>
      · have := (hmem _).1 hv
        simp at this
        try (unfold ROTATE_NONE; omega)
  · intro h
    rcases (has_attribute_iff _ _).1 h with ⟨v, hv⟩ | ⟨v, hv⟩ <;>
      · have := (hmem _).1 hv
        simp at this
        try (omega)
  · intro h
    rcases (has_attribute_iff _ _).1 h with ⟨v, hv⟩ | ⟨v, hv⟩ <;>
      · have := (hmem _).1 hv
        simp at this
        try (omega)

theorem create_frame_xml_line_sparse (l : layer) :
    ∃ ev, create_frame_xml_line l = some ev ∧ sparse_values ev ∧
      (has_attribute "group" ev → ∃ v, l.original_image_group = some v ∧ v ≠ "") ∧
      (has_attribute "image" ev → ∃ v, l.original_image_id = some v ∧ v ≠ "") ∧
      (has_attribute "src_x" ev → l.src_x ≠ 0) ∧
      (has_attribute "src_y" ev → l.src_y ≠ 0) ∧
      (has_attribute "width" ev → l.width ≠ 0) ∧
      (has_attribute "height" ev → l.height ≠ 0) ∧
      (has_attribute "invert" ev → l.invert ≠ 0) ∧
      (has_attribute "rotate" ev → l.rotate ≠ ROTATE_NONE) := by
  obtain ⟨ev, hev, hmem⟩ := create_frame_xml_line_mem l
  refine ⟨ev, hev, ⟨?_, ?_⟩, ?_, ?_, ?_, ?_, ?_, ?_, ?_, ?_⟩
  · intro n v hv
    have := (hmem _).1 hv
    simp at this
    rcases this with h | h | h | h <;> omega
  · intro n v hv
    have := (hmem _).1 hv
    simp at this
    rcases this with ⟨w, -, hne, -, rfl⟩ | ⟨w, -, hne, -, rfl⟩ | h | h
    · exact hne
    · exact hne
    · exact layer_label_ne_empty (Or.inl h.2.2.1)
    · exact layer_label_ne_empty (Or.inr (Or.inl h.2.2.1))
  · intro h
    rcases (has_attribute_iff _ _).1 h with ⟨v, hv⟩ | ⟨v, hv⟩ <;>
      · have := (hmem _).1 hv
        simp at this
        try (exact ⟨_, this.1, this.2⟩)
  · intro h
    rcases (has_attribute_iff _ _).1 h with ⟨v, hv⟩ | ⟨v, hv⟩ <;>
      · have := (hmem _).1 hv
        simp at this
        try (exact ⟨_, this.1, this.2⟩)
  · intro h
    rcases (has_attribute_iff _ _).1 h with ⟨v, hv⟩ | ⟨v, hv⟩ <;>
      · have := (hmem _).1 hv
        simp at this
        try (omega)
  · intro h
    rcases (has_attribute_iff _ _).1 h with ⟨v, hv⟩ | ⟨v, hv⟩ <;>
      · have := (hmem _).1 hv
        simp at this
        try (omega)
  · intro h
    rcases (has_attribute_iff _ _).1 h with ⟨v, hv⟩ | ⟨v, hv⟩ <;>
      · have := (hmem _).1 hv
        simp at this
        try (omega)
  · intro h
    rcases (has_attribute_iff _ _).1 h with ⟨v, hv⟩ | ⟨v, hv⟩ <;>
      · have := (hmem _).1 hv
        simp at this
        try (omega)
  · intro h
    rcases (has_attribute_iff _ _).1 h with ⟨v, hv⟩ | ⟨v, hv⟩ <;>
      · have := (hmem _).1 hv
        simp at this
        try (omega)
  · intro h
    rcases (has_attribute_iff _ _).1 h with ⟨v, hv⟩ | ⟨v, hv⟩ <;>
      · have := (hmem _).1 hv
        simp at this
        try (unfold ROTATE_NONE; omega)

theorem create_animation_xml_line_sparse (image : asset_image) (anim : animation)
    (hanim : image.img.animation = some anim) :
    ∃ ev, create_animation_xml_line image = some ev ∧ sparse_values ev ∧
      (has_attribute "frames" ev → anim.num_sprites ≠ 0) ∧
      (has_attribute "speed" ev → anim.speed_id ≠ 0) ∧
      (has_attribute "x" ev → anim.sprite_offset_x ≠ 0) ∧
      (has_attribute "y" ev → anim.sprite_offset_y ≠ 0) ∧
      (has_attribute "reversible" ev → anim.can_reverse ≠ 0) := by
  obtain ⟨ev, hev, hmem⟩ := create_animation_xml_line_mem image anim hanim
  refine ⟨ev, hev, ⟨?_, ?_⟩, ?_, ?_, ?_, ?_, ?_⟩
  · intro n v hv
    have := (hmem _).1 hv
    simp at this
    rcases this with h | h | h | h <;> omega
  · intro n v hv
    have := (hmem _).1 hv
    simp at this
    simp [this.1.2]
  · intro h
    rcases (has_attribute_iff _ _).1 h with ⟨v, hv⟩ | ⟨v, hv⟩ <;>
      · have := (hmem _).1 hv
        simp at this
        try (omega)
  · intro h
    rcases (has_attribute_iff _ _).1 h with ⟨v, hv⟩ | ⟨v, hv⟩ <;>
      · have := (hmem _).1 hv
        simp at this
        try (omega)
  · intro h
    rcases (has_attribute_iff _ _).1 h with ⟨v, hv⟩ | ⟨v, hv⟩ <;>
      · have := (hmem _).1 hv
        simp at this
        try (omega)
  · intro h
    rcases (has_attribute_iff _ _).1 h with ⟨v, hv⟩ | ⟨v, hv⟩ <;>
      · have := (hmem _).1 hv
        simp at this
        try (omega)
  · intro h
    rcases (has_attribute_iff _ _).1 h with ⟨v, hv⟩ | ⟨v, hv⟩ <;>
      · have := (hmem _).1 hv
        simp at this
        try (omega)

theorem create_image_xml_line_sparse (image : asset_image) :
    sparse_values (create_image_xml_line image) ∧
      (has_attribute "id" (create_image_xml_line image) → ∃ v, image.id = some v ∧ v ≠ "") ∧
      (has_attribute "width" (create_image_xml_line image) → image.img.width ≠ 0) ∧
      (has_attribute "height" (create_image_xml_line image) → image.img.height ≠ 0) ∧
      (has_attribute "isometric" (create_image_xml_line image) → image.img.is_isometric ≠ 0) := by
  have hmem := create_image_xml_line_mem image
  refine ⟨⟨?_, ?_⟩, ?_, ?_, ?_, ?_⟩
  · intro n v hv
    have := (hmem _).1 hv
    simp at this
    rcases this with h | h <;> omega
  · intro n v hv
    have := (hmem _).1 hv
    simp at this
    rcases this with ⟨w, -, hne, -, rfl⟩ | h
    · exact hne
    · simp [h.1.2]
  · intro h
    rcases (has_attribute_iff _ _).1 h with ⟨v, hv⟩ | ⟨v, hv⟩ <;>
      · have := (hmem _).1 hv
        simp at this
        try (exact ⟨_, this.1, this.2⟩)
  · intro h
    rcases (has_attribute_iff _ _).1 h with ⟨v, hv⟩ | ⟨v, hv⟩ <;>
      · have := (hmem _).1 hv
        simp at this
        try (omega)
  · intro h
    rcases (has_attribute_iff _ _).1 h with ⟨v, hv⟩ | ⟨v, hv⟩ <;>
      · have := (hmem _).1 hv
        simp at this
        try (omega)
  · intro h
    rcases (has_attribute_iff _ _).1 h with ⟨v, hv⟩ | ⟨v, hv⟩ <;>
      · have := (hmem _).1 hv
        simp at this
        try (omega)


/-- The rotation `pack_layer` leaves in a layer is an enumerator whenever the authored
rotation is one. -/
theorem pack_layer_rotate_le (rects : List image_packer_rect) (l0 lp : layer)
    (hpack : pack_layer rects l0 = some lp) (h0 : l0.rotate ≤ 3) : lp.rotate ≤ 3 := by
  cases hpath : l0.asset_image_path with
  | none =>
    simp [pack_layer, hpath] at hpack
    rw [← hpack]; exact h0
  | some path =>
    cases hrect : layer_rect rects l0 with
    | none => simp [pack_layer, hpath, hrect] at hpack
    | some rect =>
      rw [pack_layer_some rects l0 path rect hpath hrect] at hpack
      cases hpack
      simp only
      split
      · unfold advance_rotation ROTATE_NONE ROTATE_90_DEGREES ROTATE_180_DEGREES
          ROTATE_270_DEGREES
        split_ifs <;> omega
      · exact h0


/-! ## Properties of the manifest emitter -/

/-- C16: sparse emission. In the layer, frame, animation and image elements the emitter
writes, no attribute carries a default value: every integer attribute emitted is nonzero and
every text emitted is non-empty, and an attribute is emitted only if its field is not the
default (a nonzero integer, a non-null and non-empty string, a nonzero boolean, an
enumeration value other than the zero enumerator). -/
theorem manifest_emission_is_sparse (l : layer) (image : asset_image) (anim : animation)
    (hanim : image.img.animation = some anim) :
    (∃ ev, create_layer_xml_line l = some ev ∧ sparse_values ev ∧
      (has_attribute "group" ev → ∃ v, l.original_image_group = some v ∧ v ≠ "") ∧
      (has_attribute "image" ev → ∃ v, l.original_image_id = some v ∧ v ≠ "") ∧
      (has_attribute "src_x" ev → l.src_x ≠ 0) ∧
      (has_attribute "src_y" ev → l.src_y ≠ 0) ∧
      (has_attribute "x" ev → l.x_offset ≠ 0) ∧
      (has_attribute "y" ev → l.y_offset ≠ 0) ∧
      (has_attribute "width" ev → l.width ≠ 0) ∧
      (has_attribute "height" ev → l.height ≠ 0) ∧
      (has_attribute "invert" ev → l.invert ≠ 0) ∧
      (has_attribute "rotate" ev → l.rotate ≠ ROTATE_NONE) ∧
      (has_attribute "part" ev → l.part ≠ 0) ∧
      (has_attribute "mask" ev → l.mask ≠ 0)) ∧
    (∃ ev, create_frame_xml_line l = some ev ∧ sparse_values ev ∧
      (has_attribute "group" ev → ∃ v, l.original_image_group = some v ∧ v ≠ "") ∧
      (has_attribute "image" ev → ∃ v, l.original_image_id = some v ∧ v ≠ "") ∧
      (has_attribute "src_x" ev → l.src_x ≠ 0) ∧
      (has_attribute "src_y" ev → l.src_y ≠ 0) ∧
      (has_attribute "width" ev → l.width ≠ 0) ∧
      (has_attribute "height" ev → l.height ≠ 0) ∧
      (has_attribute "invert" ev → l.invert ≠ 0) ∧
      (has_attribute "rotate" ev → l.rotate ≠ ROTATE_NONE)) ∧
    (∃ ev, create_animation_xml_line image = some ev ∧ sparse_values ev ∧
      (has_attribute "frames" ev → anim.num_sprites ≠ 0) ∧
      (has_attribute "speed" ev → anim.speed_id ≠ 0) ∧
      (has_attribute "x" ev → anim.sprite_offset_x ≠ 0) ∧
      (has_attribute "y" ev → anim.sprite_offset_y ≠ 0) ∧
      (has_attribute "reversible" ev → anim.can_reverse ≠ 0)) ∧
    (sparse_values (create_image_xml_line image) ∧
      (has_attribute "id" (create_image_xml_line image) → ∃ v, image.id = some v ∧ v ≠ "") ∧
      (has_attribute "width" (create_image_xml_line image) → image.img.width ≠ 0) ∧
      (has_attribute "height" (create_image_xml_line image) → image.img.height ≠ 0) ∧
      (has_attribute "isometric" (create_image_xml_line image) → image.img.is_isometric ≠ 0)) :=
  ⟨create_layer_xml_line_sparse l, create_frame_xml_line_sparse l,
    create_animation_xml_line_sparse image anim hanim, create_image_xml_line_sparse image⟩

theorem manifest_emission_is_sparse_witness :
    (∃ ev, create_layer_xml_line example_layer = some ev ∧ sparse_values ev ∧
      (has_attribute "group" ev → ∃ v, example_layer.original_image_group = some v ∧ v ≠ "") ∧
      (has_attribute "image" ev → ∃ v, example_layer.original_image_id = some v ∧ v ≠ "") ∧
      (has_attribute "src_x" ev → example_layer.src_x ≠ 0) ∧
      (has_attribute "src_y" ev → example_layer.src_y ≠ 0) ∧
      (has_attribute "x" ev → example_layer.x_offset ≠ 0) ∧
      (has_attribute "y" ev → example_layer.y_offset ≠ 0) ∧
      (has_attribute "width" ev → example_layer.width ≠ 0) ∧
      (has_attribute "height" ev → example_layer.height ≠ 0) ∧
      (has_attribute "invert" ev → example_layer.invert ≠ 0) ∧
      (has_attribute "rotate" ev → example_layer.rotate ≠ ROTATE_NONE) ∧
      (has_attribute "part" ev → example_layer.part ≠ 0) ∧
      (has_attribute "mask" ev → example_layer.mask ≠ 0)) ∧
    (∃ ev, create_frame_xml_line example_layer = some ev ∧ sparse_values ev ∧
      (has_attribute "group" ev → ∃ v, example_layer.original_image_group = some v ∧ v ≠ "") ∧
      (has_attribute "image" ev → ∃ v, example_layer.original_image_id = some v ∧ v ≠ "") ∧
      (has_attribute "src_x" ev → example_layer.src_x ≠ 0) ∧
      (has_attribute "src_y" ev → example_layer.src_y ≠ 0) ∧
      (has_attribute "width" ev → example_layer.width ≠ 0) ∧
      (has_attribute "height" ev → example_layer.height ≠ 0) ∧
      (has_attribute "invert" ev → example_layer.invert ≠ 0) ∧
      (has_attribute "rotate" ev → example_layer.rotate ≠ ROTATE_NONE)) ∧
    (∃ ev, create_animation_xml_line example_image = some ev ∧ sparse_values ev ∧
      (has_attribute "frames" ev → example_animation.num_sprites ≠ 0) ∧
      (has_attribute "speed" ev → example_animation.speed_id ≠ 0) ∧
      (has_attribute "x" ev → example_animation.sprite_offset_x ≠ 0) ∧
      (has_attribute "y" ev → example_animation.sprite_offset_y ≠ 0) ∧
      (has_attribute "reversible" ev → example_animation.can_reverse ≠ 0)) ∧
    (sparse_values (create_image_xml_line example_image) ∧
      (has_attribute "id" (create_image_xml_line example_image) → ∃ v, example_image.id = some v ∧ v ≠ "") ∧
      (has_attribute "width" (create_image_xml_line example_image) → example_image.img.width ≠ 0) ∧
      (has_attribute "height" (create_image_xml_line example_image) → example_image.img.height ≠ 0) ∧
      (has_attribute "isometric" (create_image_xml_line example_image) → example_image.img.is_isometric ≠ 0)) :=
  manifest_emission_is_sparse example_layer example_image example_animation rfl

/-- An enumerated attribute whose value lies beyond its label table is not emitted. -/
theorem create_layer_xml_line_beyond (l : layer) :
    ∃ ev, create_layer_xml_line l = some ev ∧
      (3 < l.invert → ¬ has_attribute "invert" ev) ∧
      (3 < l.rotate → ¬ has_attribute "rotate" ev) ∧
      (2 < l.part → ¬ has_attribute "part" ev) ∧
      (2 < l.mask → ¬ has_attribute "mask" ev) := by
  obtain ⟨ev, hev, hmem⟩ := create_layer_xml_line_mem l
  refine ⟨ev, hev, ?_, ?_, ?_, ?_⟩ <;>
  · intro hgt hattr
    rcases (has_attribute_iff _ _).1 hattr with ⟨v, hv⟩ | ⟨v, hv⟩
    · have := (hmem _).1 hv
      simp at this
    · have := (hmem _).1 hv
      simp at this
      omega

/-- C17 as stated fails: a layer whose `part` and `mask` hold the non-default value 3 gets
neither a `part` nor a `mask` attribute: `add_attribute_enum` emits a value only when it is
at most `max_values`, the length of the label table. -/
theorem create_layer_xml_line_drops_beyond_table :
    ({ example_plain_layer with part := 3, mask := 3 } : layer).part ≠ 0 ∧
    ({ example_plain_layer with part := 3, mask := 3 } : layer).mask ≠ 0 ∧
    create_layer_xml_line { example_plain_layer with part := 3, mask := 3 }
      = some [xml_event.new_element "layer" 1,
              xml_event.attribute_text "group" "terrain",
              xml_event.attribute_text "image" "grass",
              xml_event.attribute_int "x" 1,
              xml_event.attribute_int "width" 4,
              xml_event.attribute_int "height" 5,
              xml_event.close_element 0] ∧
    ∃ ev, create_layer_xml_line { example_plain_layer with part := 3, mask := 3 } = some ev ∧
      ¬ has_attribute "part" ev ∧ ¬ has_attribute "mask" ev := by
  refine ⟨by decide, by decide, by rfl, ?_⟩
  obtain ⟨ev, hev, -, -, hp, hm⟩ :=
    create_layer_xml_line_beyond { example_plain_layer with part := 3, mask := 3 }
  exact ⟨ev, hev, hp (by decide), hm (by decide)⟩

/-- C17, amended: `create_layer_xml_line` is defined for every layer and emits every
attribute whose value is not the default and, for an enumerated field, lies within its label
table: each nonzero `src_x`, `src_y`, `x`, `y`, `width`, `height` with its value, and each
value 1 to 3 of `invert` and `rotate` and 1 to 2 of `part` and `mask` with its label; a value
of an enumerated field beyond its label table is emitted as no attribute; in particular the
rotation `pack_layer` leaves in a layer authored with a rotation of the enumeration is
emitted whenever it is not `ROTATE_NONE`. -/
theorem create_layer_xml_line_complete (l : layer) (rects : List image_packer_rect)
    (l0 lp : layer) (hpack : pack_layer rects l0 = some lp) (h0 : l0.rotate ≤ 3) :
    (∃ ev, create_layer_xml_line l = some ev ∧
      (l.src_x ≠ 0 → xml_event.attribute_int "src_x" l.src_x ∈ ev) ∧
      (l.src_y ≠ 0 → xml_event.attribute_int "src_y" l.src_y ∈ ev) ∧
      (l.x_offset ≠ 0 → xml_event.attribute_int "x" l.x_offset ∈ ev) ∧
      (l.y_offset ≠ 0 → xml_event.attribute_int "y" l.y_offset ∈ ev) ∧
      (l.width ≠ 0 → xml_event.attribute_int "width" l.width ∈ ev) ∧
      (l.height ≠ 0 → xml_event.attribute_int "height" l.height ∈ ev) ∧
      (l.invert = 1 → xml_event.attribute_text "invert" "horizontal" ∈ ev) ∧
      (l.invert = 2 → xml_event.attribute_text "invert" "vertical" ∈ ev) ∧
      (l.invert = 3 → xml_event.attribute_text "invert" "both" ∈ ev) ∧
      (l.rotate = ROTATE_90_DEGREES → xml_event.attribute_text "rotate" "90" ∈ ev) ∧
      (l.rotate = ROTATE_180_DEGREES → xml_event.attribute_text "rotate" "180" ∈ ev) ∧
      (l.rotate = ROTATE_270_DEGREES → xml_event.attribute_text "rotate" "270" ∈ ev) ∧
      (l.part = 1 → xml_event.attribute_text "part" "footprint" ∈ ev) ∧
      (l.part = 2 → xml_event.attribute_text "part" "top" ∈ ev) ∧
      (l.mask = 1 → xml_event.attribute_text "mask" "grayscale" ∈ ev) ∧
      (l.mask = 2 → xml_event.attribute_text "mask" "alpha" ∈ ev) ∧
      (3 < l.invert → ¬ has_attribute "invert" ev) ∧
      (3 < l.rotate → ¬ has_attribute "rotate" ev) ∧
      (2 < l.part → ¬ has_attribute "part" ev) ∧
      (2 < l.mask → ¬ has_attribute "mask" ev)) ∧
    (∃ ev, create_layer_xml_line lp = some ev ∧
      (lp.rotate ≠ ROTATE_NONE → ∃ label, LAYER_ROTATE[lp.rotate - 1]? = some label ∧
        xml_event.attribute_text "rotate" label ∈ ev)) := by
  constructor
  · obtain ⟨ev, hev, hmem⟩ := create_layer_xml_line_mem l
    obtain ⟨ev', hev', b1, b2, b3, b4⟩ := create_layer_xml_line_beyond l
    rw [hev] at hev'
    cases hev'
    refine ⟨ev, hev, ?_, ?_, ?_, ?_, ?_, ?_, ?_, ?_, ?_, ?_, ?_, ?_, ?_, ?_, ?_, ?_, b1, b2, b3,
      b4⟩ <;>
      · intro h
        exact (hmem _).2 (by simp [h, LAYER_INVERT, LAYER_ROTATE, LAYER_PART, LAYER_MASK,
          ROTATE_90_DEGREES, ROTATE_180_DEGREES, ROTATE_270_DEGREES])
  · obtain ⟨ev, hev, hmem⟩ := create_layer_xml_line_mem lp
    refine ⟨ev, hev, ?_⟩
    intro hne
    have h3 := pack_layer_rotate_le rects l0 lp hpack h0
    unfold ROTATE_NONE at hne
    have hlt : lp.rotate - 1 < LAYER_ROTATE.length := by
      simp [LAYER_ROTATE]; omega
    have hpos : 0 < lp.rotate := by omega
    refine ⟨LAYER_ROTATE[lp.rotate - 1], List.getElem?_eq_getElem hlt, ?_⟩
    refine (hmem _).2 ?_
    simp [hpos, h3, List.getElem?_eq_getElem hlt]

theorem create_layer_xml_line_complete_witness :
    pack_layer example_rects example_layer
      = some { example_layer with
          src_x := 2, src_y := 0, width := 1, height := 2, rotate := ROTATE_180_DEGREES } ∧
    example_layer.rotate ≤ 3 ∧
    (∃ ev, create_layer_xml_line example_layer = some ev ∧
      (example_layer.src_x ≠ 0 → xml_event.attribute_int "src_x" example_layer.src_x ∈ ev) ∧
      (example_layer.src_y ≠ 0 → xml_event.attribute_int "src_y" example_layer.src_y ∈ ev) ∧
      (example_layer.x_offset ≠ 0 → xml_event.attribute_int "x" example_layer.x_offset ∈ ev) ∧
      (example_layer.y_offset ≠ 0 → xml_event.attribute_int "y" example_layer.y_offset ∈ ev) ∧
      (example_layer.width ≠ 0 → xml_event.attribute_int "width" example_layer.width ∈ ev) ∧
      (example_layer.height ≠ 0 → xml_event.attribute_int "height" example_layer.height ∈ ev) ∧
      (example_layer.invert = 1 → xml_event.attribute_text "invert" "horizontal" ∈ ev) ∧
      (example_layer.invert = 2 → xml_event.attribute_text "invert" "vertical" ∈ ev) ∧
      (example_layer.invert = 3 → xml_event.attribute_text "invert" "both" ∈ ev) ∧
      (example_layer.rotate = ROTATE_90_DEGREES → xml_event.attribute_text "rotate" "90" ∈ ev) ∧
      (example_layer.rotate = ROTATE_180_DEGREES → xml_event.attribute_text "rotate" "180" ∈ ev) ∧
      (example_layer.rotate = ROTATE_270_DEGREES → xml_event.attribute_text "rotate" "270" ∈ ev) ∧
      (example_layer.part = 1 → xml_event.attribute_text "part" "footprint" ∈ ev) ∧
      (example_layer.part = 2 → xml_event.attribute_text "part" "top" ∈ ev) ∧
      (example_layer.mask = 1 → xml_event.attribute_text "mask" "grayscale" ∈ ev) ∧
      (example_layer.mask = 2 → xml_event.attribute_text "mask" "alpha" ∈ ev) ∧
      (3 < example_layer.invert → ¬ has_attribute "invert" ev) ∧
      (3 < example_layer.rotate → ¬ has_attribute "rotate" ev) ∧
      (2 < example_layer.part → ¬ has_attribute "part" ev) ∧
      (2 < example_layer.mask → ¬ has_attribute "mask" ev)) ∧
    (∃ ev, create_layer_xml_line
        { example_layer with
          src_x := 2, src_y := 0, width := 1, height := 2, rotate := ROTATE_180_DEGREES }
        = some ev ∧
      (ROTATE_180_DEGREES ≠ ROTATE_NONE → ∃ label, LAYER_ROTATE[ROTATE_180_DEGREES - 1]?
          = some label ∧ xml_event.attribute_text "rotate" label ∈ ev)) :=
  ⟨by decide, by decide,
    create_layer_xml_line_complete example_layer example_rects example_layer
      { example_layer with
        src_x := 2, src_y := 0, width := 1, height := 2, rotate := ROTATE_180_DEGREES }
      (by decide) (by decide)⟩

/-! ## Properties of rect population -/

theorem set_same {α : Type} (l : List α) (k : Nat) (r : α) (h : l[k]? = some r) :
    l.set k r = l := by
  apply List.ext_getElem?
  intro i
  by_cases hik : k = i
  · subst hik
    have hlt : k < l.length := by
      by_contra hge
      rw [List.getElem?_eq_none (by omega)] at h
      cases h
    rw [List.getElem?_set_self hlt, h]
  · rw [List.getElem?_set_ne hik]

/-- One iteration of `populate_asset_rects` on an entry without a pixel buffer whose rect
exists: the entry receives the decoded buffer, if any, and its rect the decoded size. -/
theorem populate_asset_fresh (env : Env) (a : packed_asset) (rects : List image_packer_rect)
    (p : String) (k : Nat) (r : image_packer_rect) (hp : a.path = some p)
    (hid : a.id = (k : Int)) (hpix : a.pixels = none) (hr : rects[k]? = some r) :
    populate_asset env a rects
      = some ({ a with rect := some k, pixels := (decoded env p).map (fun d => d.2.2) },
              rects.set k (rect_outcome (decoded env p) r)) := by
  have hptr : rect_pointer a.id = some k := by simp [rect_pointer, hid]
  have hsame := set_same rects k r hr
  unfold populate_asset decoded rect_outcome
  simp only [hp, hptr]
  cases hprobe : env.png_get_image_size p with
  | none => simp [hpix, hsame]
  | some wh =>
    obtain ⟨w, h⟩ := wh
    simp only
    by_cases hz : w = 0 ∨ h = 0
    · simp [hz, hpix, hsame]
    · simp only [hz, if_false]
      cases hm : env.malloc_pixels p with
      | false => simp [hsame]
      | true =>
        simp only [Bool.not_true, Bool.false_eq_true, if_false]
        cases hread : env.png_read p with
        | none => simp [hsame]
        | some content => simp [hr]

/-- The loop of `populate_asset_rects` over the entries at positions `k0, k0 + 1, ...`: it is
defined, keeps the number of entries and of rects, leaves the rects before `k0` alone, and
gives every entry and its rect the outcome of its own probe and decode. -/
theorem populate_asset_rects_from (env : Env) :
    ∀ (assets : List packed_asset) (k0 : Nat) (rects : List image_packer_rect),
      (∀ (j : Nat) (a : packed_asset), assets[j]? = some a →
        a.id = ((k0 + j : Nat) : Int) ∧ a.path ≠ none ∧ a.pixels = none) →
      k0 + assets.length ≤ rects.length →
      ∃ out rects', populate_asset_rects env assets rects = some (out, rects') ∧
        out.length = assets.length ∧ rects'.length = rects.length ∧
        (∀ i, i < k0 → rects'[i]? = rects[i]?) ∧
        ∀ (j : Nat) (a : packed_asset) (p : String) (r : image_packer_rect),
          assets[j]? = some a → a.path = some p → rects[k0 + j]? = some r →
          out[j]? = some { a with rect := some (k0 + j),
                                  pixels := (decoded env p).map (fun d => d.2.2) } ∧
          rects'[k0 + j]? = some (rect_outcome (decoded env p) r) := by
  intro assets
  induction assets with
  | nil =>
    intro k0 rects _ _
    exact ⟨[], rects, rfl, rfl, rfl, fun _ _ => rfl, by intro j a p r h; simp at h⟩
  | cons a rest ih =>
    intro k0 rects hall hlen
    obtain ⟨hid, hne, hpix⟩ := hall 0 a (by simp)
    obtain ⟨p, hp⟩ : ∃ p, a.path = some p := Option.ne_none_iff_exists'.1 hne
    simp only [List.length_cons] at hlen
    have hk0 : k0 < rects.length := by omega
    have hstep := populate_asset_fresh env a rects p k0 rects[k0] hp (by simpa using hid) hpix
      (List.getElem?_eq_getElem hk0)
    obtain ⟨out, rects', hrun, hlo, hlr, hbelow, hpt⟩ := ih (k0 + 1)
      (rects.set k0 (rect_outcome (decoded env p) rects[k0]))
      (by
        intro j b hb
        have := hall (j + 1) b (by simpa using hb)
        refine ⟨?_, this.2⟩
        rw [this.1]; congr 1; omega)
      (by rw [List.length_set]; omega)
    refine ⟨{ a with rect := some k0, pixels := (decoded env p).map (fun d => d.2.2) } :: out,
      rects', by simp [populate_asset_rects, hstep, hrun], by simp [hlo],
      by rw [hlr, List.length_set], ?_, ?_⟩
    · intro i hi
      rw [hbelow i (by omega), List.getElem?_set_ne (by omega)]
    · intro j b q r hb hq hr
      cases j with
      | zero =>
        simp only [List.getElem?_cons_zero, Option.some.injEq] at hb
        subst hb
        rw [hp] at hq
        cases hq
        simp only [Nat.add_zero] at hr ⊢
        have hr' : rects[k0] = r := by
          rw [List.getElem?_eq_getElem hk0] at hr
          exact Option.some.inj hr
        refine ⟨by simp, ?_⟩
        rw [hbelow k0 (by omega), List.getElem?_set_self hk0, hr']
      | succ n =>
        simp only [List.getElem?_cons_succ] at hb ⊢
        have hidx : k0 + (n + 1) = k0 + 1 + n := by omega
        rw [hidx] at hr ⊢
        exact hpt n b q r hb hq (by rw [List.getElem?_set_ne (by omega)]; exact hr)

theorem freshCache_get {cache : List packed_asset} (h : FreshCache cache) {j : Nat}
    {a : packed_asset} (ha : cache[j]? = some a) :
    a.id = (j : Int) ∧ a.path ≠ none ∧ a.pixels = none := by
  obtain ⟨hids, hpaths, hpix⟩ := h
  have hmem := List.getElem?_mem ha
  refine ⟨?_, hpaths a hmem, hpix a hmem⟩
  have hj : j < cache.length := by
    by_contra hge
    rw [List.getElem?_eq_none (by omega)] at ha
    cases ha
  have h1 : (cache.map (fun a => a.id))[j]? = some a.id := by
    rw [List.getElem?_map, ha]; rfl
  rw [hids, List.getElem?_map, List.getElem?_range hj] at h1
  simpa using h1.symm

/-- Specification of `populate_asset_rects` on the cache handed over by the dedup pass, with
one rect per entry: it is defined, and every entry and the rect at its position get the
outcome of the probe and decode of the entry. -/
theorem populate_asset_rects_spec (env : Env) (cache : List packed_asset)
    (rects : List image_packer_rect) (hfresh : FreshCache cache)
    (hlen : rects.length = cache.length) :
    ∃ out rects', populate_asset_rects env cache rects = some (out, rects') ∧
      out.length = cache.length ∧ rects'.length = rects.length ∧
      ∀ (k : Nat) (a : packed_asset) (p : String) (r : image_packer_rect),
        cache[k]? = some a → a.path = some p → rects[k]? = some r →
        out[k]? = some { a with rect := some k,
                                pixels := (decoded env p).map (fun d => d.2.2) } ∧
        rects'[k]? = some (rect_outcome (decoded env p) r) := by
  obtain ⟨out, rects', hrun, hlo, hlr, -, hpt⟩ := populate_asset_rects_from env cache 0 rects
    (by intro j a ha; simpa using freshCache_get hfresh ha) (by omega)
  refine ⟨out, rects', hrun, hlo, hlr, ?_⟩
  intro k a p r ha hp hr
  have := hpt k a p r ha hp (by simpa using hr)
  simpa using this


theorem decoded_of_success (env : Env) (p : String) (width height : Nat) (content : Nat → Nat)
    (hprobe : env.png_get_image_size p = some (width, height)) (hw : width ≠ 0)
    (hh : height ≠ 0) (hmalloc : env.malloc_pixels p = true)
    (hread : env.png_read p = some content) :
    decoded env p = some (width, height, (List.range (width * height)).map content) := by
  simp [decoded, hprobe, hw, hh, hmalloc, hread]

theorem decoded_of_failure (env : Env) (p : String)
    (hfail : env.png_get_image_size p = none ∨
      (∃ w h, env.png_get_image_size p = some (w, h) ∧ (w = 0 ∨ h = 0)) ∨
      env.png_read p = none) :
    decoded env p = none := by
  unfold decoded
  rcases hfail with h | ⟨w, h, hp, hz⟩ | h
  · simp [h]
  · simp [hp, hz]
  · cases hprobe : env.png_get_image_size p with
    | none => rfl
    | some wh =>
      obtain ⟨w, ht⟩ := wh
      simp only
      split_ifs <;> simp [h]

/-- C18: for every cached Source Image whose probe reports a nonzero width and height and
whose decode succeeds (its buffer is allocated and `png_read` reports success),
`populate_asset_rects` is defined, attaches a pixel buffer of `width * height` pixels, the
decoded ones, to the entry, and sets the input size of the rect whose index is the id of the
entry to the probed width and height. -/
theorem populate_asset_rects_success (env : Env) (cache : List packed_asset)
    (rects : List image_packer_rect) (hfresh : FreshCache cache)
    (hlen : rects.length = cache.length) (k : Nat) (a : packed_asset) (p : String)
    (width height : Nat) (content : Nat → Nat)
    (ha : cache[k]? = some a) (hp : a.path = some p)
    (hprobe : env.png_get_image_size p = some (width, height)) (hw : width ≠ 0)
    (hh : height ≠ 0) (hmalloc : env.malloc_pixels p = true)
    (hread : env.png_read p = some content) :
    ∃ out rects' a' buf r', populate_asset_rects env cache rects = some (out, rects') ∧
      out[k]? = some a' ∧ a'.id = a.id ∧ a'.path = a.path ∧
      a'.pixels = some buf ∧ buf.length = width * height ∧
      (∀ i, i < width * height → buf[i]? = some (content i)) ∧
      rects'[a'.id.toNat]? = some r' ∧
      a'.rect = some k ∧ rects'[k]? = some r' ∧
      r'.input = { width := width, height := height } := by
  obtain ⟨out, rects', hrun, -, hlr, hpt⟩ := populate_asset_rects_spec env cache rects hfresh hlen
  have hk : k < rects.length := by
    rw [hlen]
    by_contra hge
    rw [List.getElem?_eq_none (by omega)] at ha
    cases ha
  obtain ⟨hout, hrect⟩ := hpt k a p rects[k] ha hp (List.getElem?_eq_getElem hk)
  rw [decoded_of_success env p width height content hprobe hw hh hmalloc hread] at hout hrect
  have hid := (freshCache_get hfresh ha).1
  refine ⟨out, rects', _, _, _, hrun, hout, rfl, rfl, rfl, by simp, ?_, ?_, rfl, hrect, rfl⟩
  · intro i hi
    simp [List.getElem?_map, List.getElem?_range hi]
  · simp [hid, hrect]

theorem populate_asset_rects_success_witness :
    ∃ out rects' a' buf r',
      populate_asset_rects example_env example_cache (blank_rects 3) = some (out, rects') ∧
      out[0]? = some a' ∧
      a'.id = ({ id := 0, path := some "a.png", rect := none, pixels := none } :
        packed_asset).id ∧
      a'.path = ({ id := 0, path := some "a.png", rect := none, pixels := none } :
        packed_asset).path ∧
      a'.pixels = some buf ∧ buf.length = 2 * 1 ∧
      (∀ i, i < 2 * 1 → buf[i]? = some ((fun i => 10 + i) i)) ∧
      rects'[a'.id.toNat]? = some r' ∧
      a'.rect = some 0 ∧ rects'[0]? = some r' ∧
      r'.input = { width := 2, height := 1 } :=
  populate_asset_rects_success example_env example_cache (blank_rects 3) (by decide)
    (by decide) 0 { id := 0, path := some "a.png", rect := none, pixels := none } "a.png" 2 1
    (fun i => 10 + i) rfl rfl rfl (by decide) (by decide) rfl rfl

/-- C19: for every cached Source Image whose probe fails, whose probed width or height is
zero, or whose decode fails, `populate_asset_rects` is defined, leaves the entry without a
pixel buffer and its rect as it was, and every later entry and its rect still get the outcome
of their own probe and decode. -/
theorem populate_asset_rects_failure (env : Env) (cache : List packed_asset)
    (rects : List image_packer_rect) (hfresh : FreshCache cache)
    (hlen : rects.length = cache.length) (k : Nat) (a : packed_asset) (p : String)
    (ha : cache[k]? = some a) (hp : a.path = some p)
    (hfail : env.png_get_image_size p = none ∨
      (∃ w h, env.png_get_image_size p = some (w, h) ∧ (w = 0 ∨ h = 0)) ∨
      env.png_read p = none) :
    ∃ out rects' a', populate_asset_rects env cache rects = some (out, rects') ∧
      out.length = cache.length ∧
      out[k]? = some a' ∧ a'.pixels = none ∧
      rects'[k]? = rects[k]? ∧
      ∀ (j : Nat) (b : packed_asset) (q : String) (r : image_packer_rect),
        k < j → cache[j]? = some b → b.path = some q → rects[j]? = some r →
        out[j]? = some { b with rect := some j,
                                pixels := (decoded env q).map (fun d => d.2.2) } ∧
        rects'[j]? = some (rect_outcome (decoded env q) r) := by
  obtain ⟨out, rects', hrun, hlo, hlr, hpt⟩ :=
    populate_asset_rects_spec env cache rects hfresh hlen
  have hk : k < rects.length := by
    rw [hlen]
    by_contra hge
    rw [List.getElem?_eq_none (by omega)] at ha
    cases ha
  obtain ⟨hout, hrect⟩ := hpt k a p rects[k] ha hp (List.getElem?_eq_getElem hk)
  rw [decoded_of_failure env p hfail] at hout hrect
  refine ⟨out, rects', _, hrun, hlo, hout, rfl, ?_, ?_⟩
  · rw [hrect, List.getElem?_eq_getElem hk]; rfl
  · intro j b q r _ hb hq hr
    exact hpt j b q r hb hq hr

theorem populate_asset_rects_failure_witness :
    ∃ out rects' a',
      populate_asset_rects example_env example_cache (blank_rects 3) = some (out, rects') ∧
      out.length = example_cache.length ∧
      out[1]? = some a' ∧ a'.pixels = none ∧
      rects'[1]? = (blank_rects 3)[1]? ∧
      ∀ (j : Nat) (b : packed_asset) (q : String) (r : image_packer_rect),
        1 < j → example_cache[j]? = some b → b.path = some q → (blank_rects 3)[j]? = some r →
        out[j]? = some { b with rect := some j,
                                pixels := (decoded example_env q).map (fun d => d.2.2) } ∧
        rects'[j]? = some (rect_outcome (decoded example_env q) r) :=
  populate_asset_rects_failure example_env example_cache (blank_rects 3) (by decide)
    (by decide) 1 { id := 1, path := some "b.png", rect := none, pixels := none } "b.png"
    rfl rfl (Or.inl rfl)


/-- With an input height of zero, `copy_to_final_image` runs no iteration: it reads nothing,
writes nothing and leaves the state as it is, whatever the buffer. -/
theorem copy_to_final_image_empty (pixels : Option (List Nat)) (rect : image_packer_rect)
    (s : State) (h : rect.input.height = 0) : copy_to_final_image pixels rect s = some s := by
  unfold copy_to_final_image
  rw [h]
  split <;> rfl

/-- The solver leaves the requested sizes alone. -/
theorem place_rects_get :
    ∀ (rects : List image_packer_rect) (outputs : List rect_output) (k : Nat)
      (r : image_packer_rect), rects[k]? = some r →
      ∃ r', (place_rects rects outputs)[k]? = some r' ∧ r'.input = r.input := by
  intro rects
  induction rects with
  | nil => intro outputs k r h; simp at h
  | cons r0 rs ih =>
    intro outputs k r h
    cases outputs with
    | nil => exact ⟨r, by simpa [place_rects] using h, rfl⟩
    | cons o os =>
      cases k with
      | zero =>
        simp only [List.getElem?_cons_zero, Option.some.injEq] at h
        exact ⟨{ r0 with output := o }, by simp [place_rects], by rw [← h]⟩
      | succ n =>
        simp only [List.getElem?_cons_succ] at h
        obtain ⟨r', hr', hin⟩ := ih os n r h
        exact ⟨r', by simpa [place_rects] using hr', hin⟩

/-- The rect of an entry whose source was not decoded, after population and placement: it
exists and keeps the zero size of the rect array handed over by the driver. -/
theorem failed_entry_rect (env : Env) (cache : List packed_asset)
    (rects0 : List image_packer_rect) (outputs : List rect_output) (hfresh : FreshCache cache)
    (hlen : rects0.length = cache.length)
    (hzero : ∀ r ∈ rects0, r.input = { width := 0, height := 0 })
    (k : Nat) (a : packed_asset) (p : String) (ha : cache[k]? = some a)
    (hp : a.path = some p) (hfail : decoded env p = none) :
    ∃ out rects' rect, populate_asset_rects env cache rects0 = some (out, rects') ∧
      out[k]? = some { a with rect := some k, pixels := none } ∧
      (place_rects rects' outputs)[k]? = some rect ∧
      rect.input = { width := 0, height := 0 } := by
  obtain ⟨out, rects', hrun, -, -, hpt⟩ :=
    populate_asset_rects_spec env cache rects0 hfresh hlen
  have hk : k < rects0.length := by
    rw [hlen]
    by_contra hge
    rw [List.getElem?_eq_none (by omega)] at ha
    cases ha
  obtain ⟨hout, hrect⟩ := hpt k a p rects0[k] ha hp (List.getElem?_eq_getElem hk)
  rw [hfail] at hout hrect
  obtain ⟨rect, hget, hin⟩ := place_rects_get rects' outputs k _ hrect
  refine ⟨out, rects', rect, hrun, hout, hget, ?_⟩
  rw [hin]
  exact hzero _ (List.getElem_mem hk)

/-- C13: for every Source Image whose probe or decode failed, whatever placement the solver
returns: the entry has no pixel buffer after `populate_asset_rects`, its rect keeps the zero
size of the rect array handed over by the driver, and `copy_to_final_image` on the entry reads
no pixel and writes no pixel, leaving the atlas unchanged; `create_final_image` gives the
same result as without the entry. -/
theorem create_final_image_skips_failed (env : Env) (cache : List packed_asset)
    (rects0 : List image_packer_rect) (outputs : List rect_output) (hfresh : FreshCache cache)
    (hlen : rects0.length = cache.length)
    (hzero : ∀ r ∈ rects0, r.input = { width := 0, height := 0 })
    (k : Nat) (a : packed_asset) (p : String) (ha : cache[k]? = some a)
    (hp : a.path = some p) (hfail : decoded env p = none) :
    ∃ out rects' a' rect, populate_asset_rects env cache rects0 = some (out, rects') ∧
      out[k]? = some a' ∧ a'.pixels = none ∧
      asset_rect (place_rects rects' outputs) a' = some rect ∧
      (∀ s, copy_to_final_image a'.pixels rect s = some s) ∧
      ∀ pre post s, out = pre ++ a' :: post →
        create_final_image (place_rects rects' outputs) out s
          = create_final_image (place_rects rects' outputs) (pre ++ post) s := by
  obtain ⟨out, rects', rect, hrun, hout, hget, hin⟩ :=
    failed_entry_rect env cache rects0 outputs hfresh hlen hzero k a p ha hp hfail
  have hheight : rect.input.height = 0 := by rw [hin]
  have harect : asset_rect (place_rects rects' outputs)
      { a with rect := some k, pixels := none } = some rect := by
    simp [asset_rect, hget]
  refine ⟨out, rects', _, rect, hrun, hout, rfl, harect,
    fun s => copy_to_final_image_empty _ rect s hheight, ?_⟩
  intro pre post s hsplit
  rw [hsplit, create_final_image_append, create_final_image_append]
  cases create_final_image (place_rects rects' outputs) pre s with
  | none => rfl
  | some s1 =>
    simp only [Option.some_bind]
    rw [create_final_image_cons _ _ post s1 rect harect,
      copy_to_final_image_empty _ rect s1 hheight]
    rfl

theorem create_final_image_skips_failed_witness :
    ∃ out rects' a' rect,
      populate_asset_rects example_env example_cache (blank_rects 3) = some (out, rects') ∧
      out[1]? = some a' ∧ a'.pixels = none ∧
      asset_rect (place_rects rects' [⟨0, 0, false⟩, ⟨0, 0, false⟩, ⟨2, 0, false⟩]) a'
        = some rect ∧
      (∀ s, copy_to_final_image a'.pixels rect s = some s) ∧
      ∀ pre post s, out = pre ++ a' :: post →
        create_final_image (place_rects rects' [⟨0, 0, false⟩, ⟨0, 0, false⟩, ⟨2, 0, false⟩])
            out s
          = create_final_image
              (place_rects rects' [⟨0, 0, false⟩, ⟨0, 0, false⟩, ⟨2, 0, false⟩])
              (pre ++ post) s :=
  create_final_image_skips_failed example_env example_cache (blank_rects 3)
    [⟨0, 0, false⟩, ⟨0, 0, false⟩, ⟨2, 0, false⟩] (by decide) (by decide) (by decide) 1
    { id := 1, path := some "b.png", rect := none, pixels := none } "b.png" rfl rfl
    (by decide)

/-- C14 as stated fails: the source `b.png` cannot be probed, and `pack_layer` replaces the
width 10 and height 20 of the layer on it by the zero size of its rect. -/
theorem pack_layer_overwrites_failed_source :
    ∃ out rects' l', decoded example_env "b.png" = none ∧
      populate_asset_rects example_env example_cache (blank_rects 3) = some (out, rects') ∧
      pack_layer (place_rects rects' [⟨0, 0, false⟩, ⟨0, 0, false⟩, ⟨2, 0, false⟩])
        example_stale_layer = some l' ∧
      example_stale_layer.width = 10 ∧ example_stale_layer.height = 20 ∧
      l'.width = 0 ∧ l'.height = 0 ∧
      l'.width ≠ example_stale_layer.width ∧ l'.height ≠ example_stale_layer.height := by
  exact ⟨_, _, _, by decide, rfl, rfl, by decide, by decide, by decide, by decide,
    by decide, by decide⟩

/-- C14, amended: for every layer whose source failed to probe or decode, `pack_layer` does
not keep the pre-existing geometry: the width and height of the layer become the input size
of its rect, which `populate_asset_rects` left at the zero size of the rect array handed over
by the driver, and `src_x`, `src_y` become the output position of the rect (converted to
`int`: the position itself when it is below `2 ^ 31`); the rotation is kept when the rect is
not reported rotated, and the invert, mask, part and placement offset fields are kept. -/
theorem pack_layer_failed_source (env : Env) (cache : List packed_asset)
    (rects0 : List image_packer_rect) (outputs : List rect_output) (hfresh : FreshCache cache)
    (hlen : rects0.length = cache.length)
    (hzero : ∀ r ∈ rects0, r.input = { width := 0, height := 0 })
    (k : Nat) (a : packed_asset) (p : String) (ha : cache[k]? = some a)
    (hp : a.path = some p) (hfail : decoded env p = none)
    (l : layer) (hl : l.asset_image_path = some p) (hid : l.calculated_image_id = (k : Int)) :
    ∃ out rects' rect l', populate_asset_rects env cache rects0 = some (out, rects') ∧
      layer_rect (place_rects rects' outputs) l = some rect ∧
      pack_layer (place_rects rects' outputs) l = some l' ∧
      l'.width = 0 ∧ l'.height = 0 ∧
      l'.src_x = int_of_unsigned rect.output.x ∧ l'.src_y = int_of_unsigned rect.output.y ∧
      (rect.output.x < 2147483648 → l'.src_x = (rect.output.x : Int)) ∧
      (rect.output.y < 2147483648 → l'.src_y = (rect.output.y : Int)) ∧
      (rect.output.rotated = false → l'.rotate = l.rotate) ∧
      l'.invert = l.invert ∧ l'.mask = l.mask ∧ l'.part = l.part ∧
      l'.x_offset = l.x_offset ∧ l'.y_offset = l.y_offset := by
  obtain ⟨out, rects', rect, hrun, -, hget, hin⟩ :=
    failed_entry_rect env cache rects0 outputs hfresh hlen hzero k a p ha hp hfail
  have hlr : layer_rect (place_rects rects' outputs) l = some rect := by
    simp [layer_rect, hid, hget]
  have hw : rect.input.width = 0 := by rw [hin]
  have hh : rect.input.height = 0 := by rw [hin]
  refine ⟨out, rects', rect, _, hrun, hlr, pack_layer_some _ l p rect hl hlr, ?_, ?_, rfl, rfl,
    fun hx => int_of_unsigned_of_lt hx, fun hy => int_of_unsigned_of_lt hy,
    ?_, rfl, rfl, rfl, rfl, rfl⟩
  · simp [placed_width, hw, hh, int_of_unsigned, u32]
  · simp [placed_height, hw, hh, int_of_unsigned, u32]
  · intro hrot
    simp [hrot]

theorem pack_layer_failed_source_witness :
    ∃ out rects' rect l',
      populate_asset_rects example_env example_cache (blank_rects 3) = some (out, rects') ∧
      layer_rect (place_rects rects' [⟨0, 0, false⟩, ⟨0, 0, false⟩, ⟨2, 0, false⟩])
        example_stale_layer = some rect ∧
      pack_layer (place_rects rects' [⟨0, 0, false⟩, ⟨0, 0, false⟩, ⟨2, 0, false⟩])
        example_stale_layer = some l' ∧
      l'.width = 0 ∧ l'.height = 0 ∧
      l'.src_x = int_of_unsigned rect.output.x ∧ l'.src_y = int_of_unsigned rect.output.y ∧
      (rect.output.x < 2147483648 → l'.src_x = (rect.output.x : Int)) ∧
      (rect.output.y < 2147483648 → l'.src_y = (rect.output.y : Int)) ∧
      (rect.output.rotated = false → l'.rotate = example_stale_layer.rotate) ∧
      l'.invert = example_stale_layer.invert ∧ l'.mask = example_stale_layer.mask ∧
      l'.part = example_stale_layer.part ∧
      l'.x_offset = example_stale_layer.x_offset ∧
      l'.y_offset = example_stale_layer.y_offset :=
  pack_layer_failed_source example_env example_cache (blank_rects 3)
    [⟨0, 0, false⟩, ⟨0, 0, false⟩, ⟨2, 0, false⟩] (by decide) (by decide) (by decide) 1
    { id := 1, path := some "b.png", rect := none, pixels := none } "b.png" rfl rfl
    (by decide) example_stale_layer rfl rfl

/-! ## Properties of the group pipeline -/

/-- Rule for a loop that has a result: an invariant carried by every defined iteration holds
at the end. -/
theorem forLoop_keeps {σ : Type} (Inv : Nat → σ → Prop) (body : Nat → σ → Option σ) :
    ∀ (count start : Nat) (s s' : σ), Inv start s →
      (∀ i t t', start ≤ i → i < start + count → Inv i t → body i t = some t' → Inv (i + 1) t') →
      forLoop body start count s = some s' → Inv (start + count) s' := by
  intro count
  induction count with
  | zero =>
    intro start s s' h0 _ hrun
    simp [forLoop] at hrun
    subst hrun
    simpa using h0
  | succ k ih =>
    intro start s s' h0 hstep hrun
    cases hb : body start s with
    | none => simp [forLoop, hb] at hrun
    | some t =>
      simp [forLoop, hb] at hrun
      have := ih (start + 1) t s' (hstep start s t (Nat.le_refl _) (by omega) h0 hb)
        (fun i u u' hi hlt hu hbu => hstep i u u' (by omega) (by omega) hu hbu) hrun
      have e : start + (k + 1) = start + 1 + k := by omega
      rw [e]; exact this

/-- A call of `add_asset_image_to_list` changes nothing of the layer but its
`calculated_image_id`, and leaves no pixel buffer in a cache that has none. -/
theorem add_asset_image_to_list_frame (alloc_ok : Bool) (cache cache' : List packed_asset)
    (l l' : layer) (h : add_asset_image_to_list alloc_ok cache l = some (cache', l')) :
    forget_id l' = forget_id l ∧
    ((∀ a ∈ cache, a.pixels = none) → ∀ a ∈ cache', a.pixels = none) := by
  unfold add_asset_image_to_list at h
  cases hg : get_asset_image_from_list cache l with
  | none => simp [hg] at h
  | some found =>
    cases found with
    | some k =>
      cases hk : cache[k]? with
      | none => simp [hg, hk] at h
      | some asset =>
        simp [hg, hk] at h
        obtain ⟨h1, h2⟩ := h
        subst h1 h2
        exact ⟨rfl, fun hp => hp⟩
    | none =>
      cases alloc_ok with
      | false =>
        simp [hg, array_new_item] at h
        obtain ⟨h1, h2⟩ := h
        subst h1 h2
        exact ⟨rfl, fun hp => hp⟩
      | true =>
        simp [hg, array_new_item, new_packed_asset] at h
        obtain ⟨h1, h2⟩ := h
        subst h1 h2
        refine ⟨rfl, ?_⟩
        intro hp a ha
        simp at ha
        rcases ha with ha | ha
        · exact hp a ha
        · subst ha; rfl

/-- What the inner loop of `get_assets_for_group` does when it has a result: the layers keep
everything but their `calculated_image_id`, the cache is the one the calls of
`add_asset_image_to_list` on the layers with a path produce, and the positions recorded are
those of the layers with a path. -/
theorem register_layers_frame (env : Env) (image_id : Nat) :
    ∀ (ls : List layer) (j : Nat) (cache : List packed_asset)
      (r : List layer × List packed_asset × List (Nat × Nat)),
      register_layers env image_id j ls cache = some r →
      r.1.map forget_id = ls.map forget_id ∧
      ((∀ a ∈ cache, a.pixels = none) → ∀ a ∈ r.2.1, a.pixels = none) ∧
      (add_asset_images cache (layer_calls env image_id j ls)).map (fun q => q.1) = some r.2.1 ∧
      r.2.2 = path_positions image_id j ls := by
  intro ls
  induction ls with
  | nil =>
    intro j cache r h
    simp [register_layers] at h
    subst h
    exact ⟨rfl, fun hp => hp, rfl, rfl⟩
  | cons l rest ih =>
    intro j cache r h
    cases hpath : l.asset_image_path with
    | none =>
      simp only [register_layers, hpath] at h
      cases hrec : register_layers env image_id (j + 1) rest cache with
      | none => simp [hrec] at h
      | some r1 =>
        simp [hrec] at h
        subst h
        obtain ⟨h1, h2, h3, h4⟩ := ih (j + 1) cache r1 hrec
        refine ⟨by simp [h1], h2, ?_, ?_⟩
        · simpa [layer_calls, hpath] using h3
        · simp [path_positions, hpath, h4]
    | some p =>
      simp only [register_layers, hpath] at h
      cases hadd : add_asset_image_to_list (env.array_alloc image_id j) cache l with
      | none => simp [hadd] at h
      | some q =>
        obtain ⟨cache1, l1⟩ := q
        cases hrec : register_layers env image_id (j + 1) rest cache1 with
        | none => simp [hadd, hrec] at h
        | some r1 =>
          simp [hadd, hrec] at h
          subst h
          obtain ⟨h1, h2, h3, h4⟩ := ih (j + 1) cache1 r1 hrec
          obtain ⟨f1, f2⟩ := add_asset_image_to_list_frame _ _ _ _ _ hadd
          refine ⟨by simp [h1, f1], fun hp => h2 (f2 hp), ?_, ?_⟩
          · simp only [layer_calls, hpath, add_asset_images, hadd]
            cases hrun : add_asset_images cache1 (layer_calls env image_id (j + 1) rest) with
            | none => simp [hrun] at h3
            | some q2 => simpa [hrun] using h3
          · simp [path_positions, hpath, h4]

/-- The inner loop of `get_assets_for_group` has a result on every chain and keeps the
invariant of the cache. -/
theorem register_layers_defined (env : Env) (image_id : Nat) :
    ∀ (ls : List layer) (j : Nat) (cache : List packed_asset), CacheInv cache →
      ∃ r, register_layers env image_id j ls cache = some r ∧ CacheInv r.2.1 := by
  intro ls
  induction ls with
  | nil => intro j cache hinv; exact ⟨_, rfl, hinv⟩
  | cons l rest ih =>
    intro j cache hinv
    cases hpath : l.asset_image_path with
    | none =>
      obtain ⟨r, hr, hinv1⟩ := ih (j + 1) cache hinv
      exact ⟨(l :: r.1, r.2.1, r.2.2), by simp only [register_layers, hpath, hr], hinv1⟩
    | some p =>
      obtain ⟨cache1, l1, hadd, hinv1, -, -, -⟩ :=
        add_asset_image_to_list_spec (env.array_alloc image_id j) cache l p hinv hpath
      obtain ⟨r, hr, hinv2⟩ := ih (j + 1) cache1 hinv1
      exact ⟨(l1 :: r.1, r.2.1, (image_id, j) :: r.2.2),
        by simp only [register_layers, hpath, hadd, hr], hinv2⟩

theorem add_asset_images_cons_cache (call : Bool × layer) (calls : List (Bool × layer))
    (cache : List packed_asset) :
    (add_asset_images cache (call :: calls)).map (fun q => q.1)
      = (add_asset_image_to_list call.1 cache call.2).bind
          (fun r => (add_asset_images r.1 calls).map (fun q => q.1)) := by
  simp only [add_asset_images]
  cases add_asset_image_to_list call.1 cache call.2 with
  | none => rfl
  | some r =>
    simp only [Option.some_bind]
    cases add_asset_images r.1 calls with
    | none => rfl
    | some q => rfl

/-- The cache after two sequences of calls in a row. -/
theorem add_asset_images_append :
    ∀ (c1 c2 : List (Bool × layer)) (cache : List packed_asset),
      (add_asset_images cache (c1 ++ c2)).map (fun q => q.1)
        = ((add_asset_images cache c1).map (fun q => q.1)).bind
            (fun c => (add_asset_images c c2).map (fun q => q.1)) := by
  intro c1
  induction c1 with
  | nil => intro c2 cache; simp [add_asset_images]
  | cons call rest ih =>
    intro c2 cache
    rw [List.cons_append, add_asset_images_cons_cache, add_asset_images_cons_cache]
    cases add_asset_image_to_list call.1 cache call.2 with
    | none => rfl
    | some r =>
      simp only [Option.some_bind]
      exact ih c2 r.1

theorem forget_ids_with_layers (image : asset_image) (ls : List layer)
    (h : ls.map forget_id = (image_layers image).map forget_id) :
    forget_ids (with_layers image ls) = forget_ids image := by
  cases ls with
  | nil => simp [image_layers] at h
  | cons l rest =>
    simp [image_layers] at h
    simp [with_layers, forget_ids, h.1, h.2]

theorem path_positions_eq_filter (images : List asset_image) (i : Nat) :
    ∀ (ls : List layer) (j : Nat),
      (∀ n l, ls[n]? = some l → layer_at images (i, j + n) = some l) →
      path_positions i j ls
        = ((List.range ls.length).map (fun n => (i, j + n))).filter (has_path images) := by
  intro ls
  induction ls with
  | nil => intro j _; rfl
  | cons l rest ih =>
    intro j hall
    have h0 : layer_at images (i, j) = some l := by simpa using hall 0 l (by simp)
    have hrest := ih (j + 1) (by
      intro n l' hn
      have := hall (n + 1) l' (by simpa using hn)
      have e : j + 1 + n = j + (n + 1) := by omega
      rw [e]; exact this)
    have hmap : (List.range rest.length).map (fun n => (i, j + 1 + n))
        = (List.range rest.length).map ((fun n => (i, j + n)) ∘ Nat.succ) := by
      apply List.map_congr_left
      intro n _
      simp only [Function.comp, Nat.succ_eq_add_one]
      congr 1
      omega
    simp only [path_positions, List.length_cons, List.range_succ_eq_map, List.map_cons,
      List.map_map, Nat.add_zero, List.filter_cons]
    rw [← hmap, ← hrest]
    simp only [has_path, h0]

theorem group_calls_succ (env : Env) (images : List asset_image) (first d : Nat)
    (image : asset_image) (h : images[first + d]? = some image) :
    group_calls env images first (d + 1)
      = group_calls env images first d ++ layer_calls env (first + d) 0 (image_layers image) := by
  simp [group_calls, List.range_succ, List.flatMap_append, h]

theorem group_positions_succ (images : List asset_image) (first d : Nat)
    (image : asset_image) (h : images[first + d]? = some image) :
    group_positions images first (d + 1)
      = group_positions images first d ++
          (List.range (image_layers image).length).map (fun j => (first + d, j)) := by
  simp [group_positions, List.range_succ, List.flatMap_append, h]

theorem layer_at_of_get (images : List asset_image) (i : Nat) (image : asset_image)
    (h : images[i]? = some image) (n : Nat) (l : layer) (hl : (image_layers image)[n]? = some l) :
    layer_at images (i, n) = some l := by
  simp [layer_at, h, hl]

/-- What `get_assets_for_group` does when it has a result: the sprites keep everything but
the `calculated_image_id` of their layers, the cache is the one the calls of
`add_asset_image_to_list` on the layers with a path of the group produce in order, no pixel
buffer appears, and the positions recorded are those of the layers with a path. -/
theorem get_assets_for_group_frame (env : Env) (group : image_groups)
    (images : List asset_image) (cache0 : List packed_asset) (reg : register_state)
    (h : get_assets_for_group env group images cache0 = some reg) :
    reg.images.map forget_ids = images.map forget_ids ∧
    ((∀ a ∈ cache0, a.pixels = none) → ∀ a ∈ reg.packed_assets, a.pixels = none) ∧
    (add_asset_images cache0 (group_calls env images group.first_image_index
        (group.last_image_index + 1 - group.first_image_index))).map (fun q => q.1)
      = some reg.packed_assets ∧
    reg.registered = (group_positions images group.first_image_index
        (group.last_image_index + 1 - group.first_image_index)).filter (has_path images) := by
  have key := forLoop_keeps
    (fun i (st : register_state) =>
      st.images.length = images.length ∧
      (∀ n, i ≤ n → st.images[n]? = images[n]?) ∧
      st.images.map forget_ids = images.map forget_ids ∧
      ((∀ a ∈ cache0, a.pixels = none) → ∀ a ∈ st.packed_assets, a.pixels = none) ∧
      (add_asset_images cache0 (group_calls env images group.first_image_index
          (i - group.first_image_index))).map (fun q => q.1) = some st.packed_assets ∧
      st.registered = (group_positions images group.first_image_index
          (i - group.first_image_index)).filter (has_path images))
    _ _ _ _ reg ?_ ?_ h
  · simp only [Nat.add_sub_cancel_left] at key
    exact ⟨key.2.2.1, key.2.2.2.1, key.2.2.2.2.1, key.2.2.2.2.2⟩
  · refine ⟨rfl, fun n _ => rfl, rfl, fun hp => hp, ?_, ?_⟩
    · simp [group_calls, add_asset_images]
    · simp [group_positions]
  · intro i t t' hi hlt ⟨hlen, hrest, hforget, hpix, hcache, hreg⟩ hbody
    cases himg : t.images[i]? with
    | none => simp [himg] at hbody
    | some image =>
      cases hr : register_layers env i 0 (image_layers image) t.packed_assets with
      | none => simp [himg, hr] at hbody
      | some r =>
        simp only [himg, hr, Option.some.injEq] at hbody
        subst hbody
        obtain ⟨f1, f2, f3, f4⟩ := register_layers_frame env i _ _ _ _ hr
        have himg0 : images[i]? = some image := by rw [← hrest i (Nat.le_refl _)]; exact himg
        obtain ⟨d, hd⟩ : ∃ d, i = group.first_image_index + d := ⟨i - group.first_image_index, by omega⟩
        subst hd
        have e1 : group.first_image_index + d + 1 - group.first_image_index = d + 1 := by omega
        have e0 : group.first_image_index + d - group.first_image_index = d := by omega
        rw [e0] at hcache hreg
        dsimp only
        rw [e1]
        refine ⟨by simp [hlen], ?_, ?_, fun hp => f2 (hpix hp), ?_, ?_⟩
        · intro n hn
          rw [List.getElem?_set_ne (by omega)]
          exact hrest n (by omega)
        · rw [List.map_set, hforget, forget_ids_with_layers image r.1 f1]
          apply set_same
          rw [List.getElem?_map, himg0]; rfl
        · rw [group_calls_succ env images _ d image himg0, add_asset_images_append, hcache]
          simpa using f3
        · rw [group_positions_succ images _ d image himg0, List.filter_append, ← hreg, f4,
            path_positions_eq_filter images _ (image_layers image) 0
              (fun n l hl => by simpa using layer_at_of_get images _ image himg0 n l hl)]
          simp

/-- When every sprite of the group exists, `get_assets_for_group` has a result, and it keeps
the invariant of the cache. -/
theorem get_assets_for_group_defined (env : Env) (group : image_groups)
    (images : List asset_image) (cache0 : List packed_asset)
    (hlast : group.last_image_index < images.length) (hinv : CacheInv cache0) :
    ∃ reg, get_assets_for_group env group images cache0 = some reg ∧
      CacheInv reg.packed_assets ∧ reg.images.length = images.length := by
  obtain ⟨reg, hrun, hlen, hc⟩ := forLoop_inv_from
    (fun _ (st : register_state) => st.images.length = images.length ∧ CacheInv st.packed_assets)
    (fun image_id (st : register_state) =>
      match st.images[image_id]? with
      | none => none
      | some image =>
        match register_layers env image_id 0 (image_layers image) st.packed_assets with
        | none => none
        | some r =>
          some { images := st.images.set image_id (with_layers image r.1)
                 packed_assets := r.2.1
                 registered := st.registered ++ r.2.2 })
    (group.last_image_index + 1 - group.first_image_index) group.first_image_index
    { images := images, packed_assets := cache0, registered := [] } ⟨rfl, hinv⟩
    (by
      intro i t hi hlt ⟨hlen, hc⟩
      have hi2 : i < t.images.length := by omega
      obtain ⟨r, hr, hinv1⟩ := register_layers_defined env i (image_layers t.images[i]) 0
        t.packed_assets hc
      refine ⟨_, by simp only [List.getElem?_eq_getElem hi2, hr]; rfl, ?_, hinv1⟩
      simp [hlen])
  exact ⟨reg, hrun, hc, hlen⟩

/-- A cache that keeps the invariant and holds no pixel buffer is as the dedup pass hands it
over. -/
theorem freshCache_of_cacheInv {cache : List packed_asset} (hinv : CacheInv cache)
    (hpix : ∀ a ∈ cache, a.pixels = none) : FreshCache cache := by
  refine ⟨?_, ?_, hpix⟩
  · apply List.ext_getElem?
    intro k
    by_cases hk : k < cache.length
    · rw [List.getElem?_map, List.getElem?_map, List.getElem?_range hk,
        List.getElem?_eq_getElem hk]
      simp only [Option.map_some']
      rw [(hinv.ids k cache[k] (List.getElem?_eq_getElem hk)).1]
    · rw [List.getElem?_eq_none (by simpa using hk), List.getElem?_eq_none (by simpa using hk)]
  · intro a ha
    obtain ⟨q, hq⟩ := cacheInv_all_paths hinv a ha
    rw [hq]; simp

/-- From the empty cache, `get_assets_for_group` hands over a fresh cache. -/
theorem get_assets_for_group_fresh (env : Env) (group : image_groups)
    (images : List asset_image) (hlast : group.last_image_index < images.length) :
    ∃ reg, get_assets_for_group env group images [] = some reg ∧
      FreshCache reg.packed_assets ∧ CacheInv reg.packed_assets := by
  obtain ⟨reg, hrun, hinv, -⟩ :=
    get_assets_for_group_defined env group images [] hlast cacheInv_nil
  obtain ⟨-, hpix, -, -⟩ := get_assets_for_group_frame env group images [] reg hrun
  exact ⟨reg, hrun, freshCache_of_cacheInv hinv (hpix (by simp)), hinv⟩

/-- The paths discovered are without repetition, and are the paths seen before together with
those of the sequence. -/
theorem discovered_paths_spec :
    ∀ (ps seen : List (Option String)), seen.Nodup →
      (discovered_paths seen ps).Nodup ∧
      ∀ x, x ∈ discovered_paths seen ps ↔ x ∈ seen ∨ x ∈ ps := by
  intro ps
  induction ps with
  | nil => intro seen h; simp [discovered_paths, h]
  | cons p rest ih =>
    intro seen h
    by_cases hp : p ∈ seen
    · simp only [discovered_paths, if_pos hp]
      obtain ⟨h1, h2⟩ := ih seen h
      refine ⟨h1, ?_⟩
      intro x
      rw [h2 x, List.mem_cons]
      constructor
      · rintro (hx | hx)
        · exact Or.inl hx
        · exact Or.inr (Or.inr hx)
      · rintro (hx | hx | hx)
        · exact Or.inl hx
        · subst hx; exact Or.inl hp
        · exact Or.inr hx
    · simp only [discovered_paths, if_neg hp]
      obtain ⟨h1, h2⟩ := ih (seen ++ [p])
        (List.Nodup.append h (List.nodup_singleton p) (by
          intro x hx hx2
          rw [List.mem_singleton] at hx2
          subst hx2
          exact hp hx))
      refine ⟨h1, ?_⟩
      intro x
      rw [h2 x, List.mem_cons, List.mem_append, List.mem_singleton]
      constructor
      · rintro ((hx | hx) | hx)
        · exact Or.inl hx
        · exact Or.inr (Or.inl hx)
        · exact Or.inr (Or.inr hx)
      · rintro (hx | hx | hx)
        · exact Or.inl (Or.inl hx)
        · exact Or.inl (Or.inr hx)
        · exact Or.inr hx

/-- The number of paths discovered from nothing is the number of distinct paths. -/
theorem discovered_paths_length (ps : List (Option String)) :
    (discovered_paths [] ps).length = ps.dedup.length := by
  obtain ⟨h1, h2⟩ := discovered_paths_spec ps [] List.nodup_nil
  rw [← List.toFinset_card_of_nodup h1, ← List.card_toFinset]
  congr 1
  ext x
  simp [h2 x]

theorem layer_calls_spec (env : Env) (image_id : Nat) :
    ∀ (ls : List layer) (j : Nat),
      (layer_calls env image_id j ls).map (fun c => c.2.asset_image_path)
        = (ls.map (fun l => l.asset_image_path)).filter (fun p => p.isSome) ∧
      ∀ c ∈ layer_calls env image_id j ls,
        (∃ k, c.1 = env.array_alloc image_id k) ∧ c.2.asset_image_path ≠ none := by
  intro ls
  induction ls with
  | nil => intro j; simp [layer_calls]
  | cons l rest ih =>
    intro j
    obtain ⟨h1, h2⟩ := ih (j + 1)
    cases hpath : l.asset_image_path with
    | none =>
      simp only [layer_calls, hpath, List.map_cons]
      exact ⟨by rw [h1]; simp, h2⟩
    | some p =>
      simp only [layer_calls, hpath, List.map_cons]
      refine ⟨by rw [h1]; simp [hpath], ?_⟩
      intro c hc
      rcases List.mem_cons.1 hc with rfl | hc
      · exact ⟨⟨j, rfl⟩, by simp [hpath]⟩
      · exact h2 c hc

theorem group_calls_spec (env : Env) (group : image_groups) (images : List asset_image) :
    (group_calls env images group.first_image_index
        (group.last_image_index + 1 - group.first_image_index)).map
          (fun c => c.2.asset_image_path) = group_paths group images ∧
    ∀ c ∈ group_calls env images group.first_image_index
        (group.last_image_index + 1 - group.first_image_index),
      (∃ i k, c.1 = env.array_alloc i k) ∧ c.2.asset_image_path ≠ none := by
  constructor
  · simp only [group_calls, group_paths, List.map_flatMap]
    congr 1
    funext d
    cases images[group.first_image_index + d]? with
    | none => rfl
    | some image => exact (layer_calls_spec env _ (image_layers image) 0).1
  · intro c hc
    simp only [group_calls, List.mem_flatMap] at hc
    obtain ⟨d, -, hd⟩ := hc
    cases himg : images[group.first_image_index + d]? with
    | none => simp [himg] at hd
    | some image =>
      simp only [himg] at hd
      obtain ⟨⟨k, hk⟩, hne⟩ := (layer_calls_spec env _ (image_layers image) 0).2 c hd
      exact ⟨⟨_, k, hk⟩, hne⟩

/-- A run of `pack_group` on a named group that has a result went through the dedup pass and
the rect population; the sizes it requested from the solver are those of the rect array
after the population, and it leaves the cache as populated. -/
theorem pack_group_requested (env : Env) (group : image_groups) (images : List asset_image)
    (out : group_output) (hname : group.name ≠ "")
    (h : pack_group env (some group) images = some out) :
    ∃ reg cache1 rects1, get_assets_for_group env group images [] = some reg ∧
      populate_asset_rects env reg.packed_assets (image_packer_init reg.packed_assets.length)
        = some (cache1, rects1) ∧
      out.requested = some (rects1.map (fun r => r.input)) ∧ out.packed_assets = cache1 := by
  unfold pack_group at h
  simp only [if_neg hname] at h
  cases hreg : get_assets_for_group env group images [] with
  | none => simp [hreg] at h
  | some reg =>
    cases hpop : populate_asset_rects env reg.packed_assets
        (image_packer_init reg.packed_assets.length) with
    | none => simp [hreg, hpop] at h
    | some q =>
      obtain ⟨cache1, rects1⟩ := q
      refine ⟨reg, cache1, rects1, rfl, by first | rfl | exact hpop, ?_⟩
      simp only [hreg, hpop] at h
      split_ifs at h <;> (repeat' (split at h)) <;>
        first
        | (cases h; exact ⟨rfl, rfl⟩)
        | cases h

/-! ## Properties of the dedup pass over a group -/

/-- C12 as stated fails when a cache slot cannot be allocated: in `example_exhausted_env`
the slot for the layer on `c.png` is not obtained; `get_assets_for_group` on the example
group, whose layers refer to three distinct source paths, leaves two entries in the cache,
and `pack_group` requests two rectangles from the solver. -/
theorem get_assets_for_group_misses_a_path :
    (group_paths example_group example_images).dedup.length = 3 ∧
    (get_assets_for_group example_exhausted_env example_group example_images []).map
        (fun reg => reg.packed_assets.length) = some 2 ∧
    (pack_group example_exhausted_env (some example_group) example_images).map
        (fun out => out.requested.map (fun req => req.length)) = some (some 2) := by
  refine ⟨by decide, by rfl, by rfl⟩

/-- C12, amended: when every sprite of the group exists and no allocation of a cache slot
fails, `get_assets_for_group` from the empty cache has a result whose cache holds exactly one
entry per distinct source path among the layers with a source path of the sprites of the
group: the paths of the entries are without repetition and are exactly those paths, so the
number of entries is the number of distinct paths; this is the number of rectangles
`image_packer_init` is given, and the number of sizes `pack_group` requests from the solver. -/
theorem get_assets_for_group_distinct_paths (env : Env) (group : image_groups)
    (images : List asset_image) (hlast : group.last_image_index < images.length)
    (halloc : ∀ i j, env.array_alloc i j = true) :
    ∃ reg, get_assets_for_group env group images [] = some reg ∧
      (reg.packed_assets.map (fun a => a.path)).Nodup ∧
      (∀ p, p ∈ reg.packed_assets.map (fun a => a.path) ↔ p ∈ group_paths group images) ∧
      reg.packed_assets.length = (group_paths group images).dedup.length ∧
      (image_packer_init reg.packed_assets.length).length
        = (group_paths group images).dedup.length ∧
      ∀ out, group.name ≠ "" → pack_group env (some group) images = some out →
        ∃ req, out.requested = some req ∧
          req.length = (group_paths group images).dedup.length := by
  obtain ⟨reg, hrun, hfresh, hinv⟩ := get_assets_for_group_fresh env group images hlast
  obtain ⟨-, -, hcache, -⟩ := get_assets_for_group_frame env group images [] reg hrun
  obtain ⟨hpaths, hcalls⟩ := group_calls_spec env group images
  have hmap : reg.packed_assets.map (fun a => a.path)
      = discovered_paths [] (group_paths group images) := by
    cases hadd : add_asset_images [] (group_calls env images group.first_image_index
        (group.last_image_index + 1 - group.first_image_index)) with
    | none => rw [hadd] at hcache; cases hcache
    | some q =>
      rw [hadd] at hcache
      simp only [Option.map_some', Option.some.injEq] at hcache
      have := add_asset_images_paths _ [] cacheInv_nil
        (fun c hc => by
          obtain ⟨⟨i, k, hk⟩, hne⟩ := hcalls c hc
          exact ⟨by rw [hk]; exact halloc i k, hne⟩) q.1 q.2 hadd
      rw [hcache, hpaths] at this
      simpa using this
  obtain ⟨hnodup, hmem⟩ := discovered_paths_spec (group_paths group images) [] List.nodup_nil
  have hlen : reg.packed_assets.length = (group_paths group images).dedup.length := by
    rw [← discovered_paths_length, ← hmap, List.length_map]
  refine ⟨reg, hrun, by rw [hmap]; exact hnodup, ?_, hlen, ?_, ?_⟩
  · intro p
    rw [hmap, hmem p]
    simp
  · simp [image_packer_init, hlen]
  · intro out hname hout
    obtain ⟨reg', cache1, rects1, hreg', hpop, hreq, -⟩ :=
      pack_group_requested env group images out hname hout
    rw [hrun] at hreg'
    cases hreg'
    obtain ⟨out1, rects', hpop', -, hlr, -⟩ := populate_asset_rects_spec env reg.packed_assets
      (image_packer_init reg.packed_assets.length) hfresh (by simp [image_packer_init])
    rw [hpop] at hpop'
    cases hpop'
    refine ⟨_, hreq, ?_⟩
    rw [List.length_map, hlr]
    simp [image_packer_init, hlen]

theorem get_assets_for_group_distinct_paths_witness :
    example_group.last_image_index < example_images.length ∧
    (∀ i j, example_env.array_alloc i j = true) ∧
    (group_paths example_group example_images).dedup.length = 3 ∧
    (pack_group example_env (some example_group) example_images).map
        (fun out => out.requested.map (fun req => req.length)) = some (some 3) ∧
    ∃ reg, get_assets_for_group example_env example_group example_images [] = some reg ∧
      (reg.packed_assets.map (fun a => a.path)).Nodup ∧
      (∀ p, p ∈ reg.packed_assets.map (fun a => a.path) ↔
        p ∈ group_paths example_group example_images) ∧
      reg.packed_assets.length = (group_paths example_group example_images).dedup.length ∧
      (image_packer_init reg.packed_assets.length).length
        = (group_paths example_group example_images).dedup.length ∧
      ∀ out, example_group.name ≠ "" →
        pack_group example_env (some example_group) example_images = some out →
        ∃ req, out.requested = some req ∧
          req.length = (group_paths example_group example_images).dedup.length :=
  ⟨by decide, fun _ _ => rfl, by decide, by rfl,
    get_assets_for_group_distinct_paths example_env example_group example_images (by decide)
      (fun _ _ => rfl)⟩

theorem forget_ids_geometry {a b : asset_image} (h : forget_ids a = forget_ids b) :
    (image_layers a).map layer_geometry = (image_layers b).map layer_geometry := by
  have h1 : (image_layers a).map forget_id = (image_layers b).map forget_id := by
    have e1 := congrArg asset_image.first_layer h
    have e2 := congrArg asset_image.next_layers h
    simp only [forget_ids] at e1 e2
    simp [image_layers, e1, e2]
  have h2 : ∀ ls : List layer, ls.map layer_geometry = (ls.map forget_id).map layer_geometry := by
    intro ls
    rw [List.map_map]
    rfl
  rw [h2 (image_layers a), h2 (image_layers b), h1]

/-- Two sprite arrays equal up to the `calculated_image_id` of layers hold, at every index,
sprites equal up to these ids. -/
theorem forget_ids_get {imgs images : List asset_image}
    (h : imgs.map forget_ids = images.map forget_ids) (i : Nat) (a : asset_image)
    (ha : images[i]? = some a) : ∃ b, imgs[i]? = some b ∧ forget_ids b = forget_ids a := by
  have h1 : (imgs.map forget_ids)[i]? = some (forget_ids a) := by
    rw [h, List.getElem?_map, ha]; rfl
  rw [List.getElem?_map] at h1
  cases hb : imgs[i]? with
  | none => rw [hb] at h1; cases h1
  | some b =>
    rw [hb] at h1
    exact ⟨b, rfl, by simpa using h1⟩

/-! ## Properties of a failed packing -/

/-- C15: when the run of `pack_group` on a named group reaches the solver and the solver
returns a count different from the number of Source Image entries, `pack_group` returns
without a manifest document and without an atlas, `pack_layer` is not called, and the sprite
array differs from the initial one in the `calculated_image_id` of layers only: no layer has
its `src_x`, `src_y`, `width`, `height` or `rotate` modified. -/
theorem pack_group_solver_failure (env : Env) (group : image_groups)
    (images : List asset_image) (hname : group.name ≠ "")
    (hfail : solver_fails env group images = true) :
    ∃ out, pack_group env (some group) images = some out ∧
      out.manifest = none ∧ out.atlas = none ∧ out.packed_layers = [] ∧
      out.images.map forget_ids = images.map forget_ids ∧
      ∀ (i : Nat) (image : asset_image), images[i]? = some image →
        ∃ image', out.images[i]? = some image' ∧
          (image_layers image').map layer_geometry = (image_layers image).map layer_geometry := by
  unfold solver_fails at hfail
  cases hreg : get_assets_for_group env group images [] with
  | none => simp [hreg] at hfail
  | some reg =>
    cases hpop : populate_asset_rects env reg.packed_assets
        (image_packer_init reg.packed_assets.length) with
    | none => simp [hreg, hpop] at hfail
    | some q =>
      obtain ⟨cache1, rects1⟩ := q
      simp only [hreg, hpop, decide_eq_true_eq] at hfail
      obtain ⟨hforget, -, -, -⟩ := get_assets_for_group_frame env group images [] reg hreg
      refine ⟨{ images := reg.images, packed_assets := cache1,
                requested := some (rects1.map (fun r => r.input)),
                manifest := none, atlas := none, packed_layers := [] }, ?_, rfl, rfl, rfl,
              hforget, ?_⟩
      · unfold pack_group
        simp only [if_neg hname, hreg, hpop, if_pos hfail]
      · intro i image hi
        obtain ⟨b, hb, hfb⟩ := forget_ids_get hforget i image hi
        exact ⟨b, hb, forget_ids_geometry hfb⟩

theorem pack_group_solver_failure_witness :
    example_group.name ≠ "" ∧
      solver_fails example_unpacked_env example_group example_images = true ∧
    ∃ out, pack_group example_unpacked_env (some example_group) example_images = some out ∧
      out.manifest = none ∧ out.atlas = none ∧ out.packed_layers = [] ∧
      out.images.map forget_ids = example_images.map forget_ids ∧
      ∀ (i : Nat) (image : asset_image), example_images[i]? = some image →
        ∃ image', out.images[i]? = some image' ∧
          (image_layers image').map layer_geometry = (image_layers image).map layer_geometry :=
  ⟨by decide, by rfl,
    pack_group_solver_failure example_unpacked_env example_group example_images (by decide)
      (by rfl)⟩

/-! ## Properties of the manifest loop -/

theorem layers_have_rects_spec (rects : List image_packer_rect) (group : image_groups)
    (images : List asset_image) (h : layers_have_rects rects group images = true) (n : Nat)
    (h1 : group.first_image_index ≤ n) (h2 : n ≤ group.last_image_index) (a : asset_image)
    (ha : images[n]? = some a) :
    ∀ l ∈ image_layers a, (l.asset_image_path.isNone || (layer_rect rects l).isSome) = true := by
  unfold layers_have_rects at h
  rw [List.all_eq_true] at h
  have hd := h (n - group.first_image_index) (List.mem_range.2 (by omega))
  have e : group.first_image_index + (n - group.first_image_index) = n := by omega
  rw [e, ha] at hd
  simp only at hd
  rw [List.all_eq_true] at hd
  exact hd

/-- C21: on a cache miss (the layer has a path, every entry has one, and none holds the path
of the layer) on which the allocation of the new slot fails, `add_asset_image_to_list`
returns normally, with the cache and the layer, its `calculated_image_id` included, as they
were before the call. -/
theorem add_asset_image_to_list_alloc_failure (cache : List packed_asset) (l : layer)
    (p : String) (hp : l.asset_image_path = some p)
    (hall : ∀ a ∈ cache, ∃ q, a.path = some q) (hmiss : ∀ a ∈ cache, a.path ≠ some p) :
    get_asset_image_from_list cache l = some none ∧
    add_asset_image_to_list false cache l = some (cache, l) := by
  have hnone : find_asset l cache 0 = some none := by
    rcases find_asset_spec l p hp cache 0 hall with ⟨k, a, -, -, hget, hpath⟩ | ⟨hnone, -⟩
    · exact absurd hpath (hmiss a (List.getElem?_mem hget))
    · exact hnone
  refine ⟨hnone, ?_⟩
  simp [add_asset_image_to_list, get_asset_image_from_list, hnone, array_new_item]

theorem add_asset_image_to_list_alloc_failure_witness :
    ({ example_stale_layer with asset_image_path := some "d.png" } : layer).asset_image_path
      = some "d.png" ∧
    (∀ a ∈ example_cache, ∃ q, a.path = some q) ∧
    (∀ a ∈ example_cache, a.path ≠ some "d.png") ∧
    get_asset_image_from_list example_cache
      { example_stale_layer with asset_image_path := some "d.png" } = some none ∧
    add_asset_image_to_list false example_cache
      { example_stale_layer with asset_image_path := some "d.png" }
      = some (example_cache, { example_stale_layer with asset_image_path := some "d.png" }) :=
  ⟨rfl, by simp [example_cache], by decide,
    add_asset_image_to_list_alloc_failure example_cache
      { example_stale_layer with asset_image_path := some "d.png" } "d.png" rfl
      (by simp [example_cache]) (by decide)⟩

theorem advance_rotation_ne (r : Nat) : advance_rotation r ≠ r := by
  unfold advance_rotation ROTATE_NONE ROTATE_90_DEGREES ROTATE_180_DEGREES ROTATE_270_DEGREES
  split_ifs <;> omega

theorem advance_rotation_four (r : Nat) (h : r ≤ 3) :
    advance_rotation (advance_rotation (advance_rotation (advance_rotation r))) = r := by
  interval_cases r <;> rfl

/-- A second `pack_layer` reads the same rect, and its result differs from the first in the
rotation at most. -/
theorem pack_layer_again (rects : List image_packer_rect) (l : layer) (path : String)
    (rect : image_packer_rect) (hpath : l.asset_image_path = some path)
    (hrect : layer_rect rects l = some rect) :
    ∃ l1, pack_layer rects l = some l1 ∧ l1.asset_image_path = some path ∧
      layer_rect rects l1 = some rect ∧
      l1.src_x = int_of_unsigned rect.output.x ∧ l1.src_y = int_of_unsigned rect.output.y ∧
      l1.width = int_of_unsigned (placed_width rect) ∧
      l1.height = int_of_unsigned (placed_height rect) ∧
      l1.rotate = (if rect.output.rotated then advance_rotation l.rotate else l.rotate) ∧
      { l1 with rotate := l.rotate } = { l with
        src_x := int_of_unsigned rect.output.x, src_y := int_of_unsigned rect.output.y,
        width := int_of_unsigned (placed_width rect),
        height := int_of_unsigned (placed_height rect) } := by
  refine ⟨_, pack_layer_some rects l path rect hpath hrect, hpath, ?_, rfl, rfl, rfl, rfl, rfl,
    rfl⟩
  simpa [layer_rect] using hrect

/-! ## Properties of repeated reconciliation -/

/-- C25: for a layer with a source path whose rect exists, a second `pack_layer` with the
same rect gives the same `src_x`, `src_y`, `width` and `height` as the first; the layer after
two applications equals the layer after one exactly when the rect is not rotated; for a
rotated rect the second application advances the rotation one step further, so the two
results differ, and when the authored rotation is one of the four enumerators, four
applications return it. -/
theorem pack_layer_twice (rects : List image_packer_rect) (l : layer) (path : String)
    (rect : image_packer_rect) (hpath : l.asset_image_path = some path)
    (hrect : layer_rect rects l = some rect) :
    ∃ l1 l2 l3 l4, pack_layer rects l = some l1 ∧ pack_layer rects l1 = some l2 ∧
      pack_layer rects l2 = some l3 ∧ pack_layer rects l3 = some l4 ∧
      l2.src_x = l1.src_x ∧ l2.src_y = l1.src_y ∧ l2.width = l1.width ∧
      l2.height = l1.height ∧
      (l2 = l1 ↔ rect.output.rotated = false) ∧
      (rect.output.rotated = true →
        l1.rotate = advance_rotation l.rotate ∧ l2.rotate = advance_rotation l1.rotate ∧
        l2.rotate ≠ l1.rotate ∧ (l.rotate ≤ 3 → l4.rotate = l.rotate)) := by
  obtain ⟨l1, h1, p1, r1, x1, y1, w1, e1, t1, f1⟩ := pack_layer_again rects l path rect hpath hrect
  obtain ⟨l2, h2, p2, r2, x2, y2, w2, e2, t2, f2⟩ := pack_layer_again rects l1 path rect p1 r1
  obtain ⟨l3, h3, p3, r3, x3, y3, w3, e3, t3, f3⟩ := pack_layer_again rects l2 path rect p2 r2
  obtain ⟨l4, h4, p4, r4, x4, y4, w4, e4, t4, f4⟩ := pack_layer_again rects l3 path rect p3 r3
  refine ⟨l1, l2, l3, l4, h1, h2, h3, h4, by rw [x2, x1], by rw [y2, y1], by rw [w2, w1],
    by rw [e2, e1], ?_, ?_⟩
  · cases hrot : rect.output.rotated with
    | false =>
      simp only [iff_true]
      simp only [hrot, Bool.false_eq_true, if_false] at t2
      have : l2 = { l2 with rotate := l1.rotate } := by rw [← t2]
      rw [this, f2]
      cases l1
      simp only at x1 y1 w1 e1
      simp only [layer.mk.injEq, true_and, and_true]
      exact ⟨x1.symm, y1.symm, w1.symm, e1.symm⟩
    | true =>
      simp only [Bool.true_eq_false, iff_false]
      simp only [hrot, if_true] at t2
      intro heq
      rw [heq] at t2
      exact advance_rotation_ne _ t2.symm
  · intro hrot
    simp only [hrot, if_true] at t1 t2 t3 t4
    refine ⟨t1, t2, by rw [t2]; exact advance_rotation_ne _, ?_⟩
    intro hle
    rw [t4, t3, t2, t1]
    exact advance_rotation_four _ hle

theorem pack_layer_twice_witness :
    example_layer.asset_image_path = some "b.png" ∧
    layer_rect example_rects example_layer = some ⟨⟨2, 1⟩, ⟨2, 0, true⟩⟩ ∧
    example_layer.rotate ≤ 3 ∧
    ∃ l1 l2 l3 l4, pack_layer example_rects example_layer = some l1 ∧
      pack_layer example_rects l1 = some l2 ∧
      pack_layer example_rects l2 = some l3 ∧ pack_layer example_rects l3 = some l4 ∧
      l2.src_x = l1.src_x ∧ l2.src_y = l1.src_y ∧ l2.width = l1.width ∧
      l2.height = l1.height ∧
      (l2 = l1 ↔ (⟨⟨2, 1⟩, ⟨2, 0, true⟩⟩ : image_packer_rect).output.rotated = false) ∧
      ((⟨⟨2, 1⟩, ⟨2, 0, true⟩⟩ : image_packer_rect).output.rotated = true →
        l1.rotate = advance_rotation example_layer.rotate ∧
        l2.rotate = advance_rotation l1.rotate ∧
        l2.rotate ≠ l1.rotate ∧ (example_layer.rotate ≤ 3 → l4.rotate = example_layer.rotate)) :=
  ⟨rfl, rfl, by decide,
    pack_layer_twice example_rects example_layer "b.png" ⟨⟨2, 1⟩, ⟨2, 0, true⟩⟩ rfl rfl⟩

/-- An atlas position at a linear index. -/
theorem atlas_pixel_eq_pix (s : State) {col row : Nat} (hcol : col < s.final_image_width)
    (hrow : row < s.final_image_height) :
    atlas_pixel s col row = pix s (row * s.final_image_width + col) := by
  unfold atlas_pixel pix
  rw [if_pos ⟨hcol, hrow⟩]

/-- The index of a position outside the placed region is no index written for the rect. -/
theorem outside_region_ne_placed_index {rect : image_packer_rect} {s : State}
    (hfit : Fits rect s) {col row : Nat} (hcol : col < s.final_image_width)
    (hout : ¬ in_region rect col row) :
    ∀ y x, y < rect.input.height → x < rect.input.width →
      row * s.final_image_width + col ≠ placed_index s.final_image_width rect x y := by
  intro y x hy hx heq
  exact hout ((placed_index_iff_in_region hfit hcol).1 ⟨y, x, hy, hx, heq⟩)

/-- Every index written for a rect inside the atlas is an index of the atlas buffer. -/
theorem placed_index_lt {rect : image_packer_rect} {s : State} (hfit : Fits rect s)
    {x y : Nat} (hx : x < rect.input.width) (hy : y < rect.input.height) :
    placed_index s.final_image_width rect x y < s.final_image_width * s.final_image_height := by
  rw [placed_index_eq_cell]
  obtain ⟨h1, h2⟩ := in_region_lt hfit (cell_in_region rect hx hy)
  have h3 : ((cell rect x y).2 + 1) * s.final_image_width
      ≤ s.final_image_height * s.final_image_width := Nat.mul_le_mul_right _ (by omega)
  have e1 : ((cell rect x y).2 + 1) * s.final_image_width
      = (cell rect x y).2 * s.final_image_width + s.final_image_width := by ring
  have e2 : s.final_image_width * s.final_image_height
      = s.final_image_height * s.final_image_width := Nat.mul_comm _ _
  omega

/-! ## Properties of the rotated copy -/

/-- C22: for a `w × h` source placed rotated at `(rect.x, rect.y)` inside an atlas of width
`W`, `copy_to_final_image` is defined and writes, for the source rows `y = 0, ..., h - 1` in
turn and within a row for `x = 0, ..., w - 1` in turn, the atlas index of row
`rect.y + w - 1 - x`, column `rect.x + y`: every source row fills one atlas column from the
bottom row `rect.y + w - 1` of the placed region upward; after the copy the atlas pixel at
that row and column is the source pixel at row `y`, column `x`. -/
theorem copy_to_final_image_rotated_writes (p : List Nat) (rect : image_packer_rect)
    (s : State) (hwf : WellFormed s) (hfit : Fits rect s)
    (hbuf : p.length = rect.input.width * rect.input.height)
    (hrot : rect.output.rotated = true) :
    ∃ s', copy_to_final_image (some p) rect s = some s' ∧
      s'.writes = s.writes ++ (List.range rect.input.height).flatMap (fun y =>
        (List.range rect.input.width).map (fun x =>
          (rect.output.y + rect.input.width - 1 - x) * s.final_image_width
            + y + rect.output.x)) ∧
      ∀ x y, x < rect.input.width → y < rect.input.height →
        x ≤ rect.output.y + rect.input.width - 1 ∧
        rect.output.y + rect.input.width - 1 - x < s.final_image_height ∧
        rect.output.x + y < s.final_image_width ∧
        ∃ v, p[y * rect.input.width + x]? = some v ∧
          s'.final_image_pixels[(rect.output.y + rect.input.width - 1 - x)
            * s.final_image_width + y + rect.output.x]? = some v ∧
          atlas_pixel s' (rect.output.x + y) (rect.output.y + rect.input.width - 1 - x)
            = some v := by
  obtain ⟨s', hs', hsh, hA, -, hW, -⟩ := copy_to_final_image_spec (some p) rect s hwf hfit hbuf
  simp only [placed_index, hrot, if_true] at hW hA
  refine ⟨s', hs', hW, ?_⟩
  intro x y hx hy
  obtain ⟨v, hv⟩ := buffer_get (p := p) hbuf hx hy
  have hcell : cell rect x y
      = (rect.output.x + y, rect.output.y + rect.input.width - 1 - x) := by
    simp [cell, hrot]
  have hin := in_region_lt hfit (cell_in_region rect hx hy)
  rw [hcell] at hin
  have hpix := hA y x hy hx
  simp only [pix, buffer, Option.getD_some] at hpix
  refine ⟨by omega, hin.2, hin.1, v, hv, by rw [hpix]; exact hv, ?_⟩
  have hc := atlas_pixel_cell hfit hsh hx hy
  rw [hcell] at hc
  simp only [placed_index, hrot, if_true, pix] at hc
  rw [hc, hpix]
  exact hv

theorem copy_to_final_image_rotated_writes_witness :
    WellFormed (blank_atlas 5 4) ∧ Fits ⟨⟨3, 2⟩, ⟨1, 1, true⟩⟩ (blank_atlas 5 4) ∧
    ∃ s', copy_to_final_image (some [1, 2, 3, 4, 5, 6]) ⟨⟨3, 2⟩, ⟨1, 1, true⟩⟩
        (blank_atlas 5 4) = some s' ∧
      s'.writes = (blank_atlas 5 4).writes ++ (List.range 2).flatMap (fun y =>
        (List.range 3).map (fun x => (1 + 3 - 1 - x) * 5 + y + 1)) ∧
      ∀ x y, x < 3 → y < 2 →
        x ≤ 1 + 3 - 1 ∧ 1 + 3 - 1 - x < 4 ∧ 1 + y < 5 ∧
        ∃ v, ([1, 2, 3, 4, 5, 6] : List Nat)[y * 3 + x]? = some v ∧
          s'.final_image_pixels[(1 + 3 - 1 - x) * 5 + y + 1]? = some v ∧
          atlas_pixel s' (1 + y) (1 + 3 - 1 - x) = some v :=
  ⟨by decide, by decide,
    copy_to_final_image_rotated_writes [1, 2, 3, 4, 5, 6] ⟨⟨3, 2⟩, ⟨1, 1, true⟩⟩
      (blank_atlas 5 4) (by decide) (by decide) (by decide) rfl⟩

theorem atlas_pixel_blank (W H : Nat) {col row : Nat} (hcol : col < W) (hrow : row < H) :
    atlas_pixel (blank_atlas W H) col row = some 0 := by
  have h1 : (row + 1) * W ≤ H * W := Nat.mul_le_mul_right _ (by omega)
  have e1 : (row + 1) * W = row * W + W := by ring
  have e2 : W * H = H * W := Nat.mul_comm _ _
  have hlt : row * W + col < W * H := by omega
  simp only [atlas_pixel, blank_atlas, hcol, hrow, and_self, if_true]
  rw [List.getElem?_eq_getElem (by simpa using hlt)]
  simp

/-! ## Properties of the pixels outside the placed regions -/

/-- C23: for a rect placed inside the atlas, `copy_to_final_image` is defined and every atlas
position outside the placed region (`w × h` at `(rect.x, rect.y)` when not rotated, `h × w`
when rotated) holds after the copy the value it held before; and after `create_final_image`
on the zero-filled atlas of `pack_group`, every atlas position that belongs to the placed
region of no source is 0. -/
theorem copy_to_final_image_outside_region (pixels : Option (List Nat))
    (rect : image_packer_rect) (s : State) (rects : List image_packer_rect)
    (assets : List packed_asset) (W H : Nat) (hwf : WellFormed s) (hfit : Fits rect s)
    (hbuf : (buffer pixels).length = rect.input.width * rect.input.height)
    (hblank : WellFormed (blank_atlas W H))
    (hok : ∀ a ∈ assets, SourceOk rects (blank_atlas W H) a) :
    (∃ s', copy_to_final_image pixels rect s = some s' ∧
      ∀ col row, col < s.final_image_width → row < s.final_image_height →
        ¬ in_region rect col row → atlas_pixel s' col row = atlas_pixel s col row) ∧
    (∃ s', create_final_image rects assets (blank_atlas W H) = some s' ∧
      ∀ col row, col < W → row < H →
        (∀ a ∈ assets, ∀ r, asset_rect rects a = some r → ¬ in_region r col row) →
        atlas_pixel s' col row = some 0) := by
  constructor
  · obtain ⟨s', hs', hsh, -, hB, -, -⟩ := copy_to_final_image_spec pixels rect s hwf hfit hbuf
    refine ⟨s', hs', ?_⟩
    intro col row hcol hrow hout
    rw [atlas_pixel_eq_pix s hcol hrow,
      atlas_pixel_eq_pix s' (by rw [hsh.1]; exact hcol) (by rw [hsh.2.1]; exact hrow), hsh.1]
    exact hB _ (outside_region_ne_placed_index hfit hcol hout)
  · obtain ⟨s', hs', hsh, hB⟩ := create_final_image_frame rects assets (blank_atlas W H) hblank hok
    refine ⟨s', hs', ?_⟩
    intro col row hcol hrow hout
    have hcol' : col < (blank_atlas W H).final_image_width := hcol
    have hrow' : row < (blank_atlas W H).final_image_height := hrow
    rw [← atlas_pixel_blank W H hcol hrow, atlas_pixel_eq_pix (blank_atlas W H) hcol' hrow',
      atlas_pixel_eq_pix s' (by rw [hsh.1]; exact hcol') (by rw [hsh.2.1]; exact hrow'), hsh.1]
    apply hB
    intro a ha r hr
    obtain ⟨r', hr', hfit', -⟩ := sourceOk_rect (hok a ha)
    rw [hr] at hr'
    cases hr'
    exact outside_region_ne_placed_index hfit' hcol' (hout a ha r hr)

theorem copy_to_final_image_outside_region_witness :
    WellFormed (blank_atlas 5 4) ∧ Fits ⟨⟨3, 2⟩, ⟨1, 1, true⟩⟩ (blank_atlas 5 4) ∧
    (∀ a ∈ example_assets, SourceOk example_rects (blank_atlas 4 3) a) ∧
    (∃ s', copy_to_final_image (some [1, 2, 3, 4, 5, 6]) ⟨⟨3, 2⟩, ⟨1, 1, true⟩⟩
        (blank_atlas 5 4) = some s' ∧
      ∀ col row, col < (blank_atlas 5 4).final_image_width →
        row < (blank_atlas 5 4).final_image_height →
        ¬ in_region ⟨⟨3, 2⟩, ⟨1, 1, true⟩⟩ col row →
        atlas_pixel s' col row = atlas_pixel (blank_atlas 5 4) col row) ∧
    (∃ s', create_final_image example_rects example_assets (blank_atlas 4 3) = some s' ∧
      ∀ col row, col < 4 → row < 3 →
        (∀ a ∈ example_assets, ∀ r, asset_rect example_rects a = some r →
          ¬ in_region r col row) →
        atlas_pixel s' col row = some 0) :=
  ⟨by decide, by decide, by decide,
    copy_to_final_image_outside_region (some [1, 2, 3, 4, 5, 6]) ⟨⟨3, 2⟩, ⟨1, 1, true⟩⟩
      (blank_atlas 5 4) example_rects example_assets 4 3 (by decide) (by decide) (by decide)
      (by decide) (by decide)⟩

/-! ## Properties of the accessed indices -/

/-- C24: when the source buffer holds `w * h` pixels and the placed region lies inside the
`W × H` atlas, `copy_to_final_image` is defined, every index it reads from the source buffer
is below `w * h` and every index it writes in the atlas buffer is below `W * H`; and for
every access (source column `x < w`, row `y < h`) the `unsigned int` index computations do
not wrap: the row offsets are the exact products, and in the rotated branch
`rect.y + w - 1` does not underflow and the destination pointer stays at or above the start
of the atlas buffer after `x` steps up. -/
theorem copy_to_final_image_in_bounds (pixels : Option (List Nat)) (rect : image_packer_rect)
    (s : State) (hwf : WellFormed s) (hfit : Fits rect s)
    (hbuf : (buffer pixels).length = rect.input.width * rect.input.height) :
    ∃ s' rd wr, copy_to_final_image pixels rect s = some s' ∧
      s'.reads = s.reads ++ rd ∧ s'.writes = s.writes ++ wr ∧
      rd.length = rect.input.height * rect.input.width ∧
      wr.length = rect.input.height * rect.input.width ∧
      (∀ i ∈ rd, i < rect.input.width * rect.input.height) ∧
      (∀ j ∈ wr, j < s.final_image_width * s.final_image_height) ∧
      ∀ x y, x < rect.input.width → y < rect.input.height →
        u32 (y * rect.input.width) = y * rect.input.width ∧
        (rect.output.rotated = false →
          u32 ((y + rect.output.y) * s.final_image_width + rect.output.x)
            = (y + rect.output.y) * s.final_image_width + rect.output.x) ∧
        (rect.output.rotated = true →
          1 ≤ rect.output.y + rect.input.width ∧
          u32 (rect.output.y + rect.input.width + 4294967295)
            = rect.output.y + rect.input.width - 1 ∧
          u32 (u32 (rect.output.y + rect.input.width + 4294967295) * s.final_image_width
              + y + rect.output.x)
            = (rect.output.y + rect.input.width - 1) * s.final_image_width
              + y + rect.output.x ∧
          x * s.final_image_width
            ≤ (rect.output.y + rect.input.width - 1) * s.final_image_width
              + y + rect.output.x) := by
  obtain ⟨s', hs', -, -, -, hW, hR⟩ := copy_to_final_image_spec pixels rect s hwf hfit hbuf
  refine ⟨s', _, _, hs', hR, hW, (grid_flatMap_eq _ _ _).1, (grid_flatMap_eq _ _ _).1, ?_, ?_,
    ?_⟩
  · intro i hi
    simp only [List.mem_flatMap, List.mem_map, List.mem_range] at hi
    obtain ⟨y, hy, x, hx, rfl⟩ := hi
    have h1 : (y + 1) * rect.input.width ≤ rect.input.height * rect.input.width :=
      Nat.mul_le_mul_right _ (by omega)
    have e1 : (y + 1) * rect.input.width = y * rect.input.width + rect.input.width := by ring
    have e2 : rect.input.width * rect.input.height = rect.input.height * rect.input.width :=
      Nat.mul_comm _ _
    omega
  · intro j hj
    obtain ⟨y, x, hy, hx, rfl⟩ := (mem_placed_indices _ _ _).1 hj
    exact placed_index_lt hfit hx hy
  · intro x y hx hy
    obtain ⟨hlen, hsz⟩ := hwf
    have hb0 := placed_index_lt hfit hx hy
    have h1 : (y + 1) * rect.input.width ≤ rect.input.height * rect.input.width :=
      Nat.mul_le_mul_right _ (by omega)
    have e1 : (y + 1) * rect.input.width = y * rect.input.width + rect.input.width := by ring
    have e2 : rect.input.width * rect.input.height = rect.input.height * rect.input.width :=
      Nat.mul_comm _ _
    have hsrc : rect.input.height * rect.input.width
        ≤ s.final_image_width * s.final_image_height := by
      unfold Fits placed_width placed_height at hfit
      cases hr : rect.output.rotated with
      | false =>
        simp only [hr, Bool.false_eq_true, if_false] at hfit
        calc rect.input.height * rect.input.width
            ≤ s.final_image_height * s.final_image_width :=
              Nat.mul_le_mul (by omega) (by omega)
          _ = s.final_image_width * s.final_image_height := Nat.mul_comm _ _
      | true =>
        simp only [hr, if_true] at hfit
        exact Nat.mul_le_mul (by omega) (by omega)
    refine ⟨u32_of_lt (by omega), ?_, ?_⟩
    · intro hr
      have hb := placed_index_lt hfit (x := 0) (y := y) (by omega) hy
      simp only [placed_index, hr, Bool.false_eq_true, if_false, Nat.add_zero] at hb
      exact u32_of_lt (by omega)
    · intro hr
      have hb := placed_index_lt hfit (x := 0) (y := y) (by omega) hy
      simp only [placed_index, hr, if_true, Nat.sub_zero] at hb hb0
      have hbig : u32 (rect.output.y + rect.input.width + 4294967295)
          = rect.output.y + rect.input.width - 1 := by
        unfold u32
        have hH : rect.output.y + rect.input.width ≤ s.final_image_height := by
          unfold Fits placed_height at hfit
          simp only [hr, if_true] at hfit
          exact hfit.2
        have hHW : s.final_image_height ≤ s.final_image_width * s.final_image_height := by
          have hW1 : 1 ≤ s.final_image_width := by
            unfold Fits placed_width at hfit
            simp only [hr, if_true] at hfit
            omega
          calc s.final_image_height = 1 * s.final_image_height := (Nat.one_mul _).symm
            _ ≤ s.final_image_width * s.final_image_height := Nat.mul_le_mul_right _ hW1
        omega
      refine ⟨by omega, hbig, by rw [hbig]; exact u32_of_lt (by omega), ?_⟩
      have hx2 : x ≤ rect.output.y + rect.input.width - 1 := by omega
      have := Nat.mul_le_mul_right s.final_image_width hx2
      omega

theorem copy_to_final_image_in_bounds_witness :
    WellFormed (blank_atlas 5 4) ∧ Fits ⟨⟨3, 2⟩, ⟨1, 1, true⟩⟩ (blank_atlas 5 4) ∧
    ∃ s' rd wr, copy_to_final_image (some [1, 2, 3, 4, 5, 6]) ⟨⟨3, 2⟩, ⟨1, 1, true⟩⟩
        (blank_atlas 5 4) = some s' ∧
      s'.reads = (blank_atlas 5 4).reads ++ rd ∧ s'.writes = (blank_atlas 5 4).writes ++ wr ∧
      rd.length = 2 * 3 ∧ wr.length = 2 * 3 ∧
      (∀ i ∈ rd, i < 3 * 2) ∧ (∀ j ∈ wr, j < 5 * 4) ∧
      ∀ x y, x < 3 → y < 2 →
        u32 (y * 3) = y * 3 ∧
        (true = false → u32 ((y + 1) * 5 + 1) = (y + 1) * 5 + 1) ∧
        (true = true →
          1 ≤ 1 + 3 ∧ u32 (1 + 3 + 4294967295) = 1 + 3 - 1 ∧
          u32 (u32 (1 + 3 + 4294967295) * 5 + y + 1) = (1 + 3 - 1) * 5 + y + 1 ∧
          x * 5 ≤ (1 + 3 - 1) * 5 + y + 1) :=
  ⟨by decide, by decide,
    copy_to_final_image_in_bounds (some [1, 2, 3, 4, 5, 6]) ⟨⟨3, 2⟩, ⟨1, 1, true⟩⟩
      (blank_atlas 5 4) (by decide) (by decide) (by decide)⟩

/-! ## Properties of the building properties lookup -/

/-- The search of the table finds the first entry of the type, or there is none. -/
theorem find_mapping_spec (val : building_type_values) (type : Nat) :
    ∀ (table : List augustus_building_properties_mapping) (i : Nat),
      (∃ k entry, find_mapping val type table i = some k ∧ i ≤ k ∧
          table[k - i]? = some entry ∧ val entry.type = type) ∨
      (find_mapping val type table i = none ∧ ∀ entry ∈ table, val entry.type ≠ type) := by
  intro table
  induction table with
  | nil => intro i; right; exact ⟨rfl, by simp⟩
  | cons e rest ih =>
    intro i
    by_cases he : val e.type = type
    · left
      exact ⟨i, e, by simp [find_mapping, he], Nat.le_refl _, by simp, he⟩
    · rcases ih (i + 1) with ⟨k, entry, hk, hle, hget, hty⟩ | ⟨hnone, hno⟩
      · left
        refine ⟨k, entry, by simp [find_mapping, he, hk], by omega, ?_, hty⟩
        have e1 : k - i = (k - (i + 1)) + 1 := by omega
        rw [e1, List.getElem?_cons_succ]
        exact hget
      · right
        refine ⟨by simp [find_mapping, he, hnone], ?_⟩
        intro entry hentry
        rcases List.mem_cons.1 hentry with rfl | hin
        · exact he
        · exact hno entry hin

/-- For every type other than `BUILDING_TYPE_MAX`, the lookup returns an entry of
`augustus_building_properties` of that type, or `properties[t]` with `t` in range, or
`properties[0]` for `t` out of range. -/
theorem building_properties_for_type_elsewhere (val : building_type_values) (t : Nat)
    (hmax : 0 < val "BUILDING_TYPE_MAX") (ht : t ≠ val "BUILDING_TYPE_MAX") :
    proper_lookup val t (building_properties_for_type val t) ∧
    points_to_element val (building_properties_for_type val t) := by
  unfold building_properties_for_type
  by_cases hgt : t > val "BUILDING_TYPE_MAX"
  · rw [if_pos hgt]
    exact ⟨Or.inr (Or.inr ⟨rfl, by omega, hmax⟩), hmax⟩
  · rw [if_neg hgt]
    have hlt : t < val "BUILDING_TYPE_MAX" := by omega
    by_cases hc : (decide (t ≥ val "BUILDING_ROADBLOCK") ||
        is_vanilla_building_with_changed_properties val t) = true
    · simp only [hc, if_true]
      rcases find_mapping_spec val t augustus_building_properties 0 with
        ⟨k, entry, hk, -, hget, hty⟩ | ⟨hnone, -⟩
      · simp only [hk, Nat.sub_zero] at hget ⊢
        refine ⟨Or.inl ⟨k, entry, rfl, hget, hty⟩, ?_⟩
        show k < augustus_building_properties.length
        by_contra hge
        rw [List.getElem?_eq_none (by omega)] at hget
        cases hget
      · simp only [hnone]
        exact ⟨Or.inr (Or.inl ⟨rfl, hlt⟩), hlt⟩
    · simp only [hc, Bool.false_eq_true, if_false]
      exact ⟨Or.inr (Or.inl ⟨rfl, hlt⟩), hlt⟩

/-- C26 is broken by the code at `t = BUILDING_TYPE_MAX`: the guard
`type > BUILDING_TYPE_MAX` lets the value `BUILDING_TYPE_MAX` through; when no entry of
`augustus_building_properties` has that type, `building_properties_for_type` returns
`&properties[BUILDING_TYPE_MAX]`, which is no element of the table of `BUILDING_TYPE_MAX`
elements and not what the lookup is to return. -/
theorem building_properties_for_type_at_type_max (val : building_type_values)
    (hno : ∀ entry ∈ augustus_building_properties,
      val entry.type ≠ val "BUILDING_TYPE_MAX") :
    building_properties_for_type val (val "BUILDING_TYPE_MAX")
      = properties_pointer.vanilla (val "BUILDING_TYPE_MAX") ∧
    ¬ points_to_element val (building_properties_for_type val (val "BUILDING_TYPE_MAX")) ∧
    ¬ proper_lookup val (val "BUILDING_TYPE_MAX")
        (building_properties_for_type val (val "BUILDING_TYPE_MAX")) := by
  have hfind : find_mapping val (val "BUILDING_TYPE_MAX") augustus_building_properties 0
      = none := by
    rcases find_mapping_spec val (val "BUILDING_TYPE_MAX") augustus_building_properties 0 with
      ⟨k, entry, -, -, hget, hty⟩ | ⟨hnone, -⟩
    · exact absurd hty (hno entry (List.getElem?_mem hget))
    · exact hnone
  have hres : building_properties_for_type val (val "BUILDING_TYPE_MAX")
      = properties_pointer.vanilla (val "BUILDING_TYPE_MAX") := by
    unfold building_properties_for_type
    rw [if_neg (by omega)]
    simp only [hfind, ite_self]
  refine ⟨hres, ?_, ?_⟩
  · rw [hres]
    show ¬ (val "BUILDING_TYPE_MAX" < val "BUILDING_TYPE_MAX")
    omega
  · rw [hres]
    rintro (⟨i, entry, h, -, -⟩ | ⟨-, h⟩ | ⟨h, -, hpos⟩)
    · cases h
    · omega
    · injection h with h0
      omega

set_option maxRecDepth 100000 in
theorem building_properties_for_type_at_type_max_witness :
    (∀ entry ∈ augustus_building_properties,
      example_enumerators entry.type ≠ example_enumerators "BUILDING_TYPE_MAX") ∧
    example_enumerators "BUILDING_TYPE_MAX" = 300 ∧
    building_properties_for_type example_enumerators 300 = properties_pointer.vanilla 300 ∧
    building_properties_for_type example_enumerators
        (example_enumerators "BUILDING_TYPE_MAX")
      = properties_pointer.vanilla (example_enumerators "BUILDING_TYPE_MAX") ∧
    ¬ points_to_element example_enumerators
        (building_properties_for_type example_enumerators
          (example_enumerators "BUILDING_TYPE_MAX")) ∧
    ¬ proper_lookup example_enumerators (example_enumerators "BUILDING_TYPE_MAX")
        (building_properties_for_type example_enumerators
          (example_enumerators "BUILDING_TYPE_MAX")) :=
  ⟨by decide, by decide, by rfl,
    building_properties_for_type_at_type_max example_enumerators (by decide)⟩

/-- A rect for which the solver returned a placement takes that placement. -/
theorem place_rects_get_output :
    ∀ (rs : List image_packer_rect) (os : List rect_output) (k : Nat)
      (r : image_packer_rect) (o : rect_output),
      rs[k]? = some r → os[k]? = some o →
      (place_rects rs os)[k]? = some { r with output := o } := by
  intro rs
  induction rs with
  | nil => intro os k r o h; simp at h
  | cons r0 rest ih =>
    intro os k r o h ho
    cases os with
    | nil => simp at ho
    | cons o0 os' =>
      cases k with
      | zero =>
        simp only [List.getElem?_cons_zero, Option.some.injEq] at h ho
        subst h ho
        simp [place_rects]
      | succ n =>
        simp only [List.getElem?_cons_succ] at h ho
        simpa [place_rects] using ih os' n r o h ho

/-- A decoded source comes with a buffer of `width * height` pixels. -/
theorem decoded_length (env : Env) (p : String) (w h : Nat) (px : List Nat)
    (hdec : decoded env p = some (w, h, px)) : px.length = w * h := by
  unfold decoded at hdec
  split at hdec
  · cases hdec
  · split_ifs at hdec
    split at hdec
    · cases hdec
    · simp only [Option.some.injEq, Prod.mk.injEq] at hdec
      obtain ⟨rfl, rfl, rfl⟩ := hdec
      simp

/-! ## Properties of the declared rectangle of a layer -/

/-- C8 as stated fails: in `example_retry_env` the slot for the layer of sprite 1, on
`c.png`, cannot be allocated, and the layer keeps its `calculated_image_id` 0, the id of the
entry of `a.png`; the source `c.png` is registered by the layer of sprite 2 and has a pixel
buffer. After `pack_layer` the layer of sprite 1 declares the rectangle `[0, 2) × [0, 1)`,
the region of `a.png`, while `copy_to_final_image` writes for the rect of `c.png` the single
atlas index 2, column 2 of row 0. -/
theorem pack_layer_stale_id_rectangle :
    (pack_group example_retry_env (some example_retry_group) example_retry_images).map
        (fun out => (out.packed_assets,
          out.images.map (fun image =>
            (image.first_layer.asset_image_path, image.first_layer.calculated_image_id,
             image.first_layer.src_x, image.first_layer.src_y,
             image.first_layer.width, image.first_layer.height))))
      = some ([{ id := 0, path := some "a.png", rect := some 0, pixels := some [10, 11] },
               { id := 1, path := some "c.png", rect := some 1, pixels := some [7] }],
              [(some "a.png", 0, 0, 0, 2, 1), (some "c.png", 0, 0, 0, 2, 1),
               (some "c.png", 1, 2, 0, 1, 1)]) ∧
    (∃ reg cache1 rects1,
      get_assets_for_group example_retry_env example_retry_group example_retry_images []
        = some reg ∧
      populate_asset_rects example_retry_env reg.packed_assets
        (image_packer_init reg.packed_assets.length) = some (cache1, rects1) ∧
      place_rects rects1
          (example_retry_env.image_packer_pack (rects1.map (fun r => r.input))).outputs
        = [⟨⟨2, 1⟩, ⟨0, 0, false⟩⟩, ⟨⟨1, 1⟩, ⟨2, 0, false⟩⟩]) ∧
    (∃ s', copy_to_final_image (some [7]) ⟨⟨1, 1⟩, ⟨2, 0, false⟩⟩ (blank_atlas 3 1) = some s' ∧
      s'.writes = [2]) ∧
    ((0 : Int) ≤ ((0 : Nat) : Int) ∧ ((0 : Nat) : Int) < 0 + 2 ∧
      (0 : Int) ≤ ((0 : Nat) : Int) ∧ ((0 : Nat) : Int) < 0 + 1) ∧
    0 * 3 + 0 ∉ ([2] : List Nat) := by
  refine ⟨by rfl, ⟨_, _, _, rfl, rfl, rfl⟩, ⟨_, rfl, rfl⟩, by decide, by decide⟩

/-- C8, amended: for a layer with a source path whose `calculated_image_id` is the id of the
cache entry of its source, the source having a pixel buffer, with the placed region inside
an atlas whose width and height are in the range of `int`: rotated or not, the rectangle the
reconciled layer declares, `[src_x, src_x + width) × [src_y, src_y + height)` after
`pack_layer`, is exactly the set of atlas positions that `copy_to_final_image` writes for
the rect and the pixel buffer of the cache entry of that source. -/
theorem pack_layer_rectangle_is_written (env : Env) (cache : List packed_asset)
    (rects0 : List image_packer_rect) (outputs : List rect_output) (hfresh : FreshCache cache)
    (hlen : rects0.length = cache.length)
    (k : Nat) (a : packed_asset) (p : String) (ha : cache[k]? = some a)
    (hp : a.path = some p)
    (w h : Nat) (px : List Nat) (hdec : decoded env p = some (w, h, px))
    (o : rect_output) (ho : outputs[k]? = some o)
    (l : layer) (hl : l.asset_image_path = some p) (hid : l.calculated_image_id = (k : Int))
    (s : State) (hwf : WellFormed s) (hfit : Fits ⟨⟨w, h⟩, o⟩ s)
    (hW : s.final_image_width < 2147483648) (hH : s.final_image_height < 2147483648) :
    ∃ out rects' a' l' s' written,
      populate_asset_rects env cache rects0 = some (out, rects') ∧
      out[k]? = some a' ∧ a'.path = some p ∧ a'.id = (k : Int) ∧ a'.pixels = some px ∧
      asset_rect (place_rects rects' outputs) a' = some ⟨⟨w, h⟩, o⟩ ∧
      pack_layer (place_rects rects' outputs) l = some l' ∧
      copy_to_final_image a'.pixels ⟨⟨w, h⟩, o⟩ s = some s' ∧
      s'.writes = s.writes ++ written ∧
      ∀ col row : Nat, col < s.final_image_width →
        (row * s.final_image_width + col ∈ written ↔
          (l'.src_x ≤ (col : Int) ∧ (col : Int) < l'.src_x + l'.width ∧
           l'.src_y ≤ (row : Int) ∧ (row : Int) < l'.src_y + l'.height)) := by
  obtain ⟨out, rects', hrun, -, -, hpt⟩ :=
    populate_asset_rects_spec env cache rects0 hfresh hlen
  have hk : k < rects0.length := by
    rw [hlen]
    by_contra hge
    rw [List.getElem?_eq_none (by omega)] at ha
    cases ha
  obtain ⟨hout, hrect⟩ := hpt k a p rects0[k] ha hp (List.getElem?_eq_getElem hk)
  rw [hdec] at hout hrect
  simp only [Option.map_some', rect_outcome] at hout hrect
  have hget := place_rects_get_output rects' outputs k _ o hrect ho
  simp only at hget
  have hlr : layer_rect (place_rects rects' outputs) l = some ⟨⟨w, h⟩, o⟩ := by
    simp [layer_rect, hid, hget]
  have hbuf : px.length = w * h := decoded_length env p w h px hdec
  obtain ⟨s', hs', -, -, -, hWr, -⟩ :=
    copy_to_final_image_spec (some px) ⟨⟨w, h⟩, o⟩ s hwf hfit hbuf
  refine ⟨out, rects', _, _, s', _, hrun, hout, hp, (freshCache_get hfresh ha).1, rfl, ?_,
    pack_layer_some _ l p _ hl hlr, hs', hWr, ?_⟩
  · simp [asset_rect, hget]
  · intro col row hcol
    rw [mem_placed_indices, placed_index_iff_in_region hfit hcol]
    have hf := hfit
    unfold Fits at hf
    simp only at hf
    rw [int_of_unsigned_of_lt (n := o.x) (by omega), int_of_unsigned_of_lt (n := o.y) (by omega),
      int_of_unsigned_of_lt (n := placed_width ⟨⟨w, h⟩, o⟩) (by omega),
      int_of_unsigned_of_lt (n := placed_height ⟨⟨w, h⟩, o⟩) (by omega)]
    unfold in_region
    simp only
    omega

theorem pack_layer_rectangle_is_written_witness :
    FreshCache example_cache ∧ (blank_rects 3).length = example_cache.length ∧
    decoded example_env "a.png" = some (2, 1, [10, 11]) ∧
    WellFormed (blank_atlas 3 1) ∧ Fits ⟨⟨2, 1⟩, ⟨0, 0, false⟩⟩ (blank_atlas 3 1) ∧
    ∃ out rects' a' l' s' written,
      populate_asset_rects example_env example_cache (blank_rects 3) = some (out, rects') ∧
      out[0]? = some a' ∧ a'.path = some "a.png" ∧ a'.id = ((0 : Nat) : Int) ∧
      a'.pixels = some [10, 11] ∧
      asset_rect (place_rects rects' [⟨0, 0, false⟩, ⟨0, 0, false⟩, ⟨2, 0, false⟩]) a'
        = some ⟨⟨2, 1⟩, ⟨0, 0, false⟩⟩ ∧
      pack_layer (place_rects rects' [⟨0, 0, false⟩, ⟨0, 0, false⟩, ⟨2, 0, false⟩])
        (example_call "a.png").2 = some l' ∧
      copy_to_final_image a'.pixels ⟨⟨2, 1⟩, ⟨0, 0, false⟩⟩ (blank_atlas 3 1) = some s' ∧
      s'.writes = (blank_atlas 3 1).writes ++ written ∧
      ∀ col row : Nat, col < (blank_atlas 3 1).final_image_width →
        (row * (blank_atlas 3 1).final_image_width + col ∈ written ↔
          (l'.src_x ≤ (col : Int) ∧ (col : Int) < l'.src_x + l'.width ∧
           l'.src_y ≤ (row : Int) ∧ (row : Int) < l'.src_y + l'.height)) :=
  ⟨by decide, by decide, by decide, by decide, by decide,
    pack_layer_rectangle_is_written example_env example_cache (blank_rects 3)
      [⟨0, 0, false⟩, ⟨0, 0, false⟩, ⟨2, 0, false⟩] (by decide) (by decide) 0
      { id := 0, path := some "a.png", rect := none, pixels := none } "a.png" rfl rfl
      2 1 [10, 11] (by decide) ⟨0, 0, false⟩ rfl (example_call "a.png").2 rfl rfl
      (blank_atlas 3 1) (by decide) (by decide) (by decide) (by decide)⟩

end AssetPacker
